import Mathlib

/-!
# VigilantEye: capture / session / detection pipeline

A shallow embedding of the camera widget of `src/static/script.js` (the module-level state
and the functions that act on it) together with theorems about its motion detector, its
object heuristic, its session store, its persistence and its camera and recording controls.

Modelling conventions

* The module-level variables of the script are the fields of `State`; every function of the
  script that mutates them is a function `State → … → State`.
* JavaScript objects that are shared by reference (the session objects, which are held both by
  `currentSession` and by the `sessionHistory` array) live in `State.heap`; a reference is the
  index of the object in the heap. Writing through `currentSession` is therefore visible
  through `sessionHistory`, exactly as in the script.
* Values read from the environment (`new Date()`, `Math.random()`, the pixels returned by
  `getImageData`, the state of a checkbox) are explicit arguments.
* A function that can let an exception escape returns `Except`; the others return the new
  state.
* A frame buffer is the `Uint8ClampedArray` of `ImageData.data`: a list of bytes.
* `sensitivity` is a rational number and `sensitivity * 255` is computed exactly.
-/

namespace VigilantEye

/-! ## Data model -/

/-- One element of a `Uint8ClampedArray`. -/
abbrev Byte := Fin 256

/-- A time held in a field of a session: a `Date` object as produced by `new Date()`, or the
ISO string that `JSON.stringify` writes for it (what the field holds after `JSON.parse`).
`ms` is the time in milliseconds since the epoch. -/
inductive JsTime where
  | date (ms : Int)
  | text (ms : Int)
  deriving DecidableEq

/-- The object literal passed to `addRecordingToSession` by `startRecording`. -/
structure Recording where
  id : String
  startTime : JsTime
  duration : Int
  status : String
  deriving DecidableEq

/-- The object literal passed to `addScreenshotToSession` by `takeScreenshot`. -/
structure Screenshot where
  id : String
  timestamp : JsTime
  filename : String
  deriving DecidableEq

/-- The object literal passed to `addMotionEventToSession` by `detectMotion`. -/
structure MotionEvent where
  timestamp : JsTime
  motionPixels : Nat
  confidence : ℚ
  deriving DecidableEq

/-- The `settings` object of a session. -/
structure SessionSettings where
  resolution : String
  fps : Int
  facingMode : String
  deriving DecidableEq

/-- A session object. `duration` and `motionEvents` are absent (`none`) in the literal built by
`startNewSession`; `duration = some none` is a `duration` that is not a number (`NaN`). -/
structure Session where
  id : String
  startTime : JsTime
  endTime : Option JsTime
  recordings : List Recording
  screenshots : List Screenshot
  settings : SessionSettings
  status : String
  duration : Option (Option Int)
  motionEvents : Option (List MotionEvent)
  deriving DecidableEq

/-- One element of `objectDetection.detectedObjects`. The `type` field of the script is
`kind` here. -/
structure DetectedObject where
  id : Nat
  kind : String
  confidence : ℚ
  deriving DecidableEq

/-- The `motionDetection` object. `lastFrame = none` is `null`. -/
structure MotionDetection where
  enabled : Bool
  sensitivity : ℚ
  lastFrame : Option (List Byte)
  motionCount : Nat
  motionThreshold : Nat
  deriving DecidableEq

/-- The `objectDetection` object. -/
structure ObjectDetection where
  enabled : Bool
  detectedObjects : List DetectedObject
  deriving DecidableEq

/-- The value stored under `vigilanteye_session_history`: a text that `JSON.parse` reads as the
given array of sessions, or a text on which `JSON.parse` throws. -/
inductive StoredHistory where
  | parsed (sessions : List Session)
  | unparseable (raw : String)
  deriving DecidableEq

/-- The keys of `localStorage` the widget uses; `none` is a missing key. -/
structure LocalStorage where
  cameraResolution : Option String
  cameraFPS : Option String
  cameraFacingMode : Option String
  vigilanteye_session_history : Option StoredHistory
  deriving DecidableEq

/-- A text node of the page with its class: `none` when the element is not in the page. -/
abbrev StatusElement := Option (String × String)

/-- A stream returned by `getUserMedia`, with the resolution the device negotiated (what
`video.videoWidth` and `video.videoHeight` report once the stream plays in the video
element). -/
structure MediaStream where
  videoWidth : Nat
  videoHeight : Nat
  deriving DecidableEq

/-- The module-level state of the script. `sessionHistory` and `currentSession` hold references
into `heap`. `motionStatus`, `objectStatus`, `cameraStatus` and `recordingStatus` are status
elements of the page, `videoSrcObject` is `video.srcObject`, `mediaRecorder` is the stream the
recorder was built on, `recordedChunks` holds the sizes of the chunks, `alerts` lists the
messages shown with `alert`, and `animationFrameRequests` counts the calls of
`requestAnimationFrame(processFrame)`. Button states, display styles, canvas drawing and
downloads are not part of the state. -/
structure State where
  heap : List Session
  sessionHistory : List Nat
  currentSession : Option Nat
  motionDetection : MotionDetection
  objectDetection : ObjectDetection
  localStorage : LocalStorage
  motionStatus : StatusElement
  objectStatus : StatusElement
  cameraStream : Option MediaStream
  videoSrcObject : Option MediaStream
  cameraActive : Bool
  fpsCounter : Nat
  animationFrameRequests : Nat
  mediaRecorder : Option MediaStream
  recordedChunks : List Nat
  isRecording : Bool
  recordingStartTime : Option Int
  alerts : List String
  cameraStatus : String × String
  recordingStatus : StatusElement
  deriving DecidableEq

/-- The state right after the script is loaded on a page that has the status elements and an
empty `localStorage`. -/
def State.init : State where
  heap := []
  sessionHistory := []
  currentSession := none
  motionDetection :=
    { enabled := false, sensitivity := 3 / 10, lastFrame := none, motionCount := 0,
      motionThreshold := 10 }
  objectDetection := { enabled := false, detectedObjects := [] }
  localStorage :=
    { cameraResolution := none, cameraFPS := none, cameraFacingMode := none,
      vigilanteye_session_history := none }
  motionStatus := some ("", "")
  objectStatus := some ("", "")
  cameraStream := none
  videoSrcObject := none
  cameraActive := false
  fpsCounter := 0
  animationFrameRequests := 0
  mediaRecorder := none
  recordedChunks := []
  isRecording := false
  recordingStartTime := none
  alerts := []
  cameraStatus := ("", "")
  recordingStatus := some ("", "")

/-! ## Frame buffers -/

/-- The values `i` taken by `for (let i = 0; i < n; i += 4)`. -/
def loopIndices (n : Nat) : List Nat :=
  (List.range ((n + 3) / 4)).map (fun k => 4 * k)

/-- The value of `Math.abs(a - b)` for two reads of a typed array; `none` is `undefined` for a
read and `NaN` for the result. -/
def absDiff (a b : Option Byte) : Option Nat :=
  match a, b with
  | some x, some y => some (Int.natAbs ((x.val : Int) - (y.val : Int)))
  | _, _ => none

/-- The value of `d > threshold`, which is false for `NaN`. -/
def exceeds (d : Option Nat) (threshold : ℚ) : Bool :=
  match d with
  | some v => decide ((v : ℚ) > threshold)
  | none => false

/-- The value of `v < 100` for a read of a typed array, which is false for `undefined`. -/
def below100 (v : Option Byte) : Bool :=
  match v with
  | some x => decide (x.val < 100)
  | none => false

/-- The test of the loop body of `detectMotion` at index `i`. -/
def pixelChanged (data lastFrame : List Byte) (threshold : ℚ) (i : Nat) : Bool :=
  let r := absDiff data[i]? lastFrame[i]?
  let g := absDiff data[i + 1]? lastFrame[i + 1]?
  let b := absDiff data[i + 2]? lastFrame[i + 2]?
  exceeds r threshold || exceeds g threshold || exceeds b threshold

/-- The loop of `detectMotion`: the final value of `motionPixels`. -/
def countMotionPixels (data lastFrame : List Byte) (threshold : ℚ) : Nat :=
  (loopIndices data.length).foldl
    (fun motionPixels i =>
      if pixelChanged data lastFrame threshold i then motionPixels + 1 else motionPixels) 0

/-- The test of the loop body of `detectObjects` at index `i`. -/
def pixelDark (data : List Byte) (i : Nat) : Bool :=
  let r := data[i]?
  let g := data[i + 1]?
  let b := data[i + 2]?
  below100 r || below100 g || below100 b

/-- The loop of `detectObjects`: the final value of `edgePixels`. -/
def countEdgePixels (data : List Byte) : Nat :=
  (loopIndices data.length).foldl
    (fun edgePixels i => if pixelDark data i then edgePixels + 1 else edgePixels) 0

/-! ## Persistence -/

/-- What `JSON.stringify` followed by `JSON.parse` makes of a time: the ISO string. -/
def JsTime.toJSON : JsTime → JsTime
  | .date ms => .text ms
  | .text ms => .text ms

/-- The number a time converts to in a subtraction: the milliseconds of a `Date`, `NaN`
(`none`) for a string that is not a numeric literal. -/
def JsTime.toNumber : JsTime → Option Int
  | .date ms => some ms
  | .text _ => none

/-- A recording as it is read back from its serialization. -/
def Recording.toJSON (r : Recording) : Recording :=
  { r with startTime := r.startTime.toJSON }

/-- A screenshot as it is read back from its serialization. -/
def Screenshot.toJSON (s : Screenshot) : Screenshot :=
  { s with timestamp := s.timestamp.toJSON }

/-- A motion event as it is read back from its serialization. -/
def MotionEvent.toJSON (e : MotionEvent) : MotionEvent :=
  { e with timestamp := e.timestamp.toJSON }

/-- A session as it is read back from its serialization: every `Date` has become a string,
absent fields stay absent. -/
def Session.toJSON (s : Session) : Session :=
  { s with
    startTime := s.startTime.toJSON
    endTime := s.endTime.map JsTime.toJSON
    recordings := s.recordings.map Recording.toJSON
    screenshots := s.screenshots.map Screenshot.toJSON
    motionEvents := s.motionEvents.map (fun es => es.map MotionEvent.toJSON) }

/-- The session objects the `sessionHistory` array refers to, in order. -/
def State.history (st : State) : List Session :=
  st.sessionHistory.filterMap (fun r => st.heap[r]?)

/-- The script's `saveSessionHistory`:
`localStorage.setItem('vigilanteye_session_history', JSON.stringify(sessionHistory))`. -/
def saveSessionHistory (st : State) : State :=
  { st with
    localStorage :=
      { st.localStorage with
        vigilanteye_session_history :=
          some (StoredHistory.parsed (st.history.map Session.toJSON)) } }

/-! ## Session store -/

/-- The value of `array.findIndex(p)`; `none` is `-1`. -/
def findIndex {α : Type} (p : α → Bool) : List α → Option Nat
  | [] => none
  | x :: xs => if p x then some 0 else (findIndex p xs).map (fun k => k + 1)

/-- An assignment to fields of the object a reference points to. -/
def updateObject (heap : List Session) (ref : Nat) (f : Session → Session) : List Session :=
  match heap[ref]? with
  | some s => heap.set ref (f s)
  | none => heap

/-- The script's `addToSessionHistory`: `unshift`, then `slice(0, 50)` when the length exceeds
50, then `saveSessionHistory`. -/
def addToSessionHistory (st : State) (session : Nat) : State :=
  let unshifted := session :: st.sessionHistory
  let sessionHistory := if unshifted.length > 50 then unshifted.take 50 else unshifted
  saveSessionHistory { st with sessionHistory := sessionHistory }

/-- The script's `updateSessionInHistory`: the first entry of the history whose `id` equals the
`id` of `session` is replaced by `session`, and the history is saved; nothing happens when
there is no such entry. -/
def updateSessionInHistory (st : State) (session : Nat) : State :=
  match st.heap[session]? with
  | none => st
  | some target =>
    match findIndex (fun r => decide ((st.heap[r]?).map Session.id = some target.id))
        st.sessionHistory with
    | some index =>
      saveSessionHistory { st with sessionHistory := st.sessionHistory.set index session }
    | none => st

/-- The value of `localStorage.getItem(key) || fallback`: a missing key and the empty string
are falsy. -/
def orDefault (item : Option String) (fallback : String) : String :=
  match item with
  | some s => if s = "" then fallback else s
  | none => fallback

/-- The white space `parseInt` skips at the start of its argument. -/
def isWhiteSpace (c : Char) : Bool :=
  let n := c.toNat
  (9 ≤ n && n ≤ 13) || n = 32 || n = 160 || n = 5760 || (8192 ≤ n && n ≤ 8202) ||
    n = 8232 || n = 8233 || n = 8239 || n = 8287 || n = 12288 || n = 65279

/-- The value of a character as a digit, letters counting from 10. -/
def digitValue (c : Char) : Option Nat :=
  let n := c.toNat
  if 48 ≤ n ∧ n ≤ 57 then some (n - 48)
  else if 97 ≤ n ∧ n ≤ 122 then some (n - 87)
  else if 65 ≤ n ∧ n ≤ 90 then some (n - 55)
  else none

/-- The longest prefix of digits below `radix`. -/
def takeDigits (radix : Nat) : List Char → List Nat
  | [] => []
  | c :: cs =>
    match digitValue c with
    | some d => if d < radix then d :: takeDigits radix cs else []
    | none => []

/-- The value of `parseInt(item)` for an item of `localStorage`; `none` is `NaN`, and a missing
item is read as the text `null`. The integer the digits denote is kept as it is; the script
holds the double nearest to it, which is the same number for every numeral below `2 ^ 53`. -/
def parseInt (item : Option String) : Option Int :=
  let input := (item.getD "null").toList
  let trimmed := input.dropWhile isWhiteSpace
  let signed : Int × List Char :=
    match trimmed with
    | '-' :: cs => (-1, cs)
    | '+' :: cs => (1, cs)
    | cs => (1, cs)
  let based : Nat × List Char :=
    match signed.2 with
    | '0' :: 'x' :: cs => (16, cs)
    | '0' :: 'X' :: cs => (16, cs)
    | cs => (10, cs)
  match takeDigits based.1 based.2 with
  | [] => none
  | ds => some (signed.1 * ((ds.foldl (fun acc d => acc * based.1 + d) 0 : Nat) : Int))

/-- The value of `parseInt(item) || fallback`: `NaN` and `0` are falsy. -/
def parseIntOr (item : Option String) (fallback : Int) : Int :=
  match parseInt item with
  | some v => if v = 0 then fallback else v
  | none => fallback

/-- The script's `generateSessionId`; `now` is `Date.now()` and `random` is
`Math.random().toString(36).substr(2, 9)`. -/
def generateSessionId (now : Int) (random : String) : String :=
  "session_" ++ toString now ++ "_" ++ random

/-- The script's `startNewSession`; `idNow` and `random` are what `generateSessionId` reads,
`now` is `new Date()`. The new object is allocated in the heap, `currentSession` refers to it,
and it is passed to `addToSessionHistory`. -/
def startNewSession (st : State) (idNow : Int) (random : String) (now : Int) : State :=
  let session : Session :=
    { id := generateSessionId idNow random
      startTime := .date now
      endTime := none
      recordings := []
      screenshots := []
      settings :=
        { resolution := orDefault st.localStorage.cameraResolution "1280x720"
          fps := parseIntOr st.localStorage.cameraFPS 30
          facingMode := orDefault st.localStorage.cameraFacingMode "user" }
      status := "active"
      duration := none
      motionEvents := none }
  let ref := st.heap.length
  addToSessionHistory { st with heap := st.heap ++ [session], currentSession := some ref } ref

/-- The value of `Math.floor((endTime - startTime) / 1000)`; `none` is `NaN`. -/
def durationSeconds (endTime startTime : JsTime) : Option Int :=
  match endTime.toNumber, startTime.toNumber with
  | some e, some s => some ((e - s) / 1000)
  | _, _ => none

/-- The script's `endCurrentSession`; `now` is `new Date()`. -/
def endCurrentSession (st : State) (now : Int) : State :=
  match st.currentSession with
  | some ref =>
    let st1 := { st with
      heap := updateObject st.heap ref (fun s =>
        { s with
          endTime := some (.date now)
          status := "completed"
          duration := some (durationSeconds (.date now) s.startTime) }) }
    let st2 := updateSessionInHistory st1 ref
    { st2 with currentSession := none }
  | none => st

/-- The script's `addRecordingToSession`. -/
def addRecordingToSession (st : State) (recordingData : Recording) : State :=
  match st.currentSession with
  | some ref =>
    let st1 := { st with
      heap := updateObject st.heap ref (fun s =>
        { s with recordings := s.recordings ++ [recordingData] }) }
    updateSessionInHistory st1 ref
  | none => st

/-- The script's `addScreenshotToSession`. -/
def addScreenshotToSession (st : State) (screenshotData : Screenshot) : State :=
  match st.currentSession with
  | some ref =>
    let st1 := { st with
      heap := updateObject st.heap ref (fun s =>
        { s with screenshots := s.screenshots ++ [screenshotData] }) }
    updateSessionInHistory st1 ref
  | none => st

/-- The script's `addMotionEventToSession`: the `motionEvents` array is created when the
session has none. -/
def addMotionEventToSession (st : State) (eventData : MotionEvent) : State :=
  match st.currentSession with
  | some ref =>
    let st1 := { st with
      heap := updateObject st.heap ref (fun s =>
        { s with motionEvents := some (s.motionEvents.getD [] ++ [eventData]) }) }
    updateSessionInHistory st1 ref
  | none => st

/-! ## Detectors -/

/-- The script's `updateMotionStatus`. -/
def updateMotionStatus (st : State) (message className : String) : State :=
  { st with motionStatus := st.motionStatus.map (fun _ => (message, "fw-semibold " ++ className)) }

/-- The script's `updateObjectStatus`. -/
def updateObjectStatus (st : State) (message : String) : State :=
  { st with objectStatus := st.objectStatus.map (fun _ => (message, "fw-semibold text-info")) }

/-- The value of `Math.min(motionPixels / 1000, 1)`. -/
def motionConfidence (motionPixels : Nat) : ℚ :=
  min ((motionPixels : ℚ) / 1000) 1

/-- The script's `detectMotion`; `data` is `ctx.getImageData(…).data` and `now` is
`new Date()`. -/
def detectMotion (st : State) (data : List Byte) (now : Int) : State :=
  match st.motionDetection.lastFrame with
  | none => { st with motionDetection := { st.motionDetection with lastFrame := some data } }
  | some lastFrame =>
    let threshold := st.motionDetection.sensitivity * 255
    let motionPixels := countMotionPixels data lastFrame threshold
    let st1 := { st with motionDetection := { st.motionDetection with lastFrame := some data } }
    if motionPixels > st1.motionDetection.motionThreshold then
      let st2 := { st1 with
        motionDetection :=
          { st1.motionDetection with motionCount := st1.motionDetection.motionCount + 1 } }
      let st3 := updateMotionStatus st2 "Motion Detected" "text-danger"
      if st3.currentSession.isSome then
        addMotionEventToSession st3
          { timestamp := .date now
            motionPixels := motionPixels
            confidence := motionConfidence motionPixels }
      else st3
    else updateMotionStatus st1 "Monitoring" "text-success"

/-- The script's `detectObjects`; `data` is `ctx.getImageData(…).data`. -/
def detectObjects (st : State) (data : List Byte) : State :=
  let edgePixels := countEdgePixels data
  let objectCount := edgePixels / 1000
  let st1 := { st with
    objectDetection :=
      { st.objectDetection with
        detectedObjects :=
          (List.range objectCount).map (fun i =>
            { id := i, kind := "object", confidence := 7 / 10 }) } }
  updateObjectStatus st1 (toString objectCount ++ " detected")

/-- The script's `toggleMotionDetection`; `checked` is the state of the checkbox. -/
def toggleMotionDetection (st : State) (checked : Bool) : State :=
  let st1 := { st with motionDetection := { st.motionDetection with enabled := checked } }
  if st1.motionDetection.enabled then
    let st2 := updateMotionStatus st1 "Enabled" "text-success"
    { st2 with motionDetection := { st2.motionDetection with lastFrame := none } }
  else updateMotionStatus st1 "Disabled" "text-secondary"


/-! ## Loading the history -/

/-- The script's `loadSessionHistory`. A missing item and the empty text are falsy, so nothing
is parsed; on any other text that is not JSON, `JSON.parse` throws a `SyntaxError`, which the
function does not catch (`Except.error`); otherwise `JSON.parse` builds new objects and
`sessionHistory` becomes the array of them. -/
def loadSessionHistory (st : State) : Except String State :=
  match st.localStorage.vigilanteye_session_history with
  | none => .ok st
  | some (.unparseable raw) => if raw = "" then .ok st else .error "SyntaxError"
  | some (.parsed sessions) =>
    .ok { st with
      heap := st.heap ++ sessions
      sessionHistory := List.range' st.heap.length sessions.length }

/-- The state of the script after the page was loaded again: the module-level variables are
initialised anew and `localStorage` is what it was. -/
def reloadPage (st : State) : State :=
  { State.init with localStorage := st.localStorage }

/-! ## Camera -/

/-- The outcome of `navigator.mediaDevices.getUserMedia`: a stream, or a rejection with an
error whose `name` may be missing. -/
inductive MediaRequest where
  | granted (stream : MediaStream)
  | rejected (errorName : Option String)
  deriving DecidableEq

/-- The script's `updateCameraStatus`. -/
def updateCameraStatus (st : State) (message className : String) : State :=
  { st with cameraStatus := (message, "fw-semibold " ++ className) }

/-- The `getErrorMessage` of `src/static/script.js`; the argument is `error.name`. -/
def getErrorMessage (errorName : Option String) : String :=
  if errorName = some "NotAllowedError" then
    "Camera access denied. Please allow camera access and try again."
  else if errorName = some "NotFoundError" then
    "No camera found. Please connect a camera and try again."
  else if errorName = some "NotReadableError" then
    "Camera is being used by another application."
  else if errorName = some "OverconstrainedError" then
    "Camera constraints cannot be satisfied."
  else "Unable to access camera. Please check your camera settings."

/-- The `getErrorMessage` of `src/VigilantEye-Integrated/backend/static/script.js`. -/
def Integrated.getErrorMessage (errorName : Option String) : String :=
  if errorName = some "NotAllowedError" then
    "Camera access denied. Please allow camera access and try again."
  else if errorName = some "NotFoundError" then
    "No camera found. Please connect a camera and try again."
  else if errorName = some "NotReadableError" then
    "Camera is being used by another application."
  else if errorName = some "OverconstrainedError" then
    "Camera constraints cannot be satisfied."
  else "Unable to access camera. Please check your camera settings."

/-- The script's `startCamera` up to the point where the video element waits for its
metadata: the stream is stored and given to the video element, or the rejection is reported
in the status element. -/
def startCamera (st : State) (request : MediaRequest) : State :=
  match request with
  | .granted stream => { st with cameraStream := some stream, videoSrcObject := some stream }
  | .rejected errorName =>
    updateCameraStatus st ("Error: " ++ getErrorMessage errorName) "text-danger"

/-- The value of `video.videoWidth`. -/
def videoWidth (st : State) : Nat :=
  match st.videoSrcObject with
  | some stream => stream.videoWidth
  | none => 0

/-- The value of `video.videoHeight`. -/
def videoHeight (st : State) : Nat :=
  match st.videoSrcObject with
  | some stream => stream.videoHeight
  | none => 0

/-- The text `${video.videoWidth}x${video.videoHeight}`: the negotiated resolution. -/
def negotiatedResolution (st : State) : String :=
  toString (videoWidth st) ++ "x" ++ toString (videoHeight st)

/-- The script's `processAIFeatures`; `data` is the image data of the canvas. -/
def processAIFeatures (st : State) (data : List Byte) (now : Int) : State :=
  let st1 := if st.motionDetection.enabled then detectMotion st data now else st
  if st1.objectDetection.enabled then detectObjects st1 data else st1

/-- The script's `processFrame`; `data` is the image data of the frame drawn into the
canvas. -/
def processFrame (st : State) (data : List Byte) (now : Int) : State :=
  if !st.cameraActive then st
  else
    let st1 :=
      if videoWidth st > 0 ∧ videoHeight st > 0 then
        let st2 :=
          if st.motionDetection.enabled || st.objectDetection.enabled then
            processAIFeatures st data now
          else st
        { st2 with fpsCounter := st2.fpsCounter + 1 }
      else st
    { st1 with animationFrameRequests := st1.animationFrameRequests + 1 }

/-- The handler `video.onloadedmetadata` that `startCamera` installs. The assignment to
`resolution.textContent` in it has no effect on the page: inside the `try` block `resolution`
is the text read from `localStorage`, not the element. `data` and `frameNow` are read by the
first `processFrame`, the other arguments by `startNewSession`. -/
def onloadedmetadata (st : State) (data : List Byte) (frameNow idNow : Int) (random : String)
    (now : Int) : State :=
  let st1 := { st with cameraActive := true, cameraStatus := ("Connected", "fw-semibold text-success") }
  let st2 := processFrame st1 data frameNow
  startNewSession st2 idNow random now

/-- The script's `stopCamera`; `now` is the `new Date()` of `endCurrentSession`. -/
def stopCamera (st : State) (now : Int) : State :=
  let st1 :=
    match st.cameraStream with
    | some _ => { st with cameraStream := none }
    | none => st
  let st2 := { st1 with cameraActive := false }
  let st3 := updateCameraStatus st2 "Disconnected" "text-secondary"
  let st4 := { st3 with
    recordingStatus := st3.recordingStatus.map (fun _ => ("Ready", "fw-semibold text-secondary")) }
  endCurrentSession st4 now

/-! ## Recording and screenshots -/

/-- The effect of `alert(message)`. -/
def alert (st : State) (message : String) : State :=
  { st with alerts := st.alerts ++ [message] }

/-- What happens when the recorder is built and started: both succeed, or
`new MediaRecorder(…)` throws, or `mediaRecorder.start()` throws; `message` is
`error.message`. -/
inductive RecorderStart where
  | started
  | constructorThrew (message : String)
  | startThrew (message : String)
  deriving DecidableEq

/-- The script's `startRecording`; `startedAt` is the `new Date()` stored in
`recordingStartTime`, `idNow` the `Date.now()` of the id and `now` the `new Date()` of the
record. -/
def startRecording (st : State) (recorder : RecorderStart) (startedAt idNow now : Int) : State :=
  match st.cameraActive, st.cameraStream with
  | true, some stream =>
    let st1 := { st with recordedChunks := [] }
    match recorder with
    | .constructorThrew message => alert st1 ("Error starting recording: " ++ message)
    | .startThrew message =>
      alert { st1 with mediaRecorder := some stream } ("Error starting recording: " ++ message)
    | .started =>
      let st2 := { st1 with
        mediaRecorder := some stream
        isRecording := true
        recordingStartTime := some startedAt
        recordingStatus :=
          st1.recordingStatus.map (fun _ => ("Recording...", "fw-semibold text-danger")) }
      addRecordingToSession st2
        { id := "rec_" ++ toString idNow
          startTime := .date now
          duration := 0
          status := "recording" }
  | _, _ => alert st "Please start the camera first"

/-- The script's `stopRecording`. `mediaRecorder.stop()` ends the encoding and later starts the
download of the recorded chunks, which touches no module-level variable. -/
def stopRecording (st : State) : State :=
  if !st.isRecording || st.mediaRecorder.isNone then st
  else
    { st with
      isRecording := false
      recordingStatus :=
        st.recordingStatus.map (fun _ => ("Stopped", "fw-semibold text-secondary")) }

/-- The value of `iso.slice(0, 19).replace(/:/g, '-')`. -/
def fileTimestamp (iso : String) : String :=
  String.mk ((iso.toList.take 19).map (fun c => if c = ':' then '-' else c))

/-- The script's `takeScreenshot`; `idNow` is the `Date.now()` of the id, `now` the
`new Date()` of the record and `iso` the `new Date().toISOString()` of its file name. The
drawing, the download and the feedback in the screenshot status element are not part of the
state. -/
def takeScreenshot (st : State) (idNow now : Int) (iso : String) : State :=
  if !st.cameraActive then alert st "Please start the camera first"
  else
    addScreenshotToSession st
      { id := "screenshot_" ++ toString idNow
        timestamp := .date now
        filename := "vigilanteye_screenshot_" ++ fileTimestamp iso ++ ".png" }

/-! ## Settings, toggles and the history panel -/

/-- The script's `clearSessionHistory`; `confirmed` is the answer to `confirm(…)`. -/
def clearSessionHistory (st : State) (confirmed : Bool) : State :=
  if confirmed then saveSessionHistory { st with sessionHistory := [] } else st

/-- The script's `toggleObjectDetection`; `checked` is the state of the checkbox. -/
def toggleObjectDetection (st : State) (checked : Bool) : State :=
  let st1 := { st with objectDetection := { st.objectDetection with enabled := checked } }
  if st1.objectDetection.enabled then updateObjectStatus st1 "Enabled"
  else
    let st2 := updateObjectStatus st1 "0 detected"
    { st2 with objectDetection := { st2.objectDetection with detectedObjects := [] } }

/-- The script's `updateMotionSensitivity`; `value` is `parseFloat(slider.value)`. -/
def updateMotionSensitivity (st : State) (value : ℚ) : State :=
  { st with motionDetection := { st.motionDetection with sensitivity := value } }

/-- The script's `updateFPS`, run once a second: the counter is read and reset while the
capture is active. -/
def updateFPS (st : State) : State :=
  if st.cameraActive then { st with fpsCounter := 0 } else st

/-- The text `localStorage.setItem` stores for the number `parseInt(value)`. -/
def storedIntText (value : String) : String :=
  match parseInt (some value) with
  | some n => toString n
  | none => "NaN"

/-- The script's `applyCameraSettings`; `selects` holds the values of the resolution, frame
rate and camera select elements, `none` when one of the elements is missing. -/
def applyCameraSettings (st : State) (selects : Option (String × String × String)) : State :=
  if st.cameraActive then alert st "Please stop the camera first to apply new settings"
  else
    match selects with
    | some (resolution, fps, facingMode) =>
      { st with
        localStorage :=
          { st.localStorage with
            cameraResolution := some resolution
            cameraFPS := some (storedIntText fps)
            cameraFacingMode := some facingMode } }
    | none => st

/-- The script's `formatDuration`; `%` is the remainder of JavaScript, which has the sign of
the dividend. -/
def formatDuration (seconds : Int) : String :=
  let hours := seconds / 3600
  let minutes := (Int.tmod seconds 3600) / 60
  let secs := Int.tmod seconds 60
  if hours > 0 then toString hours ++ "h " ++ toString minutes ++ "m " ++ toString secs ++ "s"
  else if minutes > 0 then toString minutes ++ "m " ++ toString secs ++ "s"
  else toString secs ++ "s"

/-- One entry of the history panel, without the start time (whose text depends on the
locale). -/
structure SessionItem where
  title : String
  recordingsCount : Nat
  screenshotsCount : Nat
  statusClass : String
  duration : String
  settings : String
  deriving DecidableEq

/-- The text `updateSessionHistoryDisplay` shows for the duration of a session:
`session.duration ? formatDuration(session.duration) : 'Active'`. A missing duration, `NaN`
and `0` are falsy. -/
def durationLabel (session : Session) : String :=
  match session.duration with
  | some (some seconds) => if seconds = 0 then "Active" else formatDuration seconds
  | _ => "Active"

/-- The entry `updateSessionHistoryDisplay` renders for a session. -/
def sessionItem (session : Session) : SessionItem :=
  { title := "Session " ++ String.mk (session.id.toList.take 8) ++ "..."
    recordingsCount := session.recordings.length
    screenshotsCount := session.screenshots.length
    statusClass := if session.status = "active" then "text-success" else "text-secondary"
    duration := durationLabel session
    settings := session.settings.resolution ++ " @ " ++ toString session.settings.fps ++ "fps" }

/-- What the script's `updateSessionHistoryDisplay` renders into the history panel: the first
ten sessions of the history (none: the text "No sessions yet"). -/
def updateSessionHistoryDisplay (st : State) : List SessionItem :=
  (st.history.take 10).map sessionItem

/-! ## The request for the camera -/

/-- A JavaScript number: `NaN`, an infinity, or a finite double, written as the rational it
equals. Negative zero is not told from zero. -/
inductive JsNumber where
  | nan
  | infinity (negative : Bool)
  | finite (value : ℚ)
  deriving DecidableEq

/-- The negation of a number. -/
def JsNumber.neg : JsNumber → JsNumber
  | .nan => .nan
  | .infinity negative => .infinity (!negative)
  | .finite value => .finite (-value)

/-- The integer nearest to a rational, the even one of the two when it lies half-way between
them. -/
def roundHalfEven (q : ℚ) : Int :=
  let f := ⌊q⌋
  if q - f < 1 / 2 then f
  else if 1 / 2 < q - f then f + 1
  else if f % 2 = 0 then f
  else f + 1

/-- The Number value of a non-negative real: the nearest double, the one with the even
significand when two are equally near. The doubles around `q` are the multiples of `2 ^ p`,
where `p` is 52 below the exponent of `q`, and `-1074` for the subnormals; a result of
`2 ^ 1024` or more is `Infinity`. -/
def roundToDouble (q : ℚ) : JsNumber :=
  if q = 0 then .finite 0
  else
    let p : Int := max (Int.log 2 q - 52) (-1074)
    let v : ℚ := (roundHalfEven (q / (2 : ℚ) ^ p) : ℚ) * (2 : ℚ) ^ p
    if (2 : ℚ) ^ (1024 : Nat) ≤ v then .infinity false else .finite v

/-- The value of `text.split(sep)` for a separator of one character. -/
def splitOn (sep : Char) : List Char → List (List Char)
  | [] => [[]]
  | c :: cs =>
    if c = sep then [] :: splitOn sep cs
    else
      match splitOn sep cs with
      | [] => [[c]]
      | part :: parts => (c :: part) :: parts

/-- Whether a character is a decimal digit. -/
def isDecimalDigit (c : Char) : Bool :=
  48 ≤ c.toNat && c.toNat ≤ 57

/-- The value of a sequence of digits in a radix. -/
def digitsValue (radix : Nat) (cs : List Char) : Nat :=
  cs.foldl (fun acc c => acc * radix + (digitValue c).getD 0) 0

/-- Whether a text is a non-empty sequence of digits of a radix. -/
def allDigits (radix : Nat) (cs : List Char) : Bool :=
  !cs.isEmpty && cs.all (fun c =>
    match digitValue c with
    | some d => decide (d < radix)
    | none => false)

/-- The mathematical value of an unsigned decimal literal: digits, an optional fraction and
an optional exponent, with at least one digit before the exponent; `none` when the text is no
such literal. -/
def parseDecimal (cs : List Char) : Option ℚ :=
  let intPart := cs.takeWhile isDecimalDigit
  let rest1 := cs.dropWhile isDecimalDigit
  let fracPart := if rest1.head? = some '.' then rest1.tail.takeWhile isDecimalDigit else []
  let rest2 := if rest1.head? = some '.' then rest1.tail.dropWhile isDecimalDigit else rest1
  if intPart.isEmpty && fracPart.isEmpty then none
  else
    let mantissa : ℚ := (digitsValue 10 (intPart ++ fracPart) : ℚ) / (10 : ℚ) ^ fracPart.length
    if rest2.isEmpty then some mantissa
    else if rest2.head? = some 'e' ∨ rest2.head? = some 'E' then
      let signed := rest2.tail
      let negative := signed.head? = some '-'
      let digits := if signed.head? = some '-' ∨ signed.head? = some '+' then signed.tail else signed
      if allDigits 10 digits then
        some (if negative then mantissa / (10 : ℚ) ^ digitsValue 10 digits
          else mantissa * (10 : ℚ) ^ digitsValue 10 digits)
      else none
    else none

/-- The value of `Number(text)`: white space is trimmed, the empty text is `0`, a literal with
the prefix `0x`, `0o` or `0b` is read in its radix, `Infinity` and decimal literals may carry a
sign, and every other text is `NaN`. The mathematical value of a literal is rounded to the
nearest double. -/
def parseNumber (text : String) : JsNumber :=
  let cs := ((text.toList.dropWhile isWhiteSpace).reverse.dropWhile isWhiteSpace).reverse
  if cs.isEmpty then .finite 0
  else if cs.take 2 = ['0', 'x'] ∨ cs.take 2 = ['0', 'X'] then
    if allDigits 16 (cs.drop 2) then roundToDouble (digitsValue 16 (cs.drop 2)) else .nan
  else if cs.take 2 = ['0', 'o'] ∨ cs.take 2 = ['0', 'O'] then
    if allDigits 8 (cs.drop 2) then roundToDouble (digitsValue 8 (cs.drop 2)) else .nan
  else if cs.take 2 = ['0', 'b'] ∨ cs.take 2 = ['0', 'B'] then
    if allDigits 2 (cs.drop 2) then roundToDouble (digitsValue 2 (cs.drop 2)) else .nan
  else
    let negative := cs.head? = some '-'
    let body := if cs.head? = some '-' ∨ cs.head? = some '+' then cs.tail else cs
    if body = "Infinity".toList then .infinity negative
    else
      match parseDecimal body with
      | some v => if negative then (roundToDouble v).neg else roundToDouble v
      | none => .nan

/-- The `video` constraints `startCamera` passes to `getUserMedia`: the ideal width, height
and frame rate and the facing mode. `width` and `height` are the first two elements of
`resolution.split('x').map(Number)`; `none` is `undefined`. -/
structure CameraConstraints where
  width : Option JsNumber
  height : Option JsNumber
  frameRate : Int
  facingMode : String
  deriving DecidableEq

/-- The constraints `startCamera` builds from the persisted settings. -/
def cameraConstraints (st : State) : CameraConstraints :=
  let resolution := orDefault st.localStorage.cameraResolution "1280x720"
  let fps := parseIntOr st.localStorage.cameraFPS 30
  let facingMode := orDefault st.localStorage.cameraFacingMode "user"
  let parts := (splitOn 'x' resolution.toList).map (fun part => parseNumber (String.mk part))
  { width := parts[0]?, height := parts[1]?, frameRate := fps, facingMode := facingMode }

/-! ## Specification-level notions -/

/-- A pixel of an RGBA frame. -/
structure Pixel where
  r : Byte
  g : Byte
  b : Byte
  a : Byte
  deriving DecidableEq

/-- The RGBA buffer of a sequence of pixels: four bytes per pixel, in the order R, G, B, A. -/
def frameOf : List Pixel → List Byte
  | [] => []
  | p :: ps => p.r :: p.g :: p.b :: p.a :: frameOf ps

/-- The pixels of an RGBA buffer, read four bytes at a time. -/
def pixelsOf : List Byte → List Pixel
  | r :: g :: b :: a :: rest => { r := r, g := g, b := b, a := a } :: pixelsOf rest
  | _ => []

/-- The absolute difference of two channel values. -/
def channelDiff (x y : Byte) : Nat :=
  Int.natAbs ((x.val : Int) - (y.val : Int))

/-- A pixel counts as changed when the difference of its R, G or B channel exceeds the
threshold. -/
def Pixel.changed (threshold : ℚ) (p q : Pixel) : Prop :=
  (channelDiff p.r q.r : ℚ) > threshold ∨ (channelDiff p.g q.g : ℚ) > threshold ∨
    (channelDiff p.b q.b : ℚ) > threshold

instance (threshold : ℚ) (p q : Pixel) : Decidable (Pixel.changed threshold p q) := by
  unfold Pixel.changed; infer_instance

/-- Two pixels whose R, G and B channels each differ by 255. -/
def Pixel.fullDiff (p q : Pixel) : Prop :=
  channelDiff p.r q.r = 255 ∧ channelDiff p.g q.g = 255 ∧ channelDiff p.b q.b = 255

instance (p q : Pixel) : Decidable (Pixel.fullDiff p q) := by
  unfold Pixel.fullDiff; infer_instance

/-- The verdict of a `detectMotion` call, read off the states before and after it: motion was
reported when `motionCount` was incremented. -/
def motionReported (before after : State) : Prop :=
  after.motionDetection.motionCount = before.motionDetection.motionCount + 1

instance (before after : State) : Decidable (motionReported before after) := by
  unfold motionReported; infer_instance

/-- A pixel is dark when its R, G or B channel is below 100. -/
def Pixel.dark (p : Pixel) : Prop :=
  p.r.val < 100 ∨ p.g.val < 100 ∨ p.b.val < 100

instance (p : Pixel) : Decidable p.dark := by
  unfold Pixel.dark; infer_instance

/-- The colour channels of a pixel, without its alpha channel. -/
def Pixel.rgb (p : Pixel) : Byte × Byte × Byte :=
  (p.r, p.g, p.b)

/-! ## Operation sequences -/

/-- An operation on the session store, with the values it reads from the environment. -/
inductive SessionOp where
  | start (idNow : Int) (random : String) (now : Int)
  | stop (now : Int)
  | screenshot (screenshotData : Screenshot)
  | recording (recordingData : Recording)
  | motionEvent (eventData : MotionEvent)
  | frame (data : List Byte) (now : Int)
  | toggleMotion (checked : Bool)
  deriving DecidableEq

/-- The function of the script an operation stands for, applied to a state. -/
def SessionOp.apply (st : State) : SessionOp → State
  | .start idNow random now => startNewSession st idNow random now
  | .stop now => endCurrentSession st now
  | .screenshot screenshotData => addScreenshotToSession st screenshotData
  | .recording recordingData => addRecordingToSession st recordingData
  | .motionEvent eventData => addMotionEventToSession st eventData
  | .frame data now => detectMotion st data now
  | .toggleMotion checked => toggleMotionDetection st checked

/-- The state after a sequence of operations. -/
def runOps (st : State) (ops : List SessionOp) : State :=
  ops.foldl SessionOp.apply st

/-- A sequence of operations in which starts and stops alternate: a session is started only
when no session is current. (A stop while no session is current does nothing, and the other
operations may come at any point.) -/
def validOps (st : State) : List SessionOp → Bool
  | [] => true
  | .start idNow random now :: ops =>
    st.currentSession.isNone && validOps (startNewSession st idNow random now) ops
  | op :: ops => validOps (op.apply st) ops

/-- Whether the session object behind a reference has status `'active'`. -/
def isActive (st : State) (ref : Nat) : Bool :=
  decide ((st.heap[ref]?).map Session.status = some "active")

/-- The number of entries of the history whose session has status `'active'`. -/
def activeCount (st : State) : Nat :=
  st.sessionHistory.countP (isActive st)

/-- The invariant of the session store along alternating sequences: the history refers to
allocated objects; when no session is current no entry is active, and when a session is
current it is the head of the history and no other entry is active or refers to it. -/
def StoreInv (st : State) : Prop :=
  (∀ r ∈ st.sessionHistory, r < st.heap.length) ∧
  match st.currentSession with
  | none => ∀ r ∈ st.sessionHistory, isActive st r = false
  | some c =>
    c < st.heap.length ∧
      ∃ rest, st.sessionHistory = c :: rest ∧ c ∉ rest ∧ ∀ r ∈ rest, isActive st r = false

/-- The index `updateSessionInHistory` looks a session up at: the first entry of the history
whose `id` equals the `id` of the session; `none` when there is no such entry. -/
def lookupIndex (st : State) (session : Nat) : Option Nat :=
  match st.heap[session]? with
  | none => none
  | some target =>
    findIndex (fun r => decide ((st.heap[r]?).map Session.id = some target.id)) st.sessionHistory

/-- The three camera settings kept in `localStorage`. -/
def storedSettings (st : State) : Option String × Option String × Option String :=
  (st.localStorage.cameraResolution, st.localStorage.cameraFPS, st.localStorage.cameraFacingMode)

/-- What a write to the session object `c` that goes through `updateSessionInHistory` leaves
behind when the lookup finds the session: the object `c` is now `s2`, every other object is as
it was, the history array is unchanged, and the stored history is the serialization of the
history. -/
def OnlySessionChanged (st st2 : State) (c : Nat) (s2 : Session) : Prop :=
  st2.heap[c]? = some s2 ∧
  (∀ r, r ≠ c → st2.heap[r]? = st.heap[r]?) ∧
  st2.heap.length = st.heap.length ∧
  st2.sessionHistory = st.sessionHistory ∧
  st2.localStorage.vigilanteye_session_history =
    some (.parsed (st2.history.map Session.toJSON)) ∧
  storedSettings st2 = storedSettings st

/-- The stream, the video element's stream, the active flag, the recorder and the recording
flag. -/
def deviceState (st : State) :
    Option MediaStream × Option MediaStream × Bool × Option MediaStream × Bool :=
  (st.cameraStream, st.videoSrcObject, st.cameraActive, st.mediaRecorder, st.isRecording)

/-- The invariant of the session store when the history may hold sessions that were loaded as
active: at most `k` entries other than the current session are active, and the current session
is the head of the history. -/
def StaleInv (k : Nat) (st : State) : Prop :=
  (∀ r ∈ st.sessionHistory, r < st.heap.length) ∧
  match st.currentSession with
  | none => st.sessionHistory.countP (isActive st) ≤ k
  | some c =>
    c < st.heap.length ∧
      ∃ rest, st.sessionHistory = c :: rest ∧ c ∉ rest ∧ rest.countP (isActive st) ≤ k

/-- The invariant of the session store after a load that left the objects `base` in the
heap: the loaded objects are as they were loaded; when no session is current, no object
allocated since the load is active; when a session is current, it was allocated since the
load, is active and is the head of the history, and no other object allocated since the load
is active. -/
def FreshInv (base : List Session) (st : State) : Prop :=
  base.length ≤ st.heap.length ∧
  (∀ r, r < base.length → st.heap[r]? = base[r]?) ∧
  match st.currentSession with
  | none => ∀ r, base.length ≤ r → isActive st r = false
  | some c =>
    base.length ≤ c ∧ isActive st c = true ∧ st.sessionHistory.head? = some c ∧
      ∀ r, base.length ≤ r → r ≠ c → isActive st r = false

/-! ## The pipeline as a whole -/

/-- An event of the page that runs a function of the script, with the values the function
reads from the environment. -/
inductive PipelineOp where
  | requestCamera (request : MediaRequest)
  | metadataLoaded (data : List Byte) (frameNow idNow : Int) (random : String) (now : Int)
  | stopCamera (now : Int)
  | frame (data : List Byte) (now : Int)
  | takeScreenshot (idNow now : Int) (iso : String)
  | startRecording (recorder : RecorderStart) (startedAt idNow now : Int)
  | stopRecording
  | toggleMotion (checked : Bool)
  | toggleObject (checked : Bool)
  | sensitivity (value : ℚ)
  | applySettings (selects : Option (String × String × String))
  | fpsTick
  | clearHistory (confirmed : Bool)
  deriving DecidableEq

/-- The function of the script an event runs, applied to a state. -/
def PipelineOp.apply (st : State) : PipelineOp → State
  | .requestCamera request => startCamera st request
  | .metadataLoaded data frameNow idNow random now =>
    onloadedmetadata st data frameNow idNow random now
  | .stopCamera now => VigilantEye.stopCamera st now
  | .frame data now => processFrame st data now
  | .takeScreenshot idNow now iso => VigilantEye.takeScreenshot st idNow now iso
  | .startRecording recorder startedAt idNow now =>
    VigilantEye.startRecording st recorder startedAt idNow now
  | .stopRecording => VigilantEye.stopRecording st
  | .toggleMotion checked => toggleMotionDetection st checked
  | .toggleObject checked => toggleObjectDetection st checked
  | .sensitivity value => updateMotionSensitivity st value
  | .applySettings selects => applyCameraSettings st selects
  | .fpsTick => updateFPS st
  | .clearHistory confirmed => clearSessionHistory st confirmed

/-- The state after a sequence of events. -/
def runPipeline (st : State) (ops : List PipelineOp) : State :=
  ops.foldl PipelineOp.apply st

/-- An event that opens a session. -/
def PipelineOp.opensSession : PipelineOp → Bool
  | .metadataLoaded .. => true
  | _ => false

/-- An event that clears the history. -/
def PipelineOp.clearsHistory : PipelineOp → Bool
  | .clearHistory confirmed => confirmed
  | _ => false

/-- The stored history is the serialization of the history in memory. -/
def InSync (st : State) : Prop :=
  st.localStorage.vigilanteye_session_history =
    some (.parsed (st.history.map Session.toJSON))

/-- The history in memory agrees with what was last persisted: the stored history is its
serialization, or nothing was stored yet and the history is empty. -/
def Persisted (st : State) : Prop :=
  InSync st ∨ (st.localStorage.vigilanteye_session_history = none ∧ st.history = [])

/-- The invariant of `currentSession` along the pipeline: the current session is active, and
it is the head of the history unless the history is empty. -/
def CurrentInv (st : State) : Prop :=
  match st.currentSession with
  | none => True
  | some c =>
    isActive st c = true ∧ (st.sessionHistory = [] ∨ st.sessionHistory.head? = some c)

/-- The lookup by `id` does not find the current session in the history. -/
def CurrentNotInHistory (st : State) : Prop :=
  ∀ c, st.currentSession = some c → lookupIndex st c = none

/-- Two states with the same session objects, history array, current session and stored
history. -/
def SameStore (st st2 : State) : Prop :=
  st2.heap = st.heap ∧ st2.sessionHistory = st.sessionHistory ∧
    st2.currentSession = st.currentSession ∧
    st2.localStorage.vigilanteye_session_history = st.localStorage.vigilanteye_session_history

/-- The effect on the store of a write `f` to the session object `c` followed by
`updateSessionInHistory`: the object is rewritten, and either the lookup fails and the history
and its stored copy stay as they are, or it finds the index `i`, the entry `i` becomes `c` and
the history is saved. -/
def WroteSession (st st2 : State) (c : Nat) (f : Session → Session) : Prop :=
  st2.heap = updateObject st.heap c f ∧
  ((lookupIndex st c = none ∧ st2.sessionHistory = st.sessionHistory ∧
      st2.localStorage.vigilanteye_session_history =
        st.localStorage.vigilanteye_session_history) ∨
    (∃ i, lookupIndex st c = some i ∧ st2.sessionHistory = st.sessionHistory.set i c ∧
      InSync st2))

/-- What a function of the script other than `startNewSession` and `clearSessionHistory` does
to the store: nothing, or a write to the current session that keeps its `id`, and then either
the session stays current with its status, or it is completed and no session is current. -/
def Evolves (st st2 : State) : Prop :=
  SameStore st st2 ∨
  ∃ c f, st.currentSession = some c ∧ (∀ s, (f s).id = s.id) ∧ WroteSession st st2 c f ∧
    ((st2.currentSession = some c ∧ ∀ s, (f s).status = s.status) ∨
      (st2.currentSession = none ∧ ∀ s, (f s).status = "completed"))

/-- The history array, the history and its stored copy are the same in two states. -/
def HistoryKept (st st2 : State) : Prop :=
  st2.sessionHistory = st.sessionHistory ∧ st2.history = st.history ∧
    st2.localStorage.vigilanteye_session_history = st.localStorage.vigilanteye_session_history

/-! ## Concrete inputs -/

/-- A frame of two pixels. -/
def sampleFrame : List Byte := [10, 20, 30, 255, 200, 100, 50, 255]

/-- The initial state after the detector was enabled and has stored `last` as its last frame:
sensitivity 0.3, threshold 10. -/
def stateWithLastFrame (last : List Byte) : State :=
  { State.init with
    motionDetection :=
      { State.init.motionDetection with enabled := true, lastFrame := some last } }

/-- A state in which the detector is enabled and holds `sampleFrame` as its last frame. -/
def sampleMotionState : State :=
  stateWithLastFrame sampleFrame

/-- A white pixel with full alpha. -/
def whitePixel : Pixel := { r := 255, g := 255, b := 255, a := 255 }

/-- A black pixel with full alpha. -/
def blackPixel : Pixel := { r := 0, g := 0, b := 0, a := 255 }

/-- A black frame of sixteen pixels. -/
def blackFrame : List Pixel := List.replicate 16 blackPixel

/-- The black frame with its first `k` pixels turned white. -/
def flippedFrame (k : Nat) : List Pixel :=
  List.replicate k whitePixel ++ List.replicate (16 - k) blackPixel

/-- Two frames of three pixels each; the first and the last pixel differ in a colour channel,
the middle one only in alpha. -/
def samplePixels : List Pixel :=
  [{ r := 0, g := 0, b := 0, a := 255 }, { r := 9, g := 9, b := 9, a := 255 },
    { r := 200, g := 0, b := 0, a := 255 }]

/-- The predecessor of `samplePixels`. -/
def samplePrevPixels : List Pixel :=
  [{ r := 255, g := 255, b := 255, a := 255 }, { r := 9, g := 9, b := 9, a := 0 },
    { r := 0, g := 0, b := 0, a := 255 }]

/-- The pixels of `samplePixels` with other alpha values. -/
def samplePixelsAlpha : List Pixel :=
  [{ r := 0, g := 0, b := 0, a := 1 }, { r := 9, g := 9, b := 9, a := 2 },
    { r := 200, g := 0, b := 0, a := 3 }]

/-- The state `stateWithLastFrame (frameOf blackFrame)` after a session was started. -/
def sampleSessionState : State :=
  startNewSession (stateWithLastFrame (frameOf blackFrame)) 1 "abc" 2

/-- The session object that `sampleSessionState` holds: the one `startNewSession` builds. -/
def sampleSession : Session :=
  { id := "session_1_abc"
    startTime := .date 2
    endTime := none
    recordings := []
    screenshots := []
    settings := { resolution := "1280x720", fps := 30, facingMode := "user" }
    status := "active"
    duration := none
    motionEvents := none }

/-- A frame of 2500 pixels of which the first `k` are black and the others white. -/
def darkFrame (k : Nat) : List Pixel :=
  List.replicate k blackPixel ++ List.replicate (2500 - k) whitePixel

/-- The initial state with fifty-five session objects in the heap and an empty history. -/
def fullHeapState : State :=
  { State.init with heap := List.replicate 55 sampleSession }

/-- Two sessions with activity in between, the detector being enabled meanwhile. -/
def sampleOps : List SessionOp :=
  [.start 1 "abc" 2,
    .screenshot { id := "screenshot_3", timestamp := .date 3, filename := "a.png" },
    .toggleMotion true, .frame sampleFrame 4,
    .recording { id := "rec_5", startTime := .date 5, duration := 0, status := "recording" },
    .stop 6, .toggleMotion false, .toggleMotion true, .frame sampleFrame 7, .start 8 "def" 9,
    .motionEvent { timestamp := .date 10, motionPixels := 11, confidence := 11 / 1000 }]

/-- The initial state with a stored history text that is not JSON. -/
def corruptStorageState : State :=
  { State.init with
    localStorage :=
      { State.init.localStorage with
        vigilanteye_session_history := some (.unparseable "not json") } }

/-- A device that negotiates 640x480. -/
def smallStream : MediaStream := { videoWidth := 640, videoHeight := 480 }

/-- The initial state with a persisted resolution of 1920x1080. -/
def hdSettingsState : State :=
  { State.init with
    localStorage := { State.init.localStorage with cameraResolution := some "1920x1080" } }

/-- The state after a capture was started from the initial state on a device that negotiates
640x480: the stream was granted and the metadata handler ran. -/
def activeCameraState : State :=
  onloadedmetadata (startCamera State.init (.granted smallStream)) [] 1 1 "abc" 2

/-- The state between `startCamera` and the metadata handler: the stream is held, the capture
is not yet active. -/
def startingState : State :=
  startCamera State.init (.granted smallStream)

/-- The page loaded again while the capture of `activeCameraState` was running, before
`loadSessionHistory` ran: the stored history holds the session that was active. -/
def reloadedState : State :=
  reloadPage activeCameraState

/-- The state `loadSessionHistory` produces from `reloadedState`: the stored session is a new
object, still with status `'active'`, and no session is current. -/
def reloadedLoadedState : State :=
  { reloadedState with
    heap := [sampleSession.toJSON]
    sessionHistory := [0] }

/-- A capture started from the initial state, a recording started, and the capture stopped
without the recording being stopped. -/
def recordThenStopOps : List PipelineOp :=
  [.requestCamera (.granted smallStream), .metadataLoaded [] 1 1 "abc" 2,
    .startRecording .started 3 4 5, .stopCamera 7003]

/-- A capture started from the initial state and stopped within the same second. -/
def shortSessionOps : List PipelineOp :=
  [.requestCamera (.granted smallStream), .metadataLoaded [] 1 1 "abc" 2, .stopCamera 502]

/-- A screenshot record. -/
def sampleScreenshot : Screenshot :=
  { id := "screenshot_9", timestamp := .date 9, filename := "vigilanteye_screenshot_x.png" }

/-- A capture started from the initial state, a screenshot taken, and the capture stopped. -/
def screenshotOps : List PipelineOp :=
  [.requestCamera (.granted smallStream), .metadataLoaded [] 1 1 "abc" 2,
    .takeScreenshot 3 4 "2025-01-01T00:00:00.000Z", .stopCamera 9000]

/-- The history cleared while the capture of `activeCameraState` runs. -/
def clearedWhileActive : State :=
  clearSessionHistory activeCameraState true

/-- A screenshot, a frame and the stop of the capture. -/
def detachedOps : List PipelineOp :=
  [.takeScreenshot 3 4 "2025-01-01T00:00:00.000Z", .frame [] 5, .stopCamera 9000]

/-- A capture started from the initial state and stopped four seconds later. -/
def closedSessionOps : List PipelineOp :=
  [.requestCamera (.granted smallStream), .metadataLoaded [] 1 1 "abc" 2, .stopCamera 4002]

/-- The session that `closedSessionOps` leaves behind. -/
def closedSession : Session :=
  { id := "session_1_abc"
    startTime := .date 2
    endTime := some (.date 4002)
    recordings := []
    screenshots := []
    settings := { resolution := "1280x720", fps := 30, facingMode := "user" }
    status := "completed"
    duration := some (some 4)
    motionEvents := none }

/-- The initial state with a persisted resolution whose width, `2 ^ 53 + 1`, is no double. -/
def hugeWidthState : State :=
  { State.init with
    localStorage :=
      { State.init.localStorage with cameraResolution := some "9007199254740993x720" } }

/-- A capture started from the initial state, the history cleared while it runs, and the
capture stopped. -/
def clearThenStopOps : List PipelineOp :=
  [.requestCamera (.granted smallStream), .metadataLoaded [] 1 1 "abc" 2, .clearHistory true,
    .stopCamera 7003]

/-! # Theorems -/

theorem foldl_count {α : Type} (p : α → Bool) (l : List α) (a : Nat) :
    l.foldl (fun acc i => if p i then acc + 1 else acc) a = a + l.countP p := by
  induction l generalizing a with
  | nil => simp
  | cons x xs ih =>
    simp only [List.foldl_cons, List.countP_cons]
    rw [ih]
    by_cases h : p x <;> simp [h]; omega

/-- The loop visits exactly the multiples of four below `n`. -/
theorem mem_loopIndices (n i : Nat) : i ∈ loopIndices n ↔ i < n ∧ i % 4 = 0 := by
  simp only [loopIndices, List.mem_map, List.mem_range]
  constructor
  · rintro ⟨k, hk, rfl⟩
    omega
  · rintro ⟨hlt, hmod⟩
    exact ⟨i / 4, by omega, by omega⟩

theorem length_frameOf (ps : List Pixel) : (frameOf ps).length = 4 * ps.length := by
  induction ps with
  | nil => rfl
  | cons p ps ih => simp [frameOf, ih]; omega

/-- Reading the pixels of the buffer of a pixel sequence gives the sequence back. -/
theorem pixelsOf_frameOf (ps : List Pixel) : pixelsOf (frameOf ps) = ps := by
  induction ps with
  | nil => rfl
  | cons p ps ih => simp [frameOf, pixelsOf, ih]

/-- Every buffer whose length is a multiple of four is the buffer of its pixels. -/
theorem frameOf_pixelsOf (n : Nat) (data : List Byte) (hn : data.length = 4 * n) :
    frameOf (pixelsOf data) = data := by
  induction n generalizing data with
  | zero =>
    have : data = [] := List.length_eq_zero.mp (by omega)
    subst this
    rfl
  | succ n ih =>
    match data, hn with
    | r :: g :: b :: a :: rest, hn =>
      have hrest : rest.length = 4 * n := by
        simp only [List.length_cons] at hn
        omega
      simp [pixelsOf, frameOf, ih rest hrest]

theorem loopIndices_frameOf (ps : List Pixel) :
    loopIndices (frameOf ps).length = (List.range ps.length).map (fun k => 4 * k) := by
  unfold loopIndices
  rw [length_frameOf]
  congr 2
  omega

theorem getElem?_frameOf (ps : List Pixel) (k : Nat) :
    (frameOf ps)[4 * k]? = ps[k]?.map Pixel.r ∧
    (frameOf ps)[4 * k + 1]? = ps[k]?.map Pixel.g ∧
    (frameOf ps)[4 * k + 2]? = ps[k]?.map Pixel.b := by
  induction ps generalizing k with
  | nil => simp [frameOf]
  | cons p ps ih =>
    cases k with
    | zero => simp [frameOf]
    | succ k =>
      have h0 : 4 * (k + 1) = 4 * k + 1 + 1 + 1 + 1 := by omega
      have h1 : 4 * (k + 1) + 1 = 4 * k + 1 + 1 + 1 + 1 + 1 := by omega
      have h2 : 4 * (k + 1) + 2 = 4 * k + 2 + 1 + 1 + 1 + 1 := by omega
      rw [h1, h2, h0]
      simp only [frameOf, List.getElem?_cons_succ]
      exact ih k


theorem countP_range_zip {α β : Type} (f : Option α → Option β → Bool)
    (hr : ∀ a, f a none = false) (ps : List α) (qs : List β) :
    (List.range ps.length).countP (fun k => f ps[k]? qs[k]?) =
      (List.zip ps qs).countP (fun pq => f (some pq.1) (some pq.2)) := by
  induction ps generalizing qs with
  | nil => simp
  | cons p ps ih =>
    cases qs with
    | nil => simp [hr]
    | cons q qs =>
      rw [List.length_cons, List.range_succ_eq_map, List.countP_cons, List.countP_map,
        List.zip_cons_cons, List.countP_cons]
      have := ih qs
      simp only [Function.comp_def, Nat.succ_eq_add_one, List.getElem?_cons_succ,
        List.getElem?_cons_zero] at this ⊢
      rw [this]

theorem countP_range_getElem? {α : Type} (f : Option α → Bool) (ps : List α) :
    (List.range ps.length).countP (fun k => f ps[k]?) = ps.countP (fun p => f (some p)) := by
  induction ps with
  | nil => simp
  | cons p ps ih =>
    rw [List.length_cons, List.range_succ_eq_map, List.countP_cons, List.countP_map,
      List.countP_cons]
    simp only [Function.comp_def, Nat.succ_eq_add_one, List.getElem?_cons_succ,
      List.getElem?_cons_zero]
    rw [ih]

theorem exceeds_absDiff (x y : Byte) (threshold : ℚ) :
    exceeds (absDiff (some x) (some y)) threshold = decide (channelDiff x y > threshold) := by
  rfl

/-- The test of the motion loop at the `k`-th pixel, in terms of the pixels. -/
theorem pixelChanged_frameOf (ps qs : List Pixel) (threshold : ℚ) (k : Nat) :
    pixelChanged (frameOf ps) (frameOf qs) threshold (4 * k) =
      match ps[k]?, qs[k]? with
      | some p, some q => decide (Pixel.changed threshold p q)
      | _, _ => false := by
  obtain ⟨hr, hg, hb⟩ := getElem?_frameOf ps k
  obtain ⟨hr', hg', hb'⟩ := getElem?_frameOf qs k
  simp only [pixelChanged, hr, hg, hb, hr', hg', hb']
  cases hp : ps[k]? with
  | none => simp [absDiff, exceeds]
  | some p =>
    cases hq : qs[k]? with
    | none => simp [absDiff, exceeds]
    | some q =>
      simp only [Option.map_some', exceeds_absDiff, Pixel.changed]
      simp [Bool.decide_or, Bool.or_assoc]

/-- The motion loop counts the pairs of corresponding pixels that changed. -/
theorem countMotionPixels_frameOf (ps qs : List Pixel) (threshold : ℚ) :
    countMotionPixels (frameOf ps) (frameOf qs) threshold =
      (List.zip ps qs).countP (fun pq => decide (Pixel.changed threshold pq.1 pq.2)) := by
  unfold countMotionPixels
  rw [foldl_count, loopIndices_frameOf, List.countP_map, Nat.zero_add]
  have h := countP_range_zip
    (fun (a b : Option Pixel) =>
      match a, b with
      | some p, some q => decide (Pixel.changed threshold p q)
      | _, _ => false)
    (by intro a; cases a <;> rfl) ps qs
  simp only at h
  rw [← h]
  apply List.countP_congr
  intro k _
  simp only [Function.comp_def, pixelChanged_frameOf]


theorem exceeds_absDiff_self (a : Option Byte) (threshold : ℚ) (h : 0 ≤ threshold) :
    exceeds (absDiff a a) threshold = false := by
  cases a with
  | none => rfl
  | some x => simp [absDiff, exceeds, h]

theorem countMotionPixels_self (f : List Byte) (threshold : ℚ) (h : 0 ≤ threshold) :
    countMotionPixels f f threshold = 0 := by
  unfold countMotionPixels
  rw [foldl_count, Nat.zero_add, List.countP_eq_zero]
  intro i _
  simp [pixelChanged, exceeds_absDiff_self _ _ h]

theorem changed_of_rgb (threshold : ℚ) (p q p' q' : Pixel) (hp : p'.rgb = p.rgb)
    (hq : q'.rgb = q.rgb) : Pixel.changed threshold p' q' ↔ Pixel.changed threshold p q := by
  simp only [Pixel.rgb, Prod.mk.injEq] at hp hq
  obtain ⟨h1, h2, h3⟩ := hp
  obtain ⟨h4, h5, h6⟩ := hq
  simp only [Pixel.changed, h1, h2, h3, h4, h5, h6]

theorem countP_zip_of_rgb (threshold : ℚ) (ps qs ps' qs' : List Pixel)
    (hp : ps'.map Pixel.rgb = ps.map Pixel.rgb) (hq : qs'.map Pixel.rgb = qs.map Pixel.rgb) :
    (List.zip ps' qs').countP (fun pq => decide (Pixel.changed threshold pq.1 pq.2)) =
      (List.zip ps qs).countP (fun pq => decide (Pixel.changed threshold pq.1 pq.2)) := by
  induction ps generalizing qs ps' qs' with
  | nil =>
    cases ps' with
    | nil => simp
    | cons _ _ => simp at hp
  | cons p ps ih =>
    cases ps' with
    | nil => simp at hp
    | cons p' ps' =>
      cases qs with
      | nil =>
        cases qs' with
        | nil => simp
        | cons _ _ => simp at hq
      | cons q qs =>
        cases qs' with
        | nil => simp at hq
        | cons q' qs' =>
          simp only [List.map_cons, List.cons.injEq] at hp hq
          simp only [List.zip_cons_cons, List.countP_cons, ih qs ps' qs' hp.2 hq.2,
            changed_of_rgb threshold p q p' q' hp.1 hq.1]

/-- C1: when `detectMotion` is called on a buffer `f` while `lastFrame` holds an identical
buffer, for every sensitivity `s ≥ 0` (so for every `s` in `[0, 1]`) and every
`motionThreshold`, the loop computes `motionPixels = 0` and no motion is reported: the call only
sets the status element to "Monitoring"; `motionCount`, the session objects, the history, the
current session and the persisted data are unchanged, so no MotionEvent is appended. -/
theorem detectMotion_identical_frames (st : State) (f : List Byte) (now : Int)
    (hs : 0 ≤ st.motionDetection.sensitivity)
    (hlast : st.motionDetection.lastFrame = some f) :
    countMotionPixels f f (st.motionDetection.sensitivity * 255) = 0 ∧
    detectMotion st f now = updateMotionStatus st "Monitoring" "text-success" ∧
    (detectMotion st f now).motionDetection.motionCount = st.motionDetection.motionCount ∧
    (detectMotion st f now).heap = st.heap ∧
    (detectMotion st f now).sessionHistory = st.sessionHistory ∧
    (detectMotion st f now).currentSession = st.currentSession ∧
    (detectMotion st f now).localStorage = st.localStorage := by
  have h0 : countMotionPixels f f (st.motionDetection.sensitivity * 255) = 0 :=
    countMotionPixels_self f _ (mul_nonneg hs (by norm_num))
  have h1 : detectMotion st f now = updateMotionStatus st "Monitoring" "text-success" := by
    unfold detectMotion
    rw [hlast]
    simp only [h0, gt_iff_lt, Nat.not_lt_zero, if_false]
    congr 1
    rw [← hlast]
  refine ⟨h0, h1, ?_, ?_, ?_, ?_, ?_⟩ <;> rw [h1] <;> rfl


/-- Witness of C1: the theorem applied to a state that holds `sampleFrame` as its last
frame. -/
theorem detectMotion_identical_frames_witness :
    (0 : ℚ) ≤ sampleMotionState.motionDetection.sensitivity ∧
    sampleMotionState.motionDetection.lastFrame = some sampleFrame ∧
    countMotionPixels sampleFrame sampleFrame
      (sampleMotionState.motionDetection.sensitivity * 255) = 0 ∧
    detectMotion sampleMotionState sampleFrame 7 =
      updateMotionStatus sampleMotionState "Monitoring" "text-success" :=
  have hs : (0 : ℚ) ≤ sampleMotionState.motionDetection.sensitivity := by
    norm_num [sampleMotionState, stateWithLastFrame, State.init]
  ⟨hs, rfl, (detectMotion_identical_frames sampleMotionState sampleFrame 7 hs rfl).1,
    (detectMotion_identical_frames sampleMotionState sampleFrame 7 hs rfl).2.1⟩

/-- C2: the first `detectMotion` call after motion detection is (re)enabled reports no motion
and stores the frame, whatever the frame holds. Enabling sets `lastFrame` to `null`; the call
made right after enabling leaves `motionCount`, the session objects, the history, the current
session and the persisted data as they were before enabling, leaves the status element at
"Enabled", and stores `f`; and in every state `st` with `lastFrame = null` the call changes
nothing but `lastFrame`, which becomes `f`. -/
theorem detectMotion_first_call (st0 st : State) (f : List Byte) (now : Int)
    (h : st.motionDetection.lastFrame = none) :
    (toggleMotionDetection st0 true).motionDetection.lastFrame = none ∧
    (detectMotion (toggleMotionDetection st0 true) f now).motionDetection.lastFrame = some f ∧
    (detectMotion (toggleMotionDetection st0 true) f now).motionDetection.motionCount =
      st0.motionDetection.motionCount ∧
    (detectMotion (toggleMotionDetection st0 true) f now).heap = st0.heap ∧
    (detectMotion (toggleMotionDetection st0 true) f now).sessionHistory = st0.sessionHistory ∧
    (detectMotion (toggleMotionDetection st0 true) f now).currentSession = st0.currentSession ∧
    (detectMotion (toggleMotionDetection st0 true) f now).localStorage = st0.localStorage ∧
    (detectMotion (toggleMotionDetection st0 true) f now).motionStatus =
      st0.motionStatus.map (fun _ => ("Enabled", "fw-semibold text-success")) ∧
    detectMotion st f now =
      { st with motionDetection := { st.motionDetection with lastFrame := some f } } := by
  refine ⟨rfl, rfl, rfl, rfl, rfl, rfl, rfl, rfl, ?_⟩
  unfold detectMotion
  rw [h]

/-- Witness of C2: the theorem applied to the initial state. -/
theorem detectMotion_first_call_witness :
    State.init.motionDetection.lastFrame = none ∧
    detectMotion State.init sampleFrame 7 =
      { State.init with
        motionDetection := { State.init.motionDetection with lastFrame := some sampleFrame } } :=
  ⟨rfl, (detectMotion_first_call State.init State.init sampleFrame 7 rfl).2.2.2.2.2.2.2.2⟩

/-- C3: for every pair of RGBA buffers `frameOf cur` and `frameOf prev` (in particular every
pair of equal length) and every sensitivity `s`, the `motionPixels` computed by the loop of
`detectMotion` is the number of pixels, paired by position, whose R, G or B difference exceeds
`s * 255`; alpha is ignored: buffers with the same colour channels pixel by pixel give the same
`motionPixels`. The count formula holds for every value of the threshold. -/
theorem countMotionPixels_spec (cur prev : List Pixel) (s : ℚ) :
    countMotionPixels (frameOf cur) (frameOf prev) (s * 255) =
      (List.zip cur prev).countP (fun pq => decide (Pixel.changed (s * 255) pq.1 pq.2)) ∧
    (∀ cur2 prev2 : List Pixel,
      cur2.map Pixel.rgb = cur.map Pixel.rgb → prev2.map Pixel.rgb = prev.map Pixel.rgb →
      countMotionPixels (frameOf cur2) (frameOf prev2) (s * 255) =
        countMotionPixels (frameOf cur) (frameOf prev) (s * 255)) ∧
    ∀ threshold : ℚ,
      countMotionPixels (frameOf cur) (frameOf prev) threshold =
        (List.zip cur prev).countP (fun pq => decide (Pixel.changed threshold pq.1 pq.2)) := by
  refine ⟨countMotionPixels_frameOf cur prev _, ?_, countMotionPixels_frameOf cur prev⟩
  intro cur2 prev2 h1 h2
  rw [countMotionPixels_frameOf, countMotionPixels_frameOf]
  exact countP_zip_of_rgb _ cur prev cur2 prev2 h1 h2

/-- Witness of C3: two frames of three pixels, of which two changed, and the same frame with
other alpha values. -/
theorem countMotionPixels_spec_witness :
    samplePixels.length = samplePrevPixels.length ∧
    samplePixelsAlpha.map Pixel.rgb = samplePixels.map Pixel.rgb ∧
    countMotionPixels (frameOf samplePixelsAlpha) (frameOf samplePrevPixels) (3 / 10 * 255) =
      countMotionPixels (frameOf samplePixels) (frameOf samplePrevPixels) (3 / 10 * 255) :=
  ⟨by decide, by decide,
    (countMotionPixels_spec samplePixels samplePrevPixels (3 / 10)).2.1
      samplePixelsAlpha samplePrevPixels (by decide) rfl⟩


/-! ## Frame lemmas: what the store functions leave alone -/

@[simp] theorem saveSessionHistory_heap (st : State) : (saveSessionHistory st).heap = st.heap := rfl

@[simp] theorem saveSessionHistory_sessionHistory (st : State) :
    (saveSessionHistory st).sessionHistory = st.sessionHistory := rfl

@[simp] theorem saveSessionHistory_currentSession (st : State) :
    (saveSessionHistory st).currentSession = st.currentSession := rfl

@[simp] theorem saveSessionHistory_motionDetection (st : State) :
    (saveSessionHistory st).motionDetection = st.motionDetection := rfl

@[simp] theorem updateSessionInHistory_heap (st : State) (ref : Nat) :
    (updateSessionInHistory st ref).heap = st.heap := by
  unfold updateSessionInHistory
  split
  · rfl
  · split <;> rfl

@[simp] theorem updateSessionInHistory_currentSession (st : State) (ref : Nat) :
    (updateSessionInHistory st ref).currentSession = st.currentSession := by
  unfold updateSessionInHistory
  split
  · rfl
  · split <;> rfl

@[simp] theorem updateSessionInHistory_motionDetection (st : State) (ref : Nat) :
    (updateSessionInHistory st ref).motionDetection = st.motionDetection := by
  unfold updateSessionInHistory
  split
  · rfl
  · split <;> rfl

@[simp] theorem addMotionEventToSession_motionDetection (st : State) (e : MotionEvent) :
    (addMotionEventToSession st e).motionDetection = st.motionDetection := by
  unfold addMotionEventToSession
  split
  · simp
  · rfl

/-- The value of `motionCount` after a call of `detectMotion` that has a last frame. -/
theorem detectMotion_motionCount (st : State) (data last : List Byte) (now : Int)
    (hlast : st.motionDetection.lastFrame = some last) :
    (detectMotion st data now).motionDetection.motionCount =
      if countMotionPixels data last (st.motionDetection.sensitivity * 255) >
          st.motionDetection.motionThreshold
      then st.motionDetection.motionCount + 1 else st.motionDetection.motionCount := by
  unfold detectMotion
  rw [hlast]
  simp only
  split
  · split
    · simp [updateMotionStatus]
    · rfl
  · rfl


theorem changed_iff_ne_of_fullDiff (p q : Pixel) (h : p = q ∨ Pixel.fullDiff p q) :
    Pixel.changed (3 / 10 * 255) p q ↔ p ≠ q := by
  rcases h with h | h
  · subst h
    simp only [Pixel.changed, channelDiff, sub_self, Int.natAbs_zero, Nat.cast_zero, ne_eq,
      not_true_eq_false, iff_false]
    norm_num
  · have hne : p ≠ q := by
      intro hpq
      subst hpq
      simp [Pixel.fullDiff, channelDiff] at h
    simp only [Pixel.changed, h.1, h.2.1, h.2.2, ne_eq, hne, not_false_eq_true, iff_true]
    norm_num

/-- Motion is reported exactly when the loop counted more pixels than the threshold. -/
theorem motionReported_iff (st : State) (data last : List Byte) (now : Int)
    (hlast : st.motionDetection.lastFrame = some last) :
    motionReported st (detectMotion st data now) ↔
      countMotionPixels data last (st.motionDetection.sensitivity * 255) >
        st.motionDetection.motionThreshold := by
  unfold motionReported
  rw [detectMotion_motionCount st data last now hlast]
  split <;> simp [*]

/-- With sensitivity 0.3 and threshold 10, between two frames whose pixels are unchanged or
differ by 255 in each colour channel, motion is reported exactly when more than ten pixels
differ. -/
theorem motionReported_iff_of_fullDiff (st : State) (cur prev : List Pixel) (now : Int) (k : Nat)
    (hlast : st.motionDetection.lastFrame = some (frameOf prev))
    (hs : st.motionDetection.sensitivity = 3 / 10)
    (ht : st.motionDetection.motionThreshold = 10)
    (hpix : ∀ pq ∈ List.zip cur prev, pq.1 = pq.2 ∨ Pixel.fullDiff pq.1 pq.2)
    (hk : (List.zip cur prev).countP (fun pq => decide (pq.1 ≠ pq.2)) = k) :
    countMotionPixels (frameOf cur) (frameOf prev) (st.motionDetection.sensitivity * 255) = k ∧
    (motionReported st (detectMotion st (frameOf cur) now) ↔ 10 < k) := by
  have hcount : countMotionPixels (frameOf cur) (frameOf prev)
      (st.motionDetection.sensitivity * 255) = k := by
    rw [hs, countMotionPixels_frameOf, ← hk]
    apply List.countP_congr
    intro pq hmem
    simp only [decide_eq_true_eq]
    exact changed_iff_ne_of_fullDiff pq.1 pq.2 (hpix pq hmem)
  refine ⟨hcount, ?_⟩
  rw [motionReported_iff st _ _ now hlast, hcount, ht]

/-- C4: on every non-first `detectMotion` call, motion is reported if and only if
`motionPixels > motionThreshold` (strict), and when it is not reported `motionCount` and the
session objects are unchanged. With sensitivity 0.3 and threshold 10, for two frames of equal
length in which every pixel is either unchanged or differs by 255 in each colour channel, and
`k` pixels differ: motion is reported iff `10 < k`; so `k = 5` and `k = 10` yield no motion and
`k = 11` yields motion. -/
theorem detectMotion_verdict (st : State) (data last : List Byte) (now : Int)
    (hlast : st.motionDetection.lastFrame = some last) :
    (motionReported st (detectMotion st data now) ↔
      countMotionPixels data last (st.motionDetection.sensitivity * 255) >
        st.motionDetection.motionThreshold) ∧
    (¬ motionReported st (detectMotion st data now) →
      (detectMotion st data now).motionDetection.motionCount =
          st.motionDetection.motionCount ∧
        (detectMotion st data now).heap = st.heap) ∧
    ∀ (cur prev : List Pixel) (k : Nat),
      data = frameOf cur → last = frameOf prev →
      st.motionDetection.sensitivity = 3 / 10 → st.motionDetection.motionThreshold = 10 →
      cur.length = prev.length →
      (∀ pq ∈ List.zip cur prev, pq.1 = pq.2 ∨ Pixel.fullDiff pq.1 pq.2) →
      (List.zip cur prev).countP (fun pq => decide (pq.1 ≠ pq.2)) = k →
      (motionReported st (detectMotion st data now) ↔ 10 < k) ∧
      (k = 5 → ¬ motionReported st (detectMotion st data now)) ∧
      (k = 10 → ¬ motionReported st (detectMotion st data now)) ∧
      (k = 11 → motionReported st (detectMotion st data now)) := by
  have hiff := motionReported_iff st data last now hlast
  refine ⟨hiff, ?_, ?_⟩
  · intro hno
    have hle := mt hiff.mpr hno
    refine ⟨?_, ?_⟩
    · rw [detectMotion_motionCount st data last now hlast, if_neg hle]
    · unfold detectMotion
      rw [hlast]
      simp only [if_neg hle]
      rfl
  · intro cur prev k hdata hprev hs ht _ hpix hk
    subst hdata hprev
    have hk10 := (motionReported_iff_of_fullDiff st cur prev now k hlast hs ht hpix hk).2
    refine ⟨hk10, ?_, ?_, ?_⟩
    · intro h5; rw [hk10, h5]; decide
    · intro h10; rw [hk10, h10]; decide
    · intro h11; rw [hk10, h11]; decide

/-- Witness of C4: a black frame followed by the same frame with eleven pixels turned white
is reported as motion, and with ten pixels turned white it is not. -/
theorem detectMotion_verdict_witness :
    (stateWithLastFrame (frameOf blackFrame)).motionDetection.lastFrame =
      some (frameOf blackFrame) ∧
    (flippedFrame 11).length = blackFrame.length ∧
    (∀ pq ∈ List.zip (flippedFrame 11) blackFrame, pq.1 = pq.2 ∨ Pixel.fullDiff pq.1 pq.2) ∧
    (List.zip (flippedFrame 11) blackFrame).countP (fun pq => decide (pq.1 ≠ pq.2)) = 11 ∧
    motionReported (stateWithLastFrame (frameOf blackFrame))
      (detectMotion (stateWithLastFrame (frameOf blackFrame)) (frameOf (flippedFrame 11)) 7) ∧
    ¬ motionReported (stateWithLastFrame (frameOf blackFrame))
      (detectMotion (stateWithLastFrame (frameOf blackFrame)) (frameOf (flippedFrame 10)) 7) :=
  ⟨rfl, by decide, by decide, by decide,
    ((detectMotion_verdict (stateWithLastFrame (frameOf blackFrame))
        (frameOf (flippedFrame 11)) (frameOf blackFrame) 7 rfl).2.2
      (flippedFrame 11) blackFrame 11 rfl rfl rfl rfl (by decide) (by decide)
      (by decide)).2.2.2 rfl,
    ((detectMotion_verdict (stateWithLastFrame (frameOf blackFrame))
        (frameOf (flippedFrame 10)) (frameOf blackFrame) 7 rfl).2.2
      (flippedFrame 10) blackFrame 10 rfl rfl rfl rfl (by decide) (by decide)
      (by decide)).2.2.1 rfl⟩


theorem updateObject_getElem?_self (heap : List Session) (ref : Nat) (f : Session → Session)
    (s : Session) (h : heap[ref]? = some s) : (updateObject heap ref f)[ref]? = some (f s) := by
  have hlt : ref < heap.length := by
    rcases Nat.lt_or_ge ref heap.length with hlt | hge
    · exact hlt
    · rw [List.getElem?_eq_none hge] at h
      cases h
  simp [updateObject, h, List.getElem?_set, hlt]

theorem updateObject_getElem?_ne (heap : List Session) (ref r : Nat) (f : Session → Session)
    (h : r ≠ ref) : (updateObject heap ref f)[r]? = heap[r]? := by
  unfold updateObject
  split
  · rw [List.getElem?_set]
    simp [Ne.symm h]
  · rfl

@[simp] theorem updateObject_length (heap : List Session) (ref : Nat) (f : Session → Session) :
    (updateObject heap ref f).length = heap.length := by
  unfold updateObject
  split <;> simp

/-- The heap after a call of `detectMotion` that reports motion while a session is current. -/
theorem detectMotion_heap_of_motion (st : State) (data last : List Byte) (now : Int) (ref : Nat)
    (hlast : st.motionDetection.lastFrame = some last)
    (hcur : st.currentSession = some ref)
    (hmotion : countMotionPixels data last (st.motionDetection.sensitivity * 255) >
      st.motionDetection.motionThreshold) :
    (detectMotion st data now).heap =
      updateObject st.heap ref (fun s =>
        { s with
          motionEvents := some (s.motionEvents.getD [] ++
            [{ timestamp := .date now
               motionPixels :=
                 countMotionPixels data last (st.motionDetection.sensitivity * 255)
               confidence := motionConfidence
                 (countMotionPixels data last (st.motionDetection.sensitivity * 255)) }]) }) := by
  unfold detectMotion
  rw [hlast]
  simp only [if_pos hmotion, updateMotionStatus, hcur, Option.isSome_some, if_true,
    addMotionEventToSession, updateSessionInHistory_heap]

theorem motionConfidence_pos (n : Nat) (h : 0 < n) : 0 < motionConfidence n := by
  unfold motionConfidence
  have : (0 : ℚ) < (n : ℚ) := by exact_mod_cast h
  exact lt_min (by positivity) (by norm_num)

theorem motionConfidence_le_one (n : Nat) : motionConfidence n ≤ 1 :=
  min_le_right _ _

theorem motionConfidence_eq_one (n : Nat) (h : 1000 ≤ n) : motionConfidence n = 1 := by
  unfold motionConfidence
  have : (1000 : ℚ) ≤ (n : ℚ) := by exact_mod_cast h
  apply min_eq_right
  rw [le_div_iff₀ (by norm_num)]
  linarith

/-- C5: whenever `detectMotion` reports motion while a session is current, exactly one
MotionEvent is appended to the `motionEvents` of that session object (created empty when the
session had none), no other session object changes, and the event carries the computed
`motionPixels` and `confidence = min(motionPixels / 1000, 1)`. That confidence lies in
`(0, 1]`, is `1` for every `motionPixels ≥ 1000`, and is `11 / 1000 = 0.011` for 11 pixels. -/
theorem detectMotion_appends_event (st : State) (data last : List Byte) (now : Int) (ref : Nat)
    (s : Session)
    (hlast : st.motionDetection.lastFrame = some last)
    (hcur : st.currentSession = some ref)
    (hobj : st.heap[ref]? = some s)
    (hmotion : motionReported st (detectMotion st data now)) :
    (detectMotion st data now).heap[ref]? =
      some { s with
        motionEvents := some (s.motionEvents.getD [] ++
          [{ timestamp := .date now
             motionPixels := countMotionPixels data last (st.motionDetection.sensitivity * 255)
             confidence := min
               ((countMotionPixels data last (st.motionDetection.sensitivity * 255) : ℚ) / 1000)
               1 }]) } ∧
    (∀ r, r ≠ ref → (detectMotion st data now).heap[r]? = st.heap[r]?) ∧
    (detectMotion st data now).heap.length = st.heap.length ∧
    0 < motionConfidence
      (countMotionPixels data last (st.motionDetection.sensitivity * 255)) ∧
    motionConfidence (countMotionPixels data last (st.motionDetection.sensitivity * 255)) ≤ 1 ∧
    (∀ n : Nat, 1000 ≤ n → motionConfidence n = 1) ∧
    motionConfidence 11 = 11 / 1000 := by
  have hgt := (motionReported_iff st data last now hlast).mp hmotion
  have hheap := detectMotion_heap_of_motion st data last now ref hlast hcur hgt
  refine ⟨?_, ?_, ?_, ?_, motionConfidence_le_one _, motionConfidence_eq_one, ?_⟩
  · rw [hheap, updateObject_getElem?_self _ _ _ s hobj]
    rfl
  · intro r hr
    rw [hheap, updateObject_getElem?_ne _ _ _ _ hr]
  · rw [hheap, updateObject_length]
  · exact motionConfidence_pos _ (Nat.lt_of_le_of_lt (Nat.zero_le _) hgt)
  · unfold motionConfidence
    norm_num

/-- Witness of C5: in a state with a current session whose last frame is black, a frame with
eleven white pixels is reported as motion and the event is appended to the session. -/
theorem detectMotion_appends_event_witness :
    sampleSessionState.motionDetection.lastFrame = some (frameOf blackFrame) ∧
    sampleSessionState.currentSession = some 0 ∧
    sampleSessionState.heap[0]? = some sampleSession ∧
    motionReported sampleSessionState
      (detectMotion sampleSessionState (frameOf (flippedFrame 11)) 7) ∧
    (detectMotion sampleSessionState (frameOf (flippedFrame 11)) 7).heap[0]? =
      some { sampleSession with
        motionEvents := some
          [{ timestamp := .date 7
             motionPixels := countMotionPixels (frameOf (flippedFrame 11)) (frameOf blackFrame)
               (sampleSessionState.motionDetection.sensitivity * 255)
             confidence := min
               ((countMotionPixels (frameOf (flippedFrame 11)) (frameOf blackFrame)
                 (sampleSessionState.motionDetection.sensitivity * 255) : ℚ) / 1000) 1 }] } :=
  have hm : motionReported sampleSessionState
      (detectMotion sampleSessionState (frameOf (flippedFrame 11)) 7) :=
    (motionReported_iff_of_fullDiff sampleSessionState (flippedFrame 11) blackFrame 7 11 rfl rfl
      rfl (by decide) (by decide)).2.mpr (by decide)
  ⟨rfl, by decide, by decide, hm,
    (detectMotion_appends_event sampleSessionState (frameOf (flippedFrame 11))
      (frameOf blackFrame) 7 0 sampleSession rfl (by decide) (by decide) hm).1⟩


/-- The test of the object loop at the `k`-th pixel, in terms of the pixels. -/
theorem pixelDark_frameOf (ps : List Pixel) (k : Nat) :
    pixelDark (frameOf ps) (4 * k) =
      match ps[k]? with
      | some p => decide p.dark
      | none => false := by
  obtain ⟨hr, hg, hb⟩ := getElem?_frameOf ps k
  simp only [pixelDark, hr, hg, hb]
  cases hp : ps[k]? with
  | none => simp [below100]
  | some p => simp [below100, Pixel.dark, Bool.decide_or, Bool.or_assoc]

/-- The object loop counts the dark pixels. -/
theorem countEdgePixels_frameOf (ps : List Pixel) :
    countEdgePixels (frameOf ps) = ps.countP (fun p => decide p.dark) := by
  unfold countEdgePixels
  rw [foldl_count, loopIndices_frameOf, List.countP_map, Nat.zero_add]
  have h := countP_range_getElem?
    (fun (a : Option Pixel) =>
      match a with
      | some p => decide p.dark
      | none => false) ps
  simp only at h
  rw [← h]
  apply List.countP_congr
  intro k _
  simp only [Function.comp_def, pixelDark_frameOf]

/-- C6: for every RGBA frame buffer `frameOf ps`, `detectObjects` sets `detectedObjects` to a
list of exactly `floor(d / 1000)` records, where `d` is the number of pixels with R < 100 or
G < 100 or B < 100 (alpha ignored), and the `i`-th record is
`{id: i, type: "object", confidence: 0.7}`. -/
theorem detectObjects_spec (st : State) (ps : List Pixel) :
    (detectObjects st (frameOf ps)).objectDetection.detectedObjects.length =
      ps.countP (fun p => decide (p.r.val < 100 ∨ p.g.val < 100 ∨ p.b.val < 100)) / 1000 ∧
    (∀ i, i < ps.countP (fun p => decide (p.r.val < 100 ∨ p.g.val < 100 ∨ p.b.val < 100)) / 1000 →
      (detectObjects st (frameOf ps)).objectDetection.detectedObjects[i]? =
        some { id := i, kind := "object", confidence := 7 / 10 }) ∧
    (detectObjects st (frameOf ps)).objectDetection.detectedObjects =
      (List.range (ps.countP (fun p => decide p.dark) / 1000)).map
        (fun i => { id := i, kind := "object", confidence := 7 / 10 }) := by
  have hd : (detectObjects st (frameOf ps)).objectDetection.detectedObjects =
      (List.range (ps.countP (fun p => decide p.dark) / 1000)).map
        (fun i => ({ id := i, kind := "object", confidence := 7 / 10 } : DetectedObject)) := by
    simp only [detectObjects, updateObjectStatus, countEdgePixels_frameOf]
  refine ⟨?_, ?_, hd⟩
  · rw [hd]
    simp [Pixel.dark]
  · intro i hi
    rw [hd, List.getElem?_map, List.getElem?_range (by simpa [Pixel.dark] using hi)]
    rfl

/-- Witness of C6: a frame with 2100 dark pixels among 2500 yields two records. -/
theorem detectObjects_spec_witness :
    1 < (darkFrame 2100).countP
        (fun p => decide (p.r.val < 100 ∨ p.g.val < 100 ∨ p.b.val < 100)) / 1000 ∧
    (detectObjects State.init (frameOf (darkFrame 2100))).objectDetection.detectedObjects[1]? =
      some { id := 1, kind := "object", confidence := 7 / 10 } :=
  have h : 1 < (darkFrame 2100).countP
      (fun p => decide (p.r.val < 100 ∨ p.g.val < 100 ∨ p.b.val < 100)) / 1000 := by
    simp only [darkFrame, List.countP_append, List.countP_replicate]
    decide
  ⟨h, (detectObjects_spec State.init (darkFrame 2100)).2.1 1 h⟩


theorem countP_dark_le (f g : List Pixel) (hlen : f.length = g.length)
    (h : ∀ pq ∈ List.zip f g, pq.1.dark → pq.2.dark) :
    f.countP (fun p => decide p.dark) ≤ g.countP (fun p => decide p.dark) := by
  induction f generalizing g with
  | nil => simp
  | cons p ps ih =>
    cases g with
    | nil => simp at hlen
    | cons q qs =>
      simp only [List.length_cons, Nat.add_right_cancel_iff] at hlen
      simp only [List.zip_cons_cons, List.mem_cons, forall_eq_or_imp] at h
      have hrest := ih qs hlen h.2
      simp only [List.countP_cons]
      by_cases hp : p.dark
      · have hq := h.1 hp
        simp only [hp, hq, decide_True, if_true]
        omega
      · by_cases hq : q.dark
        · simp only [hp, hq, decide_False, decide_True, if_true]
          simp only [Bool.false_eq_true, if_false]
          omega
        · simp only [hp, hq, decide_False]
          simpa using hrest

/-- The number of records `detectObjects` produces. -/
theorem detectObjects_length (st : State) (ps : List Pixel) :
    (detectObjects st (frameOf ps)).objectDetection.detectedObjects.length =
      ps.countP (fun p => decide p.dark) / 1000 := by
  simp [detectObjects, updateObjectStatus, countEdgePixels_frameOf]

/-- C7: the object count is monotonically non-decreasing in the number of dark pixels: if the
frame `g` is obtained from the frame `f` by turning pixels whose R, G and B channels are all at
least 100 into pixels with some channel below 100, leaving the other pixels unchanged, then
`detectObjects` counts at least as many dark pixels and produces at least as many objects for
`g` as for `f`. -/
theorem detectObjects_monotone (st st2 : State) (f g : List Pixel)
    (hlen : f.length = g.length)
    (hflip : ∀ pq ∈ List.zip f g,
      pq.2 = pq.1 ∨
        ((100 ≤ pq.1.r.val ∧ 100 ≤ pq.1.g.val ∧ 100 ≤ pq.1.b.val) ∧
          (pq.2.r.val < 100 ∨ pq.2.g.val < 100 ∨ pq.2.b.val < 100))) :
    countEdgePixels (frameOf f) ≤ countEdgePixels (frameOf g) ∧
    (detectObjects st (frameOf f)).objectDetection.detectedObjects.length ≤
      (detectObjects st2 (frameOf g)).objectDetection.detectedObjects.length := by
  have hcount : f.countP (fun p => decide p.dark) ≤ g.countP (fun p => decide p.dark) := by
    apply countP_dark_le f g hlen
    intro pq hmem hdark
    rcases hflip pq hmem with h | h
    · rw [h]; exact hdark
    · exact h.2
  refine ⟨?_, ?_⟩
  · rw [countEdgePixels_frameOf, countEdgePixels_frameOf]
    exact hcount
  · rw [detectObjects_length, detectObjects_length]
    exact Nat.div_le_div_right hcount

/-- Witness of C7: turning five more white pixels of a frame black. -/
theorem detectObjects_monotone_witness :
    (flippedFrame 11).length = (flippedFrame 6).length ∧
    (∀ pq ∈ List.zip (flippedFrame 11) (flippedFrame 6),
      pq.2 = pq.1 ∨
        ((100 ≤ pq.1.r.val ∧ 100 ≤ pq.1.g.val ∧ 100 ≤ pq.1.b.val) ∧
          (pq.2.r.val < 100 ∨ pq.2.g.val < 100 ∨ pq.2.b.val < 100))) ∧
    countEdgePixels (frameOf (flippedFrame 11)) ≤ countEdgePixels (frameOf (flippedFrame 6)) ∧
    (detectObjects State.init (frameOf (flippedFrame 11))).objectDetection.detectedObjects.length ≤
      (detectObjects State.init (frameOf (flippedFrame 6))).objectDetection.detectedObjects.length :=
  ⟨by decide, by decide,
    detectObjects_monotone State.init State.init (flippedFrame 11) (flippedFrame 6)
      (by decide) (by decide)⟩


/-! ## The session history -/

/-- The history after one insertion. -/
theorem addToSessionHistory_sessionHistory (st : State) (session : Nat) :
    (addToSessionHistory st session).sessionHistory = session :: st.sessionHistory.take 49 := by
  unfold addToSessionHistory
  simp only [saveSessionHistory_sessionHistory, List.length_cons]
  split
  · rw [List.take_succ_cons]
  · rename_i h
    rw [List.take_of_length_le (by omega)]

/-- The history after a sequence of insertions into a history of at most fifty entries. -/
theorem foldl_addToSessionHistory (sessions : List Nat) (st : State)
    (hlen : st.sessionHistory.length ≤ 50) :
    (sessions.foldl addToSessionHistory st).sessionHistory =
      (sessions.reverse ++ st.sessionHistory).take 50 := by
  induction sessions generalizing st with
  | nil => simp [List.take_of_length_le hlen]
  | cons x xs ih =>
    have hx := addToSessionHistory_sessionHistory st x
    have hlen2 : (addToSessionHistory st x).sessionHistory.length ≤ 50 := by
      rw [hx, List.length_cons, List.length_take]
      omega
    rw [List.foldl_cons, ih _ hlen2, hx, List.reverse_cons, List.append_assoc,
      List.singleton_append]
    rw [List.take_append_eq_append_take, List.take_append_eq_append_take]
    congr 1
    cases hk : 50 - xs.reverse.length with
    | zero => rfl
    | succ k =>
      rw [List.take_succ_cons, List.take_succ_cons, List.take_take]
      congr 2
      omega

/-- C8: for every prior history and every session, after `addToSessionHistory` the history
has length `min(|h| + 1, 50)`, the session is at index 0 and the remaining entries are the
first `min(|h|, 49)` entries of the prior history in their order; the session objects are
untouched. So after any sequence of insertions that follows, and after any sequence of
insertions into a history of at most 50 entries, the history holds at most 50 entries. -/
theorem addToSessionHistory_spec (st : State) (session : Nat) :
    (addToSessionHistory st session).sessionHistory.length =
      min (st.sessionHistory.length + 1) 50 ∧
    (addToSessionHistory st session).sessionHistory[0]? = some session ∧
    (addToSessionHistory st session).sessionHistory.tail =
      st.sessionHistory.take (min st.sessionHistory.length 49) ∧
    (addToSessionHistory st session).sessionHistory = session :: st.sessionHistory.take 49 ∧
    (addToSessionHistory st session).heap = st.heap ∧
    (∀ sessions : List Nat,
      (sessions.foldl addToSessionHistory
        (addToSessionHistory st session)).sessionHistory.length ≤ 50) ∧
    (st.sessionHistory.length ≤ 50 → ∀ sessions : List Nat,
      (sessions.foldl addToSessionHistory st).sessionHistory.length ≤ 50) := by
  have hx := addToSessionHistory_sessionHistory st session
  have hlen : (addToSessionHistory st session).sessionHistory.length ≤ 50 := by
    rw [hx, List.length_cons, List.length_take]
    omega
  refine ⟨?_, ?_, ?_, hx, rfl, ?_, ?_⟩
  · rw [hx, List.length_cons, List.length_take]
    omega
  · rw [hx, List.getElem?_cons_zero]
  · rw [hx, List.tail_cons]
    rcases Nat.le_total st.sessionHistory.length 49 with h | h
    · rw [Nat.min_eq_left h, List.take_of_length_le h, List.take_of_length_le (le_refl _)]
    · rw [Nat.min_eq_right h]
  · intro sessions
    rw [foldl_addToSessionHistory sessions _ hlen, List.length_take]
    omega
  · intro h sessions
    rw [foldl_addToSessionHistory sessions _ h, List.length_take]
    omega

/-- Witness of C8: insertions into the empty history of `fullHeapState`. -/
theorem addToSessionHistory_spec_witness :
    fullHeapState.sessionHistory.length ≤ 50 ∧
    ((List.range 55).foldl addToSessionHistory fullHeapState).sessionHistory.length ≤ 50 :=
  ⟨by decide, (addToSessionHistory_spec fullHeapState 0).2.2.2.2.2.2 (by decide) (List.range 55)⟩

/-- C9: starting from an empty history, after inserting the sessions `s1, …, sn` one after the
other with `addToSessionHistory`, the history is `[sn, …, s(n-k+1)]` with `k = min(n, 50)`: the
last `k` inserted, newest first. For `n = 55` it is the reverse of the list without its first
five sessions, that is `s55, …, s6`. -/
theorem addToSessionHistory_sequence (st : State) (sessions : List Nat)
    (hempty : st.sessionHistory = []) :
    (sessions.foldl addToSessionHistory st).sessionHistory =
      (sessions.drop (sessions.length - min sessions.length 50)).reverse ∧
    (sessions.foldl addToSessionHistory st).sessionHistory = sessions.reverse.take 50 ∧
    (sessions.foldl addToSessionHistory st).sessionHistory.length = min sessions.length 50 ∧
    (sessions.length = 55 →
      (sessions.foldl addToSessionHistory st).sessionHistory = (sessions.drop 5).reverse) := by
  have h := foldl_addToSessionHistory sessions st (by simp [hempty])
  rw [hempty, List.append_nil] at h
  have hdrop : (sessions.foldl addToSessionHistory st).sessionHistory =
      (sessions.drop (sessions.length - min sessions.length 50)).reverse := by
    rw [h, List.take_reverse]
    congr 2
    omega
  refine ⟨hdrop, h, ?_, ?_⟩
  · rw [h, List.length_take, List.length_reverse]
    omega
  · intro h55
    rw [hdrop, h55]
    rfl

/-- Witness of C9: fifty-five sessions inserted into the empty history of `fullHeapState`. -/
theorem addToSessionHistory_sequence_witness :
    fullHeapState.sessionHistory = [] ∧ (List.range 55).length = 55 ∧
    ((List.range 55).foldl addToSessionHistory fullHeapState).sessionHistory =
      ((List.range 55).drop 5).reverse :=
  ⟨rfl, by decide,
    (addToSessionHistory_sequence fullHeapState (List.range 55) rfl).2.2.2 (by decide)⟩


/-! ## The invariant of the session store -/

theorem StoreInv_none (st : State) (h : st.currentSession = none) :
    StoreInv st ↔
      (∀ r ∈ st.sessionHistory, r < st.heap.length) ∧
        ∀ r ∈ st.sessionHistory, isActive st r = false := by
  unfold StoreInv
  rw [h]

theorem StoreInv_some (st : State) (c : Nat) (h : st.currentSession = some c) :
    StoreInv st ↔
      (∀ r ∈ st.sessionHistory, r < st.heap.length) ∧ c < st.heap.length ∧
        ∃ rest, st.sessionHistory = c :: rest ∧ c ∉ rest ∧
          ∀ r ∈ rest, isActive st r = false := by
  unfold StoreInv
  rw [h]

/-- The invariant only reads the heap, the history and the current session. -/
theorem StoreInv_of_eq (st st2 : State) (hheap : st2.heap = st.heap)
    (hhist : st2.sessionHistory = st.sessionHistory)
    (hcur : st2.currentSession = st.currentSession) (hinv : StoreInv st) : StoreInv st2 := by
  unfold StoreInv at hinv ⊢
  unfold isActive at hinv ⊢
  rw [hheap, hhist, hcur]
  exact hinv

theorem isActive_of_getElem? (st st2 : State) (r : Nat) (h : st2.heap[r]? = st.heap[r]?) :
    isActive st2 r = isActive st r := by
  unfold isActive
  rw [h]

/-- Writing the head of the history back into the history leaves the history as it is. -/
theorem updateSessionInHistory_head (st : State) (c : Nat) (rest : List Nat)
    (hc : c < st.heap.length) (hh : st.sessionHistory = c :: rest) :
    (updateSessionInHistory st c).sessionHistory = c :: rest := by
  have hfind : findIndex
      (fun r => decide ((st.heap[r]?).map Session.id = some (st.heap[c]).id))
      st.sessionHistory = some 0 := by
    rw [hh]
    simp [findIndex, List.getElem?_eq_getElem hc]
  unfold updateSessionInHistory
  rw [List.getElem?_eq_getElem hc]
  simp only [hfind, saveSessionHistory_sessionHistory]
  rw [hh]
  rfl

/-- A write to the current session object followed by `updateSessionInHistory` keeps the
invariant. -/
theorem StoreInv_mutate (st : State) (c : Nat) (f : Session → Session) (hinv : StoreInv st)
    (hcur : st.currentSession = some c) :
    StoreInv (updateSessionInHistory { st with heap := updateObject st.heap c f } c) := by
  obtain ⟨hrefs, hc, rest, hh, hnot, hrest⟩ := (StoreInv_some st c hcur).mp hinv
  have hhist := updateSessionInHistory_head { st with heap := updateObject st.heap c f } c rest
    (by simpa using hc) hh
  rw [StoreInv_some _ c (by simpa using hcur)]
  refine ⟨?_, by simpa using hc, rest, hhist, hnot, ?_⟩
  · intro r hr
    rw [hhist, ← hh] at hr
    simpa using hrefs r hr
  · intro r hr
    have hne : r ≠ c := fun h => hnot (h ▸ hr)
    rw [isActive_of_getElem? st _ r (by simp [updateObject_getElem?_ne _ _ _ _ hne])]
    exact hrest r hr

theorem StoreInv_addScreenshotToSession (st : State) (d : Screenshot) (hinv : StoreInv st) :
    StoreInv (addScreenshotToSession st d) := by
  unfold addScreenshotToSession
  split
  · rename_i c hcur
    exact StoreInv_mutate st c _ hinv hcur
  · exact hinv

theorem StoreInv_addRecordingToSession (st : State) (d : Recording) (hinv : StoreInv st) :
    StoreInv (addRecordingToSession st d) := by
  unfold addRecordingToSession
  split
  · rename_i c hcur
    exact StoreInv_mutate st c _ hinv hcur
  · exact hinv

theorem StoreInv_addMotionEventToSession (st : State) (d : MotionEvent) (hinv : StoreInv st) :
    StoreInv (addMotionEventToSession st d) := by
  unfold addMotionEventToSession
  split
  · rename_i c hcur
    exact StoreInv_mutate st c _ hinv hcur
  · exact hinv

theorem StoreInv_detectMotion (st : State) (data : List Byte) (now : Int) (hinv : StoreInv st) :
    StoreInv (detectMotion st data now) := by
  unfold detectMotion
  split
  · exact StoreInv_of_eq st _ rfl rfl rfl hinv
  · simp only
    split
    · split
      · apply StoreInv_addMotionEventToSession
        exact StoreInv_of_eq st _ rfl rfl rfl hinv
      · exact StoreInv_of_eq st _ rfl rfl rfl hinv
    · exact StoreInv_of_eq st _ rfl rfl rfl hinv

theorem StoreInv_toggleMotionDetection (st : State) (checked : Bool) (hinv : StoreInv st) :
    StoreInv (toggleMotionDetection st checked) := by
  unfold toggleMotionDetection
  simp only
  split
  · exact StoreInv_of_eq st _ rfl rfl rfl hinv
  · exact StoreInv_of_eq st _ rfl rfl rfl hinv

theorem StoreInv_endCurrentSession (st : State) (now : Int) (hinv : StoreInv st) :
    StoreInv (endCurrentSession st now) := by
  unfold endCurrentSession
  split
  · rename_i c hcur
    obtain ⟨_, hc, rest, hh, _, _⟩ := (StoreInv_some st c hcur).mp hinv
    have hmut := StoreInv_mutate st c (fun s =>
        { s with
          endTime := some (.date now)
          status := "completed"
          duration := some (durationSeconds (.date now) s.startTime) }) hinv hcur
    obtain ⟨hrefs2, _, rest2, hh2, _, hrest2⟩ :=
      (StoreInv_some _ c (by simpa using hcur)).mp hmut
    rw [StoreInv_none _ rfl]
    refine ⟨hrefs2, ?_⟩
    intro r hr
    simp only at hr
    rw [hh2] at hr
    rcases List.mem_cons.mp hr with h | h
    · subst h
      unfold isActive
      simp only [updateSessionInHistory_heap]
      rw [updateObject_getElem?_self _ _ _ _ (List.getElem?_eq_getElem hc)]
      simp
    · exact hrest2 r h
  · exact hinv

theorem StoreInv_startNewSession (st : State) (idNow : Int) (random : String) (now : Int)
    (hinv : StoreInv st) (hcur : st.currentSession = none) :
    StoreInv (startNewSession st idNow random now) := by
  obtain ⟨hrefs, hrest⟩ := (StoreInv_none st hcur).mp hinv
  have hhist : (startNewSession st idNow random now).sessionHistory =
      st.heap.length :: st.sessionHistory.take 49 := by
    unfold startNewSession
    simp only
    rw [addToSessionHistory_sessionHistory]
  have hheap : ∀ r, r < st.heap.length →
      (startNewSession st idNow random now).heap[r]? = st.heap[r]? := by
    intro r hr
    simp only [startNewSession, addToSessionHistory, saveSessionHistory_heap]
    rw [List.getElem?_append_left hr]
  have hlen : (startNewSession st idNow random now).heap.length = st.heap.length + 1 := by
    simp [startNewSession, addToSessionHistory]
  rw [StoreInv_some _ st.heap.length rfl]
  refine ⟨?_, by omega, st.sessionHistory.take 49, hhist, ?_, ?_⟩
  · intro r hr
    rw [hhist] at hr
    rcases List.mem_cons.mp hr with h | h
    · omega
    · have := hrefs r (List.mem_of_mem_take h)
      omega
  · intro hmem
    have := hrefs _ (List.mem_of_mem_take hmem)
    omega
  · intro r hr
    have hmem := List.mem_of_mem_take hr
    rw [isActive_of_getElem? st _ r (hheap r (hrefs r hmem))]
    exact hrest r hmem

/-- Every alternating sequence of operations keeps the invariant. -/
theorem StoreInv_runOps (ops : List SessionOp) (st : State) (hinv : StoreInv st)
    (hvalid : validOps st ops = true) : StoreInv (runOps st ops) := by
  induction ops generalizing st with
  | nil => exact hinv
  | cons op ops ih =>
    unfold runOps
    rw [List.foldl_cons]
    cases op with
    | start idNow random now =>
      simp only [validOps, Bool.and_eq_true, Option.isNone_iff_eq_none] at hvalid
      exact ih _ (StoreInv_startNewSession st idNow random now hinv hvalid.1) hvalid.2
    | stop now => exact ih _ (StoreInv_endCurrentSession st now hinv) hvalid
    | screenshot d => exact ih _ (StoreInv_addScreenshotToSession st d hinv) hvalid
    | recording d => exact ih _ (StoreInv_addRecordingToSession st d hinv) hvalid
    | motionEvent d => exact ih _ (StoreInv_addMotionEventToSession st d hinv) hvalid
    | frame data now => exact ih _ (StoreInv_detectMotion st data now hinv) hvalid
    | toggleMotion checked => exact ih _ (StoreInv_toggleMotionDetection st checked hinv) hvalid


/-- C10: in every state reached from an empty history with no current session by a sequence
of operations in which starts and stops alternate (a start only when no session is current),
with screenshots, recordings, motion events, frames and detector toggles interleaved at will,
at most one entry of the history has status `'active'`; such an entry is the head of the
history and the session `currentSession` refers to. -/
theorem at_most_one_active_session (st0 : State) (ops : List SessionOp)
    (hempty : st0.sessionHistory = []) (hnone : st0.currentSession = none)
    (hvalid : validOps st0 ops = true) :
    activeCount (runOps st0 ops) ≤ 1 ∧
    ∀ (i r : Nat), (runOps st0 ops).sessionHistory[i]? = some r →
      isActive (runOps st0 ops) r = true →
      (runOps st0 ops).currentSession = some r ∧ i = 0 := by
  have hinit : StoreInv st0 := by
    rw [StoreInv_none st0 hnone, hempty]
    simp
  have hinv := StoreInv_runOps ops st0 hinit hvalid
  generalize runOps st0 ops = st at hinv
  cases hcur : st.currentSession with
  | none =>
    obtain ⟨_, hrest⟩ := (StoreInv_none st hcur).mp hinv
    refine ⟨?_, ?_⟩
    · unfold activeCount
      rw [List.countP_eq_zero.mpr (fun r hr => by simp [hrest r hr])]
      exact Nat.zero_le 1
    · intro i r hget hact
      have hmem : r ∈ st.sessionHistory := List.getElem?_mem hget
      rw [hrest r hmem] at hact
      cases hact
  | some c =>
    obtain ⟨_, _, rest, hh, _, hrest⟩ := (StoreInv_some st c hcur).mp hinv
    refine ⟨?_, ?_⟩
    · unfold activeCount
      rw [hh, List.countP_cons,
        List.countP_eq_zero.mpr (fun r hr => by simp [hrest r hr])]
      split <;> omega
    · intro i r hget hact
      rw [hh] at hget
      cases i with
      | zero =>
        simp only [List.getElem?_cons_zero, Option.some.injEq] at hget
        exact ⟨by rw [hget], rfl⟩
      | succ j =>
        rw [List.getElem?_cons_succ] at hget
        rw [hrest r (List.getElem?_mem hget)] at hact
        cases hact

/-- Witness of C10: two sessions with activity in between, from the initial state. -/
theorem at_most_one_active_session_witness :
    State.init.sessionHistory = [] ∧ State.init.currentSession = none ∧
    validOps State.init sampleOps = true ∧
    activeCount (runOps State.init sampleOps) ≤ 1 :=
  ⟨rfl, rfl, by decide,
    (at_most_one_active_session State.init sampleOps rfl rfl (by decide)).1⟩


/-! ## Error messages -/

/-- C16: `getErrorMessage` is a total function of `error.name`. It maps `NotAllowedError`,
`NotFoundError`, `NotReadableError` and `OverconstrainedError` to four fixed messages, every
other name and a missing name to the unknown-error message, the five messages are pairwise
distinct, and the copy of the function in the integrated backend script agrees with it on
every input. -/
theorem getErrorMessage_spec (errorName : Option String) :
    getErrorMessage (some "NotAllowedError") =
      "Camera access denied. Please allow camera access and try again." ∧
    getErrorMessage (some "NotFoundError") =
      "No camera found. Please connect a camera and try again." ∧
    getErrorMessage (some "NotReadableError") =
      "Camera is being used by another application." ∧
    getErrorMessage (some "OverconstrainedError") = "Camera constraints cannot be satisfied." ∧
    getErrorMessage none = "Unable to access camera. Please check your camera settings." ∧
    (errorName ≠ some "NotAllowedError" → errorName ≠ some "NotFoundError" →
      errorName ≠ some "NotReadableError" → errorName ≠ some "OverconstrainedError" →
      getErrorMessage errorName =
        "Unable to access camera. Please check your camera settings.") ∧
    [getErrorMessage (some "NotAllowedError"), getErrorMessage (some "NotFoundError"),
      getErrorMessage (some "NotReadableError"), getErrorMessage (some "OverconstrainedError"),
      getErrorMessage none].Nodup ∧
    Integrated.getErrorMessage errorName = getErrorMessage errorName := by
  refine ⟨by decide, by decide, by decide, by decide, by decide, ?_, by decide, rfl⟩
  intro h1 h2 h3 h4
  simp [getErrorMessage, h1, h2, h3, h4]

/-- Witness of C16: a name the function does not list. -/
theorem getErrorMessage_spec_witness :
    (some "AbortError" : Option String) ≠ some "NotAllowedError" ∧
    getErrorMessage (some "AbortError") =
      "Unable to access camera. Please check your camera settings." :=
  ⟨by decide,
    (getErrorMessage_spec (some "AbortError")).2.2.2.2.2.1 (by decide) (by decide) (by decide)
      (by decide)⟩

/-! ## Actions while the capture is not active -/

/-- C17: while the capture is not active (`cameraActive` is false), `startRecording` and
`takeScreenshot` only show the message "Please start the camera first": they return normally,
and the session objects, the history, the current session, the persisted data, the recording
flag and the recorder are unchanged, so no Recording or Screenshot is appended. -/
theorem actions_fail_when_not_active (st : State) (recorder : RecorderStart)
    (startedAt idNow now : Int) (iso : String) (h : st.cameraActive = false) :
    startRecording st recorder startedAt idNow now = alert st "Please start the camera first" ∧
    takeScreenshot st idNow now iso = alert st "Please start the camera first" ∧
    (alert st "Please start the camera first").heap = st.heap ∧
    (alert st "Please start the camera first").sessionHistory = st.sessionHistory ∧
    (alert st "Please start the camera first").history = st.history ∧
    (alert st "Please start the camera first").currentSession = st.currentSession ∧
    (alert st "Please start the camera first").localStorage = st.localStorage ∧
    (alert st "Please start the camera first").isRecording = st.isRecording ∧
    (alert st "Please start the camera first").mediaRecorder = st.mediaRecorder ∧
    (alert st "Please start the camera first").cameraActive = st.cameraActive ∧
    (alert st "Please start the camera first").cameraStream = st.cameraStream := by
  refine ⟨?_, ?_, rfl, rfl, rfl, rfl, rfl, rfl, rfl, rfl, rfl⟩
  · unfold startRecording
    rw [h]
  · unfold takeScreenshot
    simp [h]

/-- Witness of C17: the initial state, in which the capture is not active. -/
theorem actions_fail_when_not_active_witness :
    State.init.cameraActive = false ∧
    startRecording State.init .started 1 2 3 = alert State.init "Please start the camera first" ∧
    takeScreenshot State.init 1 2 "2026-11-04T21:08:00.123Z" =
      alert State.init "Please start the camera first" :=
  ⟨rfl,
    (actions_fail_when_not_active State.init .started 1 2 3 "2026-11-04T21:08:00.123Z" rfl).1,
    (actions_fail_when_not_active State.init .started 1 2 3 "2026-11-04T21:08:00.123Z" rfl).2.1⟩

/-! ## Loading and the round trip through storage -/

/-- C19, evaluated where it fails: with a stored text that is not JSON, `loadSessionHistory`
raises the `SyntaxError` of `JSON.parse` instead of completing with an empty history. With no
stored text it completes and changes nothing. -/
theorem loadSessionHistory_unparseable_throws :
    loadSessionHistory corruptStorageState = .error "SyntaxError" ∧
    loadSessionHistory State.init = .ok State.init := by
  constructor <;> rfl


/-- The objects appended to a heap, read through their references. -/
theorem filterMap_range'_append (h l : List Session) :
    (List.range' h.length l.length).filterMap (fun r => (h ++ l)[r]?) = l := by
  induction l generalizing h with
  | nil => rfl
  | cons x l ih =>
    rw [List.length_cons, List.range'_succ, List.filterMap_cons]
    have hx : (h ++ x :: l)[h.length]? = some x := by
      rw [List.getElem?_append_right (le_refl _)]
      simp
    rw [hx]
    have := ih (h ++ [x])
    rw [List.length_append, List.length_singleton, List.append_assoc,
      List.singleton_append] at this
    rw [this]

/-- The history after loading a stored array of sessions. -/
theorem loadSessionHistory_parsed (st : State) (sessions : List Session)
    (h : st.localStorage.vigilanteye_session_history = some (.parsed sessions)) :
    ∃ st2 : State, loadSessionHistory st = .ok st2 ∧ st2.history = sessions ∧
      st2.heap = st.heap ++ sessions ∧
      st2.sessionHistory = List.range' st.heap.length sessions.length ∧
      st2.currentSession = st.currentSession ∧ st2.localStorage = st.localStorage := by
  refine ⟨{ st with
      heap := st.heap ++ sessions
      sessionHistory := List.range' st.heap.length sessions.length }, ?_, ?_, rfl, rfl, rfl,
    rfl⟩
  · unfold loadSessionHistory
    rw [h]
  · exact filterMap_range'_append st.heap sessions

theorem JsTime.time_toJSON_idem (t : JsTime) : t.toJSON.toJSON = t.toJSON := by
  cases t <;> rfl

/-- Serializing a session that was read from storage gives the same session. -/
theorem Session.session_toJSON_idem (s : Session) : s.toJSON.toJSON = s.toJSON := by
  cases s with
  | mk id startTime endTime recordings screenshots settings status duration motionEvents =>
    simp only [Session.toJSON, Session.mk.injEq, JsTime.time_toJSON_idem, Option.map_map,
      List.map_map, true_and, and_true]
    refine ⟨?_, ?_, ?_, ?_⟩
    · cases endTime <;> simp [JsTime.time_toJSON_idem]
    · apply List.map_congr_left
      intro r _
      simp [Recording.toJSON, JsTime.time_toJSON_idem]
    · apply List.map_congr_left
      intro r _
      simp [Screenshot.toJSON, JsTime.time_toJSON_idem]
    · cases motionEvents with
      | none => rfl
      | some es =>
        simp only [Option.map_some', Function.comp_apply, List.map_map, Option.some.injEq]
        apply List.map_congr_left
        intro e _
        simp [MotionEvent.toJSON, JsTime.time_toJSON_idem]

/-- C20, as the script has it: saving a history and loading it again succeeds and yields, in
the same order, the serialized form of each session: the same id, settings, status, duration
and child records, with every `Date` (start and end time of the session, start time of a
recording, timestamp of a screenshot or motion event) read back as its ISO string. A session
saved while active is loaded with status `'active'` and `endTime` null, and a history that was
itself loaded from storage is read back exactly. -/
theorem save_load_roundtrip (st : State) :
    ∃ st2 : State, loadSessionHistory (saveSessionHistory st) = .ok st2 ∧
      st2.history = st.history.map Session.toJSON ∧
      st2.history.length = st.history.length ∧
      (∀ (i : Nat) (s : Session), st.history[i]? = some s →
        ∃ s2 : Session, st2.history[i]? = some s2 ∧ s2.id = s.id ∧ s2.settings = s.settings ∧
          s2.status = s.status ∧ s2.duration = s.duration ∧
          s2.startTime = s.startTime.toJSON ∧ s2.endTime = s.endTime.map JsTime.toJSON ∧
          s2.recordings = s.recordings.map Recording.toJSON ∧
          s2.screenshots = s.screenshots.map Screenshot.toJSON ∧
          s2.motionEvents = s.motionEvents.map (fun es => es.map MotionEvent.toJSON) ∧
          (s.status = "active" → s.endTime = none →
            s2.status = "active" ∧ s2.endTime = none)) ∧
      ∃ st3 : State, loadSessionHistory (saveSessionHistory st2) = .ok st3 ∧
        st3.history = st2.history := by
  obtain ⟨st2, hload, hhist, _⟩ := loadSessionHistory_parsed (saveSessionHistory st)
    (st.history.map Session.toJSON) rfl
  obtain ⟨st3, hload3, hhist3, _⟩ := loadSessionHistory_parsed (saveSessionHistory st2)
    (st2.history.map Session.toJSON) rfl
  refine ⟨st2, hload, hhist, by rw [hhist, List.length_map], ?_, st3, hload3, ?_⟩
  · intro i s hs
    refine ⟨s.toJSON, ?_, rfl, rfl, rfl, rfl, rfl, rfl, rfl, rfl, rfl, ?_⟩
    · rw [hhist, List.getElem?_map, hs]
      rfl
    · intro hactive hend
      exact ⟨hactive, by simp [Session.toJSON, hend]⟩
  · rw [hhist3, hhist, List.map_map]
    apply List.map_congr_left
    intro s _
    exact Session.session_toJSON_idem s

/-- Witness of C20: the session of `sampleSessionState`, saved while active, is read back
active, with no end time. -/
theorem save_load_roundtrip_witness :
    sampleSessionState.history[0]? = some sampleSession ∧
    ∃ st2 : State, loadSessionHistory (saveSessionHistory sampleSessionState) = .ok st2 ∧
      ∃ s2 : Session, st2.history[0]? = some s2 ∧ s2.status = "active" ∧ s2.endTime = none :=
  ⟨by decide,
    (save_load_roundtrip sampleSessionState).elim fun st2 h =>
      ⟨st2, h.1,
        (h.2.2.2.1 0 sampleSession (by decide)).elim fun s2 hs =>
          ⟨s2, hs.1, hs.2.2.2.2.2.2.2.2.2.2 (by decide) (by decide)⟩⟩⟩

/-- Counterexample to C20 as stated: the history of `sampleSessionState` holds a session
whose start time is a `Date`; after saving and loading, the start time is a string, so the
loaded history is not equal to the saved one field for field. -/
theorem save_load_not_identity :
    (loadSessionHistory (saveSessionHistory sampleSessionState)).toOption.map State.history ≠
        some sampleSessionState.history ∧
    (loadSessionHistory (saveSessionHistory sampleSessionState)).toOption.map
        (fun st => st.history.map Session.startTime) = some [JsTime.text 2] ∧
    sampleSessionState.history.map Session.startTime = [JsTime.date 2] := by
  decide


/-! ## Frame lemmas for the camera functions -/

/-- `updateSessionInHistory` writes the history array and its stored copy only. -/
theorem updateSessionInHistory_frame (st : State) (session : Nat) :
    ∃ hist blob, updateSessionInHistory st session =
      { st with
        sessionHistory := hist
        localStorage := { st.localStorage with vigilanteye_session_history := blob } } := by
  unfold updateSessionInHistory
  split
  · exact ⟨st.sessionHistory, st.localStorage.vigilanteye_session_history, rfl⟩
  · split
    · exact ⟨_, _, rfl⟩
    · exact ⟨st.sessionHistory, st.localStorage.vigilanteye_session_history, rfl⟩

/-- `endCurrentSession` writes session objects, the history array, its stored copy and
`currentSession` only, and leaves no session current. -/
theorem endCurrentSession_frame (st : State) (now : Int) :
    ∃ heap hist blob, endCurrentSession st now =
      { st with
        heap := heap
        sessionHistory := hist
        currentSession := none
        localStorage := { st.localStorage with vigilanteye_session_history := blob } } := by
  unfold endCurrentSession
  split
  · rename_i ref _
    obtain ⟨hist, blob, h⟩ := updateSessionInHistory_frame
      { st with
        heap := updateObject st.heap ref (fun s =>
          { s with
            endTime := some (.date now)
            status := "completed"
            duration := some (durationSeconds (.date now) s.startTime) }) } ref
    refine ⟨updateObject st.heap ref (fun s =>
          { s with
            endTime := some (.date now)
            status := "completed"
            duration := some (durationSeconds (.date now) s.startTime) }), hist, blob, ?_⟩
    simp only [h]
  · rename_i hnone
    refine ⟨st.heap, st.sessionHistory, st.localStorage.vigilanteye_session_history, ?_⟩
    cases st
    simp only at hnone
    subst hnone
    rfl

/-- `stopCamera` releases the stream, clears the active flag, resets the two status elements
and ends the current session. -/
theorem stopCamera_frame (st : State) (now : Int) :
    ∃ heap hist blob, stopCamera st now =
      { st with
        heap := heap
        sessionHistory := hist
        currentSession := none
        localStorage := { st.localStorage with vigilanteye_session_history := blob }
        cameraStream := none
        cameraActive := false
        cameraStatus := ("Disconnected", "fw-semibold text-secondary")
        recordingStatus :=
          st.recordingStatus.map (fun _ => ("Ready", "fw-semibold text-secondary")) } := by
  unfold stopCamera
  simp only
  obtain ⟨heap, hist, blob, h⟩ := endCurrentSession_frame
    { updateCameraStatus
        { (match st.cameraStream with
            | some _ => { st with cameraStream := none }
            | none => st) with cameraActive := false }
        "Disconnected" "text-secondary" with
      recordingStatus :=
        (updateCameraStatus
          { (match st.cameraStream with
              | some _ => { st with cameraStream := none }
              | none => st) with cameraActive := false }
          "Disconnected" "text-secondary").recordingStatus.map
          (fun _ => ("Ready", "fw-semibold text-secondary")) } now
  refine ⟨heap, hist, blob, ?_⟩
  rw [h]
  cases hs : st.cameraStream <;> simp [updateCameraStatus, hs]


/-! ## Stopping the capture -/

/-- In a state with no stream, no active flag and no current session, `stopCamera` only
resets the two status elements. -/
theorem stopCamera_idle (st : State) (now : Int) (hactive : st.cameraActive = false)
    (hstream : st.cameraStream = none) (hcur : st.currentSession = none) :
    stopCamera st now =
      { st with
        cameraStatus := ("Disconnected", "fw-semibold text-secondary")
        recordingStatus :=
          st.recordingStatus.map (fun _ => ("Ready", "fw-semibold text-secondary")) } := by
  cases st
  simp only at hactive hstream hcur
  subst hactive hstream hcur
  rfl

/-- C15, as the script has it: from every state, `stopCamera` followed by `stopCamera` yields
the same state as a single `stopCamera`, and after `stopCamera` the capture is not active, no
stream is held and no session is current; when that was already so before the call,
`stopCamera` only resets the status elements, leaving the active flag, the stream, the current
session, the session objects, the history and the persisted data unchanged. -/
theorem stopCamera_idempotent (st : State) (now now2 : Int) :
    stopCamera (stopCamera st now) now2 = stopCamera st now ∧
    (stopCamera st now).cameraActive = false ∧
    (stopCamera st now).cameraStream = none ∧
    (stopCamera st now).currentSession = none ∧
    (st.cameraActive = false → st.cameraStream = none → st.currentSession = none →
      (stopCamera st now).cameraActive = st.cameraActive ∧
      (stopCamera st now).cameraStream = st.cameraStream ∧
      (stopCamera st now).currentSession = st.currentSession ∧
      (stopCamera st now).sessionHistory = st.sessionHistory ∧
      (stopCamera st now).heap = st.heap ∧
      (stopCamera st now).history = st.history ∧
      (stopCamera st now).localStorage = st.localStorage ∧
      (stopCamera st now).isRecording = st.isRecording) := by
  obtain ⟨heap, hist, blob, h⟩ := stopCamera_frame st now
  refine ⟨?_, by rw [h], by rw [h], by rw [h], ?_⟩
  · rw [h, stopCamera_idle _ now2 rfl rfl rfl]
    cases hr : st.recordingStatus <;> simp [hr]
  · intro hactive hstream hcur
    rw [stopCamera_idle st now hactive hstream hcur]
    exact ⟨rfl, rfl, rfl, rfl, rfl, rfl, rfl, rfl⟩

/-- Witness of C15: the initial state is idle, and stopping it changes no core field. -/
theorem stopCamera_idempotent_witness :
    State.init.cameraActive = false ∧ State.init.cameraStream = none ∧
    State.init.currentSession = none ∧
    (stopCamera State.init 5).sessionHistory = State.init.sessionHistory ∧
    (stopCamera State.init 5).localStorage = State.init.localStorage :=
  ⟨rfl, rfl, rfl,
    ((stopCamera_idempotent State.init 5 6).2.2.2.2 rfl rfl rfl).2.2.2.1,
    ((stopCamera_idempotent State.init 5 6).2.2.2.2 rfl rfl rfl).2.2.2.2.2.2.1⟩

/-- Counterexample to C15 as stated: between `startCamera` and the metadata handler the
capture is not active and no session is current, yet `stopCamera` changes the stream: it
releases it. -/
theorem stopCamera_releases_stream_when_starting :
    startingState.cameraActive = false ∧ startingState.currentSession = none ∧
    startingState.cameraStream = some smallStream ∧
    (stopCamera startingState 5).cameraStream = none ∧
    (stopCamera startingState 5).cameraStream ≠ startingState.cameraStream := by
  decide


/-! ## Starting the capture -/

theorem updateSessionInHistory_storedSettings (st : State) (session : Nat) :
    storedSettings (updateSessionInHistory st session) = storedSettings st := by
  obtain ⟨hist, blob, h⟩ := updateSessionInHistory_frame st session
  rw [h]
  rfl

theorem addMotionEventToSession_storedSettings (st : State) (e : MotionEvent) :
    storedSettings (addMotionEventToSession st e) = storedSettings st := by
  unfold addMotionEventToSession
  split
  · rw [updateSessionInHistory_storedSettings]
    rfl
  · rfl

theorem detectMotion_storedSettings (st : State) (data : List Byte) (now : Int) :
    storedSettings (detectMotion st data now) = storedSettings st := by
  unfold detectMotion
  split
  · rfl
  · simp only
    split
    · split
      · rw [addMotionEventToSession_storedSettings]
        rfl
      · rfl
    · rfl

theorem detectObjects_storedSettings (st : State) (data : List Byte) :
    storedSettings (detectObjects st data) = storedSettings st := rfl

theorem processAIFeatures_storedSettings (st : State) (data : List Byte) (now : Int) :
    storedSettings (processAIFeatures st data now) = storedSettings st := by
  unfold processAIFeatures
  simp only
  split
  · split
    · rw [detectObjects_storedSettings, detectMotion_storedSettings]
    · exact detectMotion_storedSettings st data now
  · split
    · rfl
    · rfl

theorem processFrame_storedSettings (st : State) (data : List Byte) (now : Int) :
    storedSettings (processFrame st data now) = storedSettings st := by
  unfold processFrame
  split
  · rfl
  · simp only
    split
    · split
      · exact processAIFeatures_storedSettings st data now
      · rfl
    · rfl

theorem updateSessionInHistory_deviceState (st : State) (session : Nat) :
    deviceState (updateSessionInHistory st session) = deviceState st := by
  obtain ⟨hist, blob, h⟩ := updateSessionInHistory_frame st session
  rw [h]
  rfl

theorem addMotionEventToSession_deviceState (st : State) (e : MotionEvent) :
    deviceState (addMotionEventToSession st e) = deviceState st := by
  unfold addMotionEventToSession
  split
  · rw [updateSessionInHistory_deviceState]
    rfl
  · rfl

theorem detectMotion_deviceState (st : State) (data : List Byte) (now : Int) :
    deviceState (detectMotion st data now) = deviceState st := by
  unfold detectMotion
  split
  · rfl
  · simp only
    split
    · split
      · rw [addMotionEventToSession_deviceState]
        rfl
      · rfl
    · rfl

theorem detectObjects_deviceState (st : State) (data : List Byte) :
    deviceState (detectObjects st data) = deviceState st := rfl

theorem processAIFeatures_deviceState (st : State) (data : List Byte) (now : Int) :
    deviceState (processAIFeatures st data now) = deviceState st := by
  unfold processAIFeatures
  simp only
  split
  · split
    · rw [detectObjects_deviceState, detectMotion_deviceState]
    · exact detectMotion_deviceState st data now
  · split
    · rfl
    · rfl

theorem processFrame_deviceState (st : State) (data : List Byte) (now : Int) :
    deviceState (processFrame st data now) = deviceState st := by
  unfold processFrame
  split
  · rfl
  · simp only
    split
    · split
      · exact processAIFeatures_deviceState st data now
      · rfl
    · rfl

/-- The session `startNewSession` opens: a new object at the end of the heap, current, and at
the head of the history. -/
theorem startNewSession_opens (st : State) (idNow : Int) (random : String) (now : Int) :
    (startNewSession st idNow random now).currentSession = some st.heap.length ∧
    (startNewSession st idNow random now).sessionHistory[0]? = some st.heap.length ∧
    (startNewSession st idNow random now).heap[st.heap.length]? =
      some
        { id := generateSessionId idNow random
          startTime := .date now
          endTime := none
          recordings := []
          screenshots := []
          settings :=
            { resolution := orDefault st.localStorage.cameraResolution "1280x720"
              fps := parseIntOr st.localStorage.cameraFPS 30
              facingMode := orDefault st.localStorage.cameraFacingMode "user" }
          status := "active"
          duration := none
          motionEvents := none } := by
  refine ⟨rfl, ?_, ?_⟩
  · unfold startNewSession
    simp only
    rw [addToSessionHistory_sessionHistory, List.getElem?_cons_zero]
  · simp [startNewSession, addToSessionHistory]

/-- C12, as the script has it: when `startCamera` obtains a stream and the metadata handler
runs, the session it opens (current, at the head of the history, status `'active'`) records in
`settings.resolution` the resolution text persisted in `localStorage`, `"1280x720"` when none is
persisted, whatever resolution the device negotiated; the negotiated resolution
`videoWidth x videoHeight` is that of the stream. -/
theorem session_records_persisted_resolution (st : State) (stream : MediaStream)
    (data : List Byte) (frameNow idNow : Int) (random : String) (now : Int) :
    ∃ (ref : Nat) (s : Session),
      (onloadedmetadata (startCamera st (.granted stream)) data frameNow idNow random
        now).currentSession = some ref ∧
      (onloadedmetadata (startCamera st (.granted stream)) data frameNow idNow random
        now).sessionHistory[0]? = some ref ∧
      (onloadedmetadata (startCamera st (.granted stream)) data frameNow idNow random
        now).heap[ref]? = some s ∧
      s.status = "active" ∧
      s.settings.resolution = orDefault st.localStorage.cameraResolution "1280x720" ∧
      (onloadedmetadata (startCamera st (.granted stream)) data frameNow idNow random
        now).cameraActive = true ∧
      negotiatedResolution
        (onloadedmetadata (startCamera st (.granted stream)) data frameNow idNow random now) =
        toString stream.videoWidth ++ "x" ++ toString stream.videoHeight := by
  have hset := processFrame_storedSettings
    { startCamera st (.granted stream) with
      cameraActive := true, cameraStatus := ("Connected", "fw-semibold text-success") }
    data frameNow
  have hdev := processFrame_deviceState
    { startCamera st (.granted stream) with
      cameraActive := true, cameraStatus := ("Connected", "fw-semibold text-success") }
    data frameNow
  simp only [storedSettings, startCamera, Prod.mk.injEq] at hset
  simp only [deviceState, startCamera, Prod.mk.injEq] at hdev
  obtain ⟨h1, h2, h3⟩ := startNewSession_opens
    (processFrame
      { startCamera st (.granted stream) with
        cameraActive := true, cameraStatus := ("Connected", "fw-semibold text-success") }
      data frameNow) idNow random now
  refine ⟨_, _, h1, h2, h3, rfl, ?_, ?_, ?_⟩
  · simp only [startCamera]
    rw [hset.1]
  · exact hdev.2.2.1
  · have hv : (onloadedmetadata (startCamera st (.granted stream)) data frameNow idNow random
        now).videoSrcObject = some stream := hdev.2.1
    simp only [negotiatedResolution, videoWidth, videoHeight, hv]

/-- Counterexample to C12 as stated: with a persisted resolution of 1920x1080 and a device
that negotiates 640x480, the session that a successful start opens records `"1920x1080"`, not
the negotiated `"640x480"`. -/
theorem session_resolution_not_negotiated :
    ((onloadedmetadata (startCamera hdSettingsState (.granted smallStream)) [] 1 1 "abc"
        2).heap[0]?).map (fun s => s.settings.resolution) = some "1920x1080" ∧
    (onloadedmetadata (startCamera hdSettingsState (.granted smallStream)) [] 1 1 "abc"
      2).currentSession = some 0 ∧
    negotiatedResolution
      (onloadedmetadata (startCamera hdSettingsState (.granted smallStream)) [] 1 1 "abc" 2) =
      "640x480" ∧
    ((onloadedmetadata (startCamera hdSettingsState (.granted smallStream)) [] 1 1 "abc"
        2).heap[0]?).map (fun s => s.settings.resolution) ≠
      some (negotiatedResolution
        (onloadedmetadata (startCamera hdSettingsState (.granted smallStream)) [] 1 1 "abc"
          2)) := by
  decide


/-! ## Writes to the current session -/

theorem updateSessionInHistory_eq (st : State) (session : Nat) :
    updateSessionInHistory st session =
      match lookupIndex st session with
      | some index =>
        saveSessionHistory { st with sessionHistory := st.sessionHistory.set index session }
      | none => st := by
  unfold updateSessionInHistory lookupIndex
  cases st.heap[session]? <;> rfl

theorem set_of_getElem? {α : Type} (l : List α) (i : Nat) (c : α) (h : l[i]? = some c) :
    l.set i c = l := by
  induction l generalizing i with
  | nil => rfl
  | cons x xs ih =>
    cases i with
    | zero =>
      simp only [List.getElem?_cons_zero, Option.some.injEq] at h
      rw [h, List.set_cons_zero]
    | succ j =>
      rw [List.getElem?_cons_succ] at h
      rw [List.set_cons_succ, ih j h]

theorem map_id_updateObject (heap : List Session) (c : Nat) (f : Session → Session)
    (hf : ∀ s, (f s).id = s.id) (r : Nat) :
    ((updateObject heap c f)[r]?).map Session.id = (heap[r]?).map Session.id := by
  by_cases hr : r = c
  · subst hr
    cases hs : heap[r]? with
    | none => simp [updateObject, hs]
    | some s => rw [updateObject_getElem?_self heap r f s hs]; simp [hf]
  · rw [updateObject_getElem?_ne heap c r f hr]

theorem lookupIndex_updateObject (st : State) (c : Nat) (f : Session → Session)
    (hf : ∀ s, (f s).id = s.id) (r : Nat) :
    lookupIndex { st with heap := updateObject st.heap c f } r = lookupIndex st r := by
  have hr := map_id_updateObject st.heap c f hf r
  unfold lookupIndex
  simp only
  cases h1 : (updateObject st.heap c f)[r]? with
  | none =>
    cases h2 : st.heap[r]? with
    | none => rfl
    | some s => rw [h1, h2] at hr; cases hr
  | some s1 =>
    cases h2 : st.heap[r]? with
    | none => rw [h1, h2] at hr; cases hr
    | some s2 =>
      rw [h1, h2] at hr
      simp only [Option.map_some', Option.some.injEq] at hr
      simp only [hr, map_id_updateObject st.heap c f hf]

/-- A write to the session object `c` that keeps its `id`, followed by
`updateSessionInHistory`, when the lookup by `id` finds `c` itself. -/
theorem mutate_found (st : State) (c i : Nat) (s : Session) (f : Session → Session)
    (hf : ∀ s, (f s).id = s.id) (hobj : st.heap[c]? = some s)
    (hfind : lookupIndex st c = some i) (hget : st.sessionHistory[i]? = some c) :
    updateSessionInHistory { st with heap := updateObject st.heap c f } c =
        saveSessionHistory { st with heap := updateObject st.heap c f } ∧
      OnlySessionChanged st
        (updateSessionInHistory { st with heap := updateObject st.heap c f } c) c (f s) := by
  have heq : updateSessionInHistory { st with heap := updateObject st.heap c f } c =
      saveSessionHistory { st with heap := updateObject st.heap c f } := by
    rw [updateSessionInHistory_eq, lookupIndex_updateObject st c f hf c, hfind]
    simp only [set_of_getElem? st.sessionHistory i c hget]
  refine ⟨heq, ?_⟩
  rw [heq]
  refine ⟨?_, ?_, ?_, rfl, rfl, rfl⟩
  · exact updateObject_getElem?_self st.heap c f s hobj
  · intro r hr
    exact updateObject_getElem?_ne st.heap c r f hr
  · exact updateObject_length st.heap c f

/-- The head of the history is found by the lookup. -/
theorem lookupIndex_head (st : State) (c : Nat) (rest : List Nat) (s : Session)
    (hobj : st.heap[c]? = some s) (hh : st.sessionHistory = c :: rest) :
    lookupIndex st c = some 0 := by
  unfold lookupIndex
  rw [hobj, hh]
  simp [findIndex, hobj]


theorem addRecordingToSession_current (st : State) (c : Nat) (d : Recording)
    (hcur : st.currentSession = some c) :
    addRecordingToSession st d =
      updateSessionInHistory
        { st with
          heap := updateObject st.heap c (fun s => { s with recordings := s.recordings ++ [d] }) }
        c := by
  unfold addRecordingToSession
  split
  · rename_i ref href
    rw [hcur] at href
    cases href
    rfl
  · rename_i hnone
    rw [hcur] at hnone
    cases hnone

theorem addScreenshotToSession_current (st : State) (c : Nat) (d : Screenshot)
    (hcur : st.currentSession = some c) :
    addScreenshotToSession st d =
      updateSessionInHistory
        { st with
          heap :=
            updateObject st.heap c (fun s => { s with screenshots := s.screenshots ++ [d] }) }
        c := by
  unfold addScreenshotToSession
  split
  · rename_i ref href
    rw [hcur] at href
    cases href
    rfl
  · rename_i hnone
    rw [hcur] at hnone
    cases hnone

theorem addMotionEventToSession_current (st : State) (c : Nat) (d : MotionEvent)
    (hcur : st.currentSession = some c) :
    addMotionEventToSession st d =
      updateSessionInHistory
        { st with
          heap := updateObject st.heap c (fun s =>
            { s with motionEvents := some (s.motionEvents.getD [] ++ [d]) }) }
        c := by
  unfold addMotionEventToSession
  split
  · rename_i ref href
    rw [hcur] at href
    cases href
    rfl
  · rename_i hnone
    rw [hcur] at hnone
    cases hnone

theorem endCurrentSession_current (st : State) (c : Nat) (now : Int)
    (hcur : st.currentSession = some c) :
    endCurrentSession st now =
      { updateSessionInHistory
          { st with
            heap := updateObject st.heap c (fun s =>
              { s with
                endTime := some (.date now)
                status := "completed"
                duration := some (durationSeconds (.date now) s.startTime) }) }
          c with currentSession := none } := by
  unfold endCurrentSession
  split
  · rename_i ref href
    rw [hcur] at href
    cases href
    rfl
  · rename_i hnone
    rw [hcur] at hnone
    cases hnone

/-- C13: when a session is current and the lookup by `id` finds it in the history (as it does
whenever it is the head of the history), appending a recording, a screenshot or a motion event
appends exactly that record at the end of the session's sequence of that kind (the sequence of
motion events being created when the session has none) and changes nothing else: the other
fields of the session (id, start and end time, settings, status, the other sequences), every
other session object, the history array and the current session are as before, and the stored
history is the serialization of the history. In particular one `takeScreenshot` call while the
capture is active appends exactly one Screenshot to the current session. -/
theorem append_child_frame (st : State) (c i : Nat) (s : Session)
    (recordingData : Recording) (screenshotData : Screenshot) (eventData : MotionEvent)
    (idNow now : Int) (iso : String)
    (hcur : st.currentSession = some c) (hobj : st.heap[c]? = some s)
    (hfind : lookupIndex st c = some i) (hget : st.sessionHistory[i]? = some c) :
    (OnlySessionChanged st (addRecordingToSession st recordingData) c
        { s with recordings := s.recordings ++ [recordingData] } ∧
      (addRecordingToSession st recordingData).currentSession = some c) ∧
    (OnlySessionChanged st (addScreenshotToSession st screenshotData) c
        { s with screenshots := s.screenshots ++ [screenshotData] } ∧
      (addScreenshotToSession st screenshotData).currentSession = some c) ∧
    (OnlySessionChanged st (addMotionEventToSession st eventData) c
        { s with motionEvents := some (s.motionEvents.getD [] ++ [eventData]) } ∧
      (addMotionEventToSession st eventData).currentSession = some c) ∧
    (st.cameraActive = true →
      OnlySessionChanged st (takeScreenshot st idNow now iso) c
        { s with
          screenshots := s.screenshots ++
            [{ id := "screenshot_" ++ toString idNow
               timestamp := .date now
               filename := "vigilanteye_screenshot_" ++ fileTimestamp iso ++ ".png" }] } ∧
      (takeScreenshot st idNow now iso).currentSession = some c) := by
  have hshot : ∀ d : Screenshot,
      OnlySessionChanged st (addScreenshotToSession st d) c
          { s with screenshots := s.screenshots ++ [d] } ∧
        (addScreenshotToSession st d).currentSession = some c := by
    intro d
    rw [addScreenshotToSession_current st c d hcur]
    exact ⟨(mutate_found st c i s (fun s => { s with screenshots := s.screenshots ++ [d] })
      (fun _ => rfl) hobj hfind hget).2, by rw [updateSessionInHistory_currentSession]; exact hcur⟩
  refine ⟨?_, hshot screenshotData, ?_, ?_⟩
  · rw [addRecordingToSession_current st c recordingData hcur]
    exact ⟨(mutate_found st c i s
      (fun s => { s with recordings := s.recordings ++ [recordingData] })
      (fun _ => rfl) hobj hfind hget).2, by rw [updateSessionInHistory_currentSession]; exact hcur⟩
  · rw [addMotionEventToSession_current st c eventData hcur]
    exact ⟨(mutate_found st c i s
      (fun s => { s with motionEvents := some (s.motionEvents.getD [] ++ [eventData]) })
      (fun _ => rfl) hobj hfind hget).2, by rw [updateSessionInHistory_currentSession]; exact hcur⟩
  · intro hactive
    unfold takeScreenshot
    simp only [hactive, Bool.not_true, Bool.false_eq_true, if_false]
    exact hshot _

/-- Witness of C13: the session opened by a started capture is the head of the history. -/
theorem append_child_frame_witness :
    activeCameraState.currentSession = some 0 ∧
    activeCameraState.heap[0]? = some sampleSession ∧
    lookupIndex activeCameraState 0 = some 0 ∧
    activeCameraState.sessionHistory[0]? = some 0 ∧
    activeCameraState.cameraActive = true ∧
    OnlySessionChanged activeCameraState
      (takeScreenshot activeCameraState 3 4 "2026-11-04T21:08:00.123Z") 0
      { sampleSession with
        screenshots :=
          [{ id := "screenshot_3"
             timestamp := .date 4
             filename := "vigilanteye_screenshot_2026-11-04T21-08-00.png" }] } :=
  ⟨by decide, by decide, by decide, by decide, by decide,
    ((append_child_frame activeCameraState 0 0 sampleSession
      { id := "rec_5", startTime := .date 5, duration := 0, status := "recording" }
      { id := "screenshot_3", timestamp := .date 4, filename := "a.png" }
      { timestamp := .date 10, motionPixels := 11, confidence := 11 / 1000 }
      3 4 "2026-11-04T21:08:00.123Z" (by decide) (by decide) (by decide)
      (by decide)).2.2.2 (by decide)).1⟩

/-- The seconds between two dates, rounded down. -/
theorem durationSeconds_date (now t0 : Int) :
    durationSeconds (.date now) (.date t0) = some ((now - t0) / 1000) ∧
    (now - t0) / 1000 = ⌊(((now - t0 : Int) : ℚ)) / 1000⌋ ∧
    (t0 ≤ now → 0 ≤ (now - t0) / 1000) := by
  refine ⟨rfl, ?_, ?_⟩
  · have h := Rat.floor_intCast_div_natCast (now - t0) 1000
    simpa using h.symm
  · intro h
    exact Int.ediv_nonneg (by omega) (by norm_num)

/-- Stopping the capture while a session is current and the lookup by `id` finds it in the
history: only that session object changes, and the history is saved. -/
theorem stopCamera_found (st : State) (now : Int) (c i : Nat) (s : Session)
    (hcur : st.currentSession = some c) (hobj : st.heap[c]? = some s)
    (hfind : lookupIndex st c = some i) (hget : st.sessionHistory[i]? = some c) :
    OnlySessionChanged st (stopCamera st now) c
      { s with
        endTime := some (.date now)
        status := "completed"
        duration := some (durationSeconds (.date now) s.startTime) } := by
  have hend : ∀ st4 : State, st4.heap = st.heap → st4.sessionHistory = st.sessionHistory →
      st4.currentSession = st.currentSession → st4.localStorage = st.localStorage →
      OnlySessionChanged st (endCurrentSession st4 now) c
        { s with
          endTime := some (.date now)
          status := "completed"
          duration := some (durationSeconds (.date now) s.startTime) } := by
    intro st4 h1 h2 h3 h4
    have hm := (mutate_found st4 c i s (fun s =>
        { s with
          endTime := some (.date now)
          status := "completed"
          duration := some (durationSeconds (.date now) s.startTime) })
      (fun _ => rfl) (by rw [h1]; exact hobj)
      (by unfold lookupIndex; rw [h1, h2]; exact hfind) (by rw [h2]; exact hget)).2
    rw [endCurrentSession_current st4 c now (by rw [h3]; exact hcur)]
    obtain ⟨a1, a2, a3, a4, a5, a6⟩ := hm
    refine ⟨a1, ?_, ?_, ?_, a5, ?_⟩
    · intro r hr
      rw [← h1]
      exact a2 r hr
    · rw [← h1]
      exact a3
    · rw [← h2]
      exact a4
    · unfold storedSettings at a6 ⊢
      rw [← h4]
      exact a6
  unfold stopCamera
  cases hs : st.cameraStream <;> exact hend _ rfl rfl rfl rfl

/-- The session objects after `stopCamera` while a session is current. -/
theorem stopCamera_heap (st : State) (now : Int) (c : Nat)
    (hcur : st.currentSession = some c) :
    (stopCamera st now).heap =
      updateObject st.heap c (fun s =>
        { s with
          endTime := some (.date now)
          status := "completed"
          duration := some (durationSeconds (.date now) s.startTime) }) := by
  have hend : ∀ st4 : State, st4.heap = st.heap → st4.currentSession = st.currentSession →
      (endCurrentSession st4 now).heap =
        updateObject st.heap c (fun s =>
          { s with
            endTime := some (.date now)
            status := "completed"
            duration := some (durationSeconds (.date now) s.startTime) }) := by
    intro st4 h1 h3
    rw [endCurrentSession_current st4 c now (by rw [h3]; exact hcur)]
    simp only [updateSessionInHistory_heap]
    rw [h1]
  unfold stopCamera
  cases hs : st.cameraStream <;> exact hend _ rfl rfl

/-! ## Recordings -/

/-- C18, evaluated where it fails: in a started capture, `startRecording` appends a Recording
with status `'recording'` to the current session; after `stopRecording` the recording flag is
cleared and the status element shows "Stopped", but the Recording in the session still has
status `'recording'`. -/
theorem stopRecording_keeps_recording_status :
    ((startRecording activeCameraState .started 3 4 5).heap[0]?).map Session.recordings =
      some [{ id := "rec_4", startTime := .date 5, duration := 0, status := "recording" }] ∧
    (startRecording activeCameraState .started 3 4 5).isRecording = true ∧
    (stopRecording (startRecording activeCameraState .started 3 4 5)).isRecording = false ∧
    (stopRecording (startRecording activeCameraState .started 3 4 5)).recordingStatus =
      some ("Stopped", "fw-semibold text-secondary") ∧
    ((stopRecording (startRecording activeCameraState .started 3 4 5)).heap[0]?).map
        Session.recordings =
      some [{ id := "rec_4", startTime := .date 5, duration := 0, status := "recording" }] := by
  decide

/-! ## The invariant of the session store after a load -/

theorem StaleInv_none (k : Nat) (st : State) (h : st.currentSession = none) :
    StaleInv k st ↔
      (∀ r ∈ st.sessionHistory, r < st.heap.length) ∧
        st.sessionHistory.countP (isActive st) ≤ k := by
  unfold StaleInv
  rw [h]

theorem StaleInv_some (k : Nat) (st : State) (c : Nat) (h : st.currentSession = some c) :
    StaleInv k st ↔
      (∀ r ∈ st.sessionHistory, r < st.heap.length) ∧ c < st.heap.length ∧
        ∃ rest, st.sessionHistory = c :: rest ∧ c ∉ rest ∧
          rest.countP (isActive st) ≤ k := by
  unfold StaleInv
  rw [h]

theorem StaleInv_of_eq (k : Nat) (st st2 : State) (hheap : st2.heap = st.heap)
    (hhist : st2.sessionHistory = st.sessionHistory)
    (hcur : st2.currentSession = st.currentSession) (hinv : StaleInv k st) :
    StaleInv k st2 := by
  unfold StaleInv at hinv ⊢
  have hact : isActive st2 = isActive st := by
    funext r
    unfold isActive
    rw [hheap]
  rw [hheap, hhist, hcur, hact]
  exact hinv

theorem countP_isActive_congr (st st2 : State) (l : List Nat)
    (h : ∀ r ∈ l, st2.heap[r]? = st.heap[r]?) :
    l.countP (isActive st2) = l.countP (isActive st) := by
  apply List.countP_congr
  intro r hr
  rw [isActive_of_getElem? st st2 r (h r hr)]

theorem StaleInv_mutate (k : Nat) (st : State) (c : Nat) (f : Session → Session)
    (hinv : StaleInv k st) (hcur : st.currentSession = some c) :
    StaleInv k (updateSessionInHistory { st with heap := updateObject st.heap c f } c) := by
  obtain ⟨hrefs, hc, rest, hh, hnot, hrest⟩ := (StaleInv_some k st c hcur).mp hinv
  have hhist := updateSessionInHistory_head { st with heap := updateObject st.heap c f } c rest
    (by simpa using hc) hh
  rw [StaleInv_some k _ c (by simpa using hcur)]
  refine ⟨?_, by simpa using hc, rest, hhist, hnot, ?_⟩
  · intro r hr
    rw [hhist, ← hh] at hr
    simpa using hrefs r hr
  · rw [countP_isActive_congr st _ rest]
    · exact hrest
    · intro r hr
      have hne : r ≠ c := fun h => hnot (h ▸ hr)
      simp [updateObject_getElem?_ne _ _ _ _ hne]

theorem StaleInv_addScreenshotToSession (k : Nat) (st : State) (d : Screenshot)
    (hinv : StaleInv k st) : StaleInv k (addScreenshotToSession st d) := by
  unfold addScreenshotToSession
  split
  · rename_i c hcur
    exact StaleInv_mutate k st c _ hinv hcur
  · exact hinv

theorem StaleInv_addRecordingToSession (k : Nat) (st : State) (d : Recording)
    (hinv : StaleInv k st) : StaleInv k (addRecordingToSession st d) := by
  unfold addRecordingToSession
  split
  · rename_i c hcur
    exact StaleInv_mutate k st c _ hinv hcur
  · exact hinv

theorem StaleInv_addMotionEventToSession (k : Nat) (st : State) (d : MotionEvent)
    (hinv : StaleInv k st) : StaleInv k (addMotionEventToSession st d) := by
  unfold addMotionEventToSession
  split
  · rename_i c hcur
    exact StaleInv_mutate k st c _ hinv hcur
  · exact hinv

theorem StaleInv_detectMotion (k : Nat) (st : State) (data : List Byte) (now : Int)
    (hinv : StaleInv k st) : StaleInv k (detectMotion st data now) := by
  unfold detectMotion
  split
  · exact StaleInv_of_eq k st _ rfl rfl rfl hinv
  · simp only
    split
    · split
      · apply StaleInv_addMotionEventToSession
        exact StaleInv_of_eq k st _ rfl rfl rfl hinv
      · exact StaleInv_of_eq k st _ rfl rfl rfl hinv
    · exact StaleInv_of_eq k st _ rfl rfl rfl hinv

theorem StaleInv_toggleMotionDetection (k : Nat) (st : State) (checked : Bool)
    (hinv : StaleInv k st) : StaleInv k (toggleMotionDetection st checked) := by
  unfold toggleMotionDetection
  simp only
  split
  · exact StaleInv_of_eq k st _ rfl rfl rfl hinv
  · exact StaleInv_of_eq k st _ rfl rfl rfl hinv

/-- Clearing `currentSession` once the current session is no longer active. -/
theorem StaleInv_clear_current (k : Nat) (st : State) (c : Nat) (hinv : StaleInv k st)
    (hcur : st.currentSession = some c) (hdone : isActive st c = false) :
    StaleInv k { st with currentSession := none } := by
  obtain ⟨hrefs, _, rest, hh, _, hrest⟩ := (StaleInv_some k st c hcur).mp hinv
  refine (StaleInv_none k _ rfl).mpr ⟨hrefs, ?_⟩
  show st.sessionHistory.countP (isActive st) ≤ k
  rw [hh, List.countP_cons, hdone]
  simpa using hrest

theorem StaleInv_endCurrentSession (k : Nat) (st : State) (now : Int) (hinv : StaleInv k st) :
    StaleInv k (endCurrentSession st now) := by
  cases hcur : st.currentSession with
  | none =>
    have h : endCurrentSession st now = st := by
      unfold endCurrentSession
      rw [hcur]
    rw [h]
    exact hinv
  | some c =>
    obtain ⟨_, hc, _⟩ := (StaleInv_some k st c hcur).mp hinv
    rw [endCurrentSession_current st c now hcur]
    apply StaleInv_clear_current k _ c (StaleInv_mutate k st c _ hinv hcur)
    · rw [updateSessionInHistory_currentSession]
      exact hcur
    · unfold isActive
      rw [updateSessionInHistory_heap]
      simp only
      rw [updateObject_getElem?_self _ _ _ _ (List.getElem?_eq_getElem hc)]
      simp

theorem StaleInv_startNewSession (k : Nat) (st : State) (idNow : Int) (random : String)
    (now : Int) (hinv : StaleInv k st) (hcur : st.currentSession = none) :
    StaleInv k (startNewSession st idNow random now) := by
  obtain ⟨hrefs, hrest⟩ := (StaleInv_none k st hcur).mp hinv
  have hhist : (startNewSession st idNow random now).sessionHistory =
      st.heap.length :: st.sessionHistory.take 49 := by
    unfold startNewSession
    simp only
    rw [addToSessionHistory_sessionHistory]
  have hheap : ∀ r, r < st.heap.length →
      (startNewSession st idNow random now).heap[r]? = st.heap[r]? := by
    intro r hr
    simp only [startNewSession, addToSessionHistory, saveSessionHistory_heap]
    rw [List.getElem?_append_left hr]
  have hlen : (startNewSession st idNow random now).heap.length = st.heap.length + 1 := by
    simp [startNewSession, addToSessionHistory]
  rw [StaleInv_some k _ st.heap.length rfl]
  refine ⟨?_, by omega, st.sessionHistory.take 49, hhist, ?_, ?_⟩
  · intro r hr
    rw [hhist] at hr
    rcases List.mem_cons.mp hr with h | h
    · omega
    · have := hrefs r (List.mem_of_mem_take h)
      omega
  · intro hmem
    have := hrefs _ (List.mem_of_mem_take hmem)
    omega
  · rw [countP_isActive_congr st _ (st.sessionHistory.take 49)
      (fun r hr => hheap r (hrefs r (List.mem_of_mem_take hr)))]
    exact le_trans ((List.take_sublist 49 st.sessionHistory).countP_le _) hrest

/-- Every alternating sequence of operations keeps the invariant. -/
theorem StaleInv_runOps (k : Nat) (ops : List SessionOp) (st : State) (hinv : StaleInv k st)
    (hvalid : validOps st ops = true) : StaleInv k (runOps st ops) := by
  induction ops generalizing st with
  | nil => exact hinv
  | cons op ops ih =>
    unfold runOps
    rw [List.foldl_cons]
    cases op with
    | start idNow random now =>
      simp only [validOps, Bool.and_eq_true, Option.isNone_iff_eq_none] at hvalid
      exact ih _ (StaleInv_startNewSession k st idNow random now hinv hvalid.1) hvalid.2
    | stop now => exact ih _ (StaleInv_endCurrentSession k st now hinv) hvalid
    | screenshot d => exact ih _ (StaleInv_addScreenshotToSession k st d hinv) hvalid
    | recording d => exact ih _ (StaleInv_addRecordingToSession k st d hinv) hvalid
    | motionEvent d => exact ih _ (StaleInv_addMotionEventToSession k st d hinv) hvalid
    | frame data now => exact ih _ (StaleInv_detectMotion k st data now hinv) hvalid
    | toggleMotion checked =>
      exact ih _ (StaleInv_toggleMotionDetection k st checked hinv) hvalid


/-- The number of active entries among the objects a load appends to the heap. -/
theorem countP_isActive_range' (st st1 : State) (sessions : List Session)
    (hheap : st1.heap = st.heap ++ sessions) :
    (List.range' st.heap.length sessions.length).countP (isActive st1) =
      sessions.countP (fun s => decide (s.status = "active")) := by
  have key : ∀ (h l : List Session),
      (List.range' h.length l.length).countP
          (fun r => decide (((h ++ l)[r]?).map Session.status = some "active")) =
        l.countP (fun s => decide (s.status = "active")) := by
    intro h l
    induction l generalizing h with
    | nil => rfl
    | cons x l ih =>
      rw [List.length_cons, List.range'_succ, List.countP_cons, List.countP_cons]
      have hx : (h ++ x :: l)[h.length]? = some x := by
        rw [List.getElem?_append_right (le_refl _)]
        simp
      have := ih (h ++ [x])
      rw [List.length_append, List.length_singleton, List.append_assoc,
        List.singleton_append] at this
      rw [this, hx]
      simp
  have hact : isActive st1 =
      fun r => decide (((st.heap ++ sessions)[r]?).map Session.status = some "active") := by
    funext r
    unfold isActive
    rw [hheap]
  rw [hact]
  exact key st.heap sessions

/-- Counterexample to C11 as stated: a capture is running and the page is loaded again; the
stored history holds the session that was active, `loadSessionHistory` loads it as active, and
starting a capture opens a second active session. -/
theorem two_active_sessions_after_reload :
    loadSessionHistory reloadedState = .ok reloadedLoadedState ∧
    activeCount reloadedLoadedState = 1 ∧
    validOps reloadedLoadedState [.start 8 "def" 9] = true ∧
    activeCount (runOps reloadedLoadedState [.start 8 "def" 9]) = 2 ∧
    activeCount
      (onloadedmetadata (startCamera reloadedLoadedState (.granted smallStream)) [] 8 8 "def"
        9) = 2 := by
  refine ⟨rfl, ?_, ?_, ?_, ?_⟩ <;> decide



/-! ## Clearing the history -/

/-- C22: `clearSessionHistory` is total and gated by the confirmation: when it is accepted the
history array and the history are empty and the stored history is the empty sequence (the
session objects and the current session are untouched); when it is declined the state,
so the history in memory and its stored copy, is exactly as before. -/
theorem clearSessionHistory_spec (st : State) :
    (clearSessionHistory st true).sessionHistory = [] ∧
    (clearSessionHistory st true).history = [] ∧
    (clearSessionHistory st true).localStorage.vigilanteye_session_history =
      some (.parsed []) ∧
    (clearSessionHistory st true).heap = st.heap ∧
    (clearSessionHistory st true).currentSession = st.currentSession ∧
    clearSessionHistory st false = st ∧
    (clearSessionHistory st false).history = st.history ∧
    (clearSessionHistory st false).localStorage = st.localStorage :=
  ⟨rfl, rfl, rfl, rfl, rfl, rfl, rfl, rfl⟩

/-! ## The last frame of the motion detector -/

theorem detectMotion_motionDetection_frame (st : State) (data : List Byte) (now : Int) :
    (detectMotion st data now).motionDetection.lastFrame = some data ∧
    (detectMotion st data now).motionDetection.sensitivity = st.motionDetection.sensitivity ∧
    (detectMotion st data now).motionDetection.motionThreshold =
      st.motionDetection.motionThreshold ∧
    (detectMotion st data now).motionDetection.enabled = st.motionDetection.enabled := by
  unfold detectMotion
  split
  · exact ⟨rfl, rfl, rfl, rfl⟩
  · simp only
    split
    · split
      · simp only [addMotionEventToSession_motionDetection]
        exact ⟨rfl, rfl, rfl, rfl⟩
      · exact ⟨rfl, rfl, rfl, rfl⟩
    · exact ⟨rfl, rfl, rfl, rfl⟩

/-- While motion detection is disabled, a frame does not touch the motion detector. -/
theorem processFrame_motionDetection_disabled (st : State) (data : List Byte) (now : Int)
    (h : st.motionDetection.enabled = false) :
    (processFrame st data now).motionDetection = st.motionDetection := by
  unfold processFrame processAIFeatures
  simp only [h]
  split
  · rfl
  · simp only [Bool.false_eq_true, if_false]
    split
    · split
      · split <;> rfl
      · rfl
    · rfl

/-- C24, as the script has it: enabling motion detection resets `lastFrame` to `null`,
whatever buffer was held; disabling it leaves `lastFrame` as it was. The buffer kept across a
disable is never compared: while detection is disabled a frame does not touch the detector,
and the next enable resets the buffer, so the first frame after it is only stored. -/
theorem toggleMotionDetection_lastFrame (st : State) (data : List Byte) (now : Int) :
    (toggleMotionDetection st true).motionDetection.lastFrame = none ∧
    (toggleMotionDetection st false).motionDetection.lastFrame =
      st.motionDetection.lastFrame ∧
    (toggleMotionDetection st false).motionDetection.enabled = false ∧
    (processFrame (toggleMotionDetection st false) data now).motionDetection =
      (toggleMotionDetection st false).motionDetection ∧
    (detectMotion (toggleMotionDetection (toggleMotionDetection st false) true) data
      now).motionDetection.lastFrame = some data ∧
    (detectMotion (toggleMotionDetection (toggleMotionDetection st false) true) data
      now).motionDetection.motionCount = st.motionDetection.motionCount :=
  ⟨rfl, rfl, rfl, processFrame_motionDetection_disabled _ data now rfl, rfl, rfl⟩

/-- Counterexample to C24 as stated: a detector that holds a frame still holds it after
detection is disabled. -/
theorem lastFrame_kept_on_disable :
    sampleMotionState.motionDetection.lastFrame = some sampleFrame ∧
    (toggleMotionDetection sampleMotionState false).motionDetection.enabled = false ∧
    (toggleMotionDetection sampleMotionState false).motionDetection.lastFrame =
      some sampleFrame ∧
    (toggleMotionDetection sampleMotionState false).motionDetection.lastFrame ≠ none := by
  decide

/-- C25: after every `detectMotion` call, first or subsequent and whatever the verdict,
`lastFrame` is the buffer just analysed (and sensitivity and threshold are as before). So
after a call on `f1`, the verdict of the call on `f2` is `motionPixels(f2, f1) > threshold`: it
depends on these two frames and the two settings only, and is the same from any two states
with the same settings, whatever frames they have seen before. -/
theorem detectMotion_stores_frame (st st2 : State) (data f1 f2 : List Byte)
    (now n1 n2 : Int) :
    (detectMotion st data now).motionDetection.lastFrame = some data ∧
    (motionReported (detectMotion st f1 n1) (detectMotion (detectMotion st f1 n1) f2 n2) ↔
      countMotionPixels f2 f1 (st.motionDetection.sensitivity * 255) >
        st.motionDetection.motionThreshold) ∧
    (st2.motionDetection.sensitivity = st.motionDetection.sensitivity →
      st2.motionDetection.motionThreshold = st.motionDetection.motionThreshold →
      (motionReported (detectMotion st f1 n1) (detectMotion (detectMotion st f1 n1) f2 n2) ↔
        motionReported (detectMotion st2 f1 n1)
          (detectMotion (detectMotion st2 f1 n1) f2 n2))) := by
  have key : ∀ s : State,
      (motionReported (detectMotion s f1 n1) (detectMotion (detectMotion s f1 n1) f2 n2) ↔
        countMotionPixels f2 f1 (s.motionDetection.sensitivity * 255) >
          s.motionDetection.motionThreshold) := by
    intro s
    obtain ⟨h1, h2, h3, _⟩ := detectMotion_motionDetection_frame s f1 n1
    rw [motionReported_iff (detectMotion s f1 n1) f2 f1 n2 h1, h2, h3]
  refine ⟨(detectMotion_motionDetection_frame st data now).1, key st, ?_⟩
  intro hs ht
  rw [key st, key st2, hs, ht]

/-- Witness of C25: two states with the default settings that hold different frames. -/
theorem detectMotion_stores_frame_witness :
    State.init.motionDetection.sensitivity = sampleMotionState.motionDetection.sensitivity ∧
    State.init.motionDetection.motionThreshold =
      sampleMotionState.motionDetection.motionThreshold ∧
    (motionReported (detectMotion sampleMotionState (frameOf blackFrame) 1)
        (detectMotion (detectMotion sampleMotionState (frameOf blackFrame) 1)
          (frameOf (flippedFrame 11)) 2) ↔
      motionReported (detectMotion State.init (frameOf blackFrame) 1)
        (detectMotion (detectMotion State.init (frameOf blackFrame) 1)
          (frameOf (flippedFrame 11)) 2)) :=
  ⟨rfl, rfl,
    (detectMotion_stores_frame sampleMotionState State.init sampleFrame (frameOf blackFrame)
      (frameOf (flippedFrame 11)) 0 1 2).2.2 rfl rfl⟩

/-! ## Recording and the capture -/

/-- C28, evaluated where it fails: a capture is started, a recording is started, and the
capture is stopped. `stopCamera` resets the recording status element to "Ready" but not the
recording flag: afterwards `isRecording` is still true while the capture is not active and no
stream is held. -/
theorem isRecording_survives_stopCamera :
    (runPipeline State.init recordThenStopOps).isRecording = true ∧
    (runPipeline State.init recordThenStopOps).cameraActive = false ∧
    (runPipeline State.init recordThenStopOps).cameraStream = none ∧
    (runPipeline State.init recordThenStopOps).recordingStatus =
      some ("Ready", "fw-semibold text-secondary") := by
  decide

/-! ## The history panel -/

/-- C30, evaluated where it fails: a capture stopped within the second after it started gives
a session with status `'completed'` and a duration of 0 seconds; `updateSessionHistoryDisplay`
labels it "Active" (in the class of a session that is not active), not "0s". A completed
session of 7 seconds is labelled "7s". -/
theorem zero_duration_labelled_active :
    (runPipeline State.init shortSessionOps).history.map
        (fun s => (s.status, s.duration)) = [("completed", some (some 0))] ∧
    (updateSessionHistoryDisplay (runPipeline State.init shortSessionOps)).map
        (fun item => (item.duration, item.statusClass)) = [("Active", "text-secondary")] ∧
    formatDuration 0 = "0s" ∧
    (updateSessionHistoryDisplay (stopCamera activeCameraState 7003)).map
        (fun item => (item.duration, item.statusClass)) = [("7s", "text-secondary")] := by
  decide


/-! ## The frame loop -/

/-- `addMotionEventToSession` writes session objects, the history array and its stored copy
only. -/
theorem addMotionEventToSession_frame (st : State) (e : MotionEvent) :
    ∃ heap hist blob, addMotionEventToSession st e =
      { st with
        heap := heap
        sessionHistory := hist
        localStorage := { st.localStorage with vigilanteye_session_history := blob } } := by
  unfold addMotionEventToSession
  split
  · rename_i ref _
    obtain ⟨hist, blob, h⟩ := updateSessionInHistory_frame
      { st with
        heap := updateObject st.heap ref (fun s =>
          { s with motionEvents := some (s.motionEvents.getD [] ++ [e]) }) } ref
    exact ⟨_, hist, blob, h⟩
  · exact ⟨st.heap, st.sessionHistory, st.localStorage.vigilanteye_session_history, rfl⟩

/-- The detectors write the detector objects, the two status elements, session objects, the
history array and its stored copy only. -/
theorem processAIFeatures_frame (st : State) (data : List Byte) (now : Int) :
    ∃ md od ms os heap hist blob, processAIFeatures st data now =
      { st with
        motionDetection := md
        objectDetection := od
        motionStatus := ms
        objectStatus := os
        heap := heap
        sessionHistory := hist
        localStorage := { st.localStorage with vigilanteye_session_history := blob } } := by
  have hm : ∃ md ms heap hist blob, detectMotion st data now =
      { st with
        motionDetection := md
        motionStatus := ms
        heap := heap
        sessionHistory := hist
        localStorage := { st.localStorage with vigilanteye_session_history := blob } } := by
    unfold detectMotion
    split
    · exact ⟨_, st.motionStatus, st.heap, st.sessionHistory,
        st.localStorage.vigilanteye_session_history, rfl⟩
    · simp only
      split
      · split
        · obtain ⟨heap, hist, blob, h⟩ := addMotionEventToSession_frame
            (updateMotionStatus
              { st with
                motionDetection :=
                  { st.motionDetection with
                    lastFrame := some data
                    motionCount := st.motionDetection.motionCount + 1 } }
              "Motion Detected" "text-danger")
            { timestamp := .date now
              motionPixels := countMotionPixels data ‹List Byte›
                (st.motionDetection.sensitivity * 255)
              confidence := motionConfidence (countMotionPixels data ‹List Byte›
                (st.motionDetection.sensitivity * 255)) }
          exact ⟨_, _, heap, hist, blob, h⟩
        · exact ⟨_, _, st.heap, st.sessionHistory,
            st.localStorage.vigilanteye_session_history, rfl⟩
      · exact ⟨_, _, st.heap, st.sessionHistory,
          st.localStorage.vigilanteye_session_history, rfl⟩
  obtain ⟨md, ms, heap, hist, blob, h⟩ := hm
  unfold processAIFeatures
  simp only
  split
  · rw [h]
    split
    · exact ⟨_, _, _, _, _, _, _, rfl⟩
    · exact ⟨md, st.objectDetection, ms, st.objectStatus, heap, hist, blob, rfl⟩
  · split
    · exact ⟨st.motionDetection, _, st.motionStatus, _, st.heap, st.sessionHistory,
        st.localStorage.vigilanteye_session_history, rfl⟩
    · exact ⟨st.motionDetection, st.objectDetection, st.motionStatus, st.objectStatus,
        st.heap, st.sessionHistory, st.localStorage.vigilanteye_session_history, rfl⟩

/-- The detectors run by a frame: each one exactly when it is enabled. -/
theorem processAIFeatures_eq (st : State) (data : List Byte) (now : Int) :
    processAIFeatures st data now =
      if st.motionDetection.enabled then
        if st.objectDetection.enabled then detectObjects (detectMotion st data now) data
        else detectMotion st data now
      else if st.objectDetection.enabled then detectObjects st data
      else st := by
  have hobj : (detectMotion st data now).objectDetection = st.objectDetection := by
    unfold detectMotion
    split
    · rfl
    · simp only
      split
      · split
        · obtain ⟨heap, hist, blob, h⟩ := addMotionEventToSession_frame
            (updateMotionStatus
              { st with
                motionDetection :=
                  { st.motionDetection with
                    lastFrame := some data
                    motionCount := st.motionDetection.motionCount + 1 } }
              "Motion Detected" "text-danger")
            { timestamp := .date now
              motionPixels := countMotionPixels data ‹List Byte›
                (st.motionDetection.sensitivity * 255)
              confidence := motionConfidence (countMotionPixels data ‹List Byte›
                (st.motionDetection.sensitivity * 255)) }
          rw [h]
          rfl
        · rfl
      · rfl
  unfold processAIFeatures
  simp only
  split
  · rw [hobj]
  · rfl


/-- C26: the frame loop ends itself. A `processFrame` tick that runs while the active flag is
clear changes nothing: no detector runs, the FPS counter, `lastFrame` and the sessions are as
before, and no further tick is requested; so the tick that follows `stopCamera` is the last. A
tick that runs while the capture is active and the frame has non-zero dimensions runs the
motion detector exactly when motion detection is enabled and the object heuristic exactly when
object detection is enabled, increments the FPS counter by one and requests exactly one next
tick; with a frame of zero width or height it only requests the next tick. -/
theorem processFrame_tick (st : State) (data : List Byte) (now stopNow : Int) :
    (st.cameraActive = false → processFrame st data now = st) ∧
    processFrame (stopCamera st stopNow) data now = stopCamera st stopNow ∧
    (st.cameraActive = true → 0 < videoWidth st → 0 < videoHeight st →
      processFrame st data now =
        { (if st.motionDetection.enabled then
            if st.objectDetection.enabled then detectObjects (detectMotion st data now) data
            else detectMotion st data now
          else if st.objectDetection.enabled then detectObjects st data
          else st) with
          fpsCounter := st.fpsCounter + 1
          animationFrameRequests := st.animationFrameRequests + 1 } ∧
      (processFrame st data now).fpsCounter = st.fpsCounter + 1 ∧
      (processFrame st data now).animationFrameRequests = st.animationFrameRequests + 1 ∧
      (processFrame st data now).cameraActive = true) ∧
    (st.cameraActive = true → (videoWidth st = 0 ∨ videoHeight st = 0) →
      processFrame st data now =
        { st with animationFrameRequests := st.animationFrameRequests + 1 }) := by
  have hoff : ∀ s : State, s.cameraActive = false → processFrame s data now = s := by
    intro s h
    unfold processFrame
    simp [h]
  refine ⟨hoff st, ?_, ?_, ?_⟩
  · apply hoff
    obtain ⟨heap, hist, blob, h⟩ := stopCamera_frame st stopNow
    rw [h]
  · intro hactive hw hh
    obtain ⟨md, od, ms, os, heap, hist, blob, hfr⟩ := processAIFeatures_frame st data now
    have heq : processFrame st data now =
        { (if st.motionDetection.enabled then
            if st.objectDetection.enabled then detectObjects (detectMotion st data now) data
            else detectMotion st data now
          else if st.objectDetection.enabled then detectObjects st data
          else st) with
          fpsCounter := st.fpsCounter + 1
          animationFrameRequests := st.animationFrameRequests + 1 } := by
      rw [← processAIFeatures_eq]
      unfold processFrame
      simp only [hactive, Bool.not_true, Bool.false_eq_true, if_false, hw, hh, and_self,
        if_true]
      by_cases hen : (st.motionDetection.enabled || st.objectDetection.enabled) = true
      · simp only [hen, if_true]
        rw [hfr]
      · simp only [hen, if_false]
        have h2 : processAIFeatures st data now = st := by
          rw [processAIFeatures_eq]
          simp only [Bool.or_eq_true, not_or, Bool.not_eq_true] at hen
          simp [hen.1, hen.2]
        rw [h2]
        simp
    refine ⟨heq, ?_, ?_, ?_⟩
    · rw [heq]
    · rw [heq]
    · rw [heq, ← processAIFeatures_eq, hfr]
      exact hactive
  · intro hactive hzero
    unfold processFrame
    have hcond : ¬ (videoWidth st > 0 ∧ videoHeight st > 0) := by
      rcases hzero with h | h <;> omega
    simp [hactive, hcond]

/-- Witness of C26: the initial state (not active), and a started capture with both detectors
disabled. -/
theorem processFrame_tick_witness :
    State.init.cameraActive = false ∧
    processFrame State.init sampleFrame 3 = State.init ∧
    activeCameraState.cameraActive = true ∧ 0 < videoWidth activeCameraState ∧
    0 < videoHeight activeCameraState ∧
    (processFrame activeCameraState sampleFrame 3).fpsCounter =
      activeCameraState.fpsCounter + 1 :=
  ⟨rfl, (processFrame_tick State.init sampleFrame 3 4).1 rfl, by decide, by decide, by decide,
    ((processFrame_tick activeCameraState sampleFrame 3 4).2.2.1 (by decide) (by decide)
      (by decide)).2.1⟩


/-! ## The store along the pipeline -/

theorem history_congr (st st2 : State) (hh : st2.heap = st.heap)
    (hs : st2.sessionHistory = st.sessionHistory) : st2.history = st.history := by
  unfold State.history
  rw [hh, hs]

theorem lookupIndex_congr (st st2 : State) (hh : st2.heap = st.heap)
    (hs : st2.sessionHistory = st.sessionHistory) (c : Nat) :
    lookupIndex st2 c = lookupIndex st c := by
  unfold lookupIndex
  rw [hh, hs]

theorem inSync_congr (st st2 : State) (hh : st2.heap = st.heap)
    (hs : st2.sessionHistory = st.sessionHistory)
    (hb : st2.localStorage.vigilanteye_session_history =
      st.localStorage.vigilanteye_session_history) : InSync st2 ↔ InSync st := by
  unfold InSync
  rw [history_congr st st2 hh hs, hb]

theorem sameStore_trans (st st1 st2 : State) (h1 : SameStore st st1) (h2 : SameStore st1 st2) :
    SameStore st st2 :=
  ⟨h2.1.trans h1.1, h2.2.1.trans h1.2.1, h2.2.2.1.trans h1.2.2.1, h2.2.2.2.trans h1.2.2.2⟩

theorem wroteSession_left (st st1 st2 : State) (c : Nat) (f : Session → Session)
    (h : WroteSession st1 st2 c f) (hh : st1.heap = st.heap)
    (hs : st1.sessionHistory = st.sessionHistory)
    (hb : st1.localStorage.vigilanteye_session_history =
      st.localStorage.vigilanteye_session_history) : WroteSession st st2 c f := by
  obtain ⟨hheap, hw⟩ := h
  refine ⟨by rw [hheap, hh], ?_⟩
  rw [lookupIndex_congr st st1 hh hs] at hw
  rw [hs, hb] at hw
  exact hw

theorem wroteSession_right (st st1 st2 : State) (c : Nat) (f : Session → Session)
    (h : WroteSession st st1 c f) (hh : st2.heap = st1.heap)
    (hs : st2.sessionHistory = st1.sessionHistory)
    (hb : st2.localStorage.vigilanteye_session_history =
      st1.localStorage.vigilanteye_session_history) : WroteSession st st2 c f := by
  obtain ⟨hheap, hw⟩ := h
  refine ⟨by rw [hh, hheap], ?_⟩
  rw [hs, hb, inSync_congr st1 st2 hh hs hb]
  exact hw

theorem evolves_sameStore_left (st st1 st2 : State) (h1 : SameStore st st1)
    (h2 : Evolves st1 st2) : Evolves st st2 := by
  rcases h2 with h2 | ⟨c, f, hcur, hid, hw, hend⟩
  · exact Or.inl (sameStore_trans st st1 st2 h1 h2)
  · refine Or.inr ⟨c, f, ?_, hid, wroteSession_left st st1 st2 c f hw h1.1 h1.2.1 h1.2.2.2, hend⟩
    rw [← h1.2.2.1]
    exact hcur

theorem evolves_sameStore_right (st st1 st2 : State) (h1 : Evolves st st1)
    (h2 : SameStore st1 st2) : Evolves st st2 := by
  rcases h1 with h1 | ⟨c, f, hcur, hid, hw, hend⟩
  · exact Or.inl (sameStore_trans st st1 st2 h1 h2)
  · refine Or.inr ⟨c, f, hcur, hid,
      wroteSession_right st st1 st2 c f hw h2.1 h2.2.1 h2.2.2.2, ?_⟩
    rw [h2.2.2.1]
    exact hend

/-- A write to the session object `c` that keeps its `id`, followed by
`updateSessionInHistory`. -/
theorem wroteSession_update (st : State) (c : Nat) (f : Session → Session)
    (hf : ∀ s, (f s).id = s.id) :
    WroteSession st (updateSessionInHistory { st with heap := updateObject st.heap c f } c)
      c f := by
  rw [updateSessionInHistory_eq, lookupIndex_updateObject st c f hf c]
  unfold WroteSession
  cases h : lookupIndex st c with
  | none => exact ⟨rfl, Or.inl ⟨rfl, rfl, rfl⟩⟩
  | some i => exact ⟨rfl, Or.inr ⟨i, rfl, rfl, rfl⟩⟩

theorem evolves_append (st : State) (c : Nat) (f : Session → Session)
    (hcur : st.currentSession = some c) (hf : ∀ s, (f s).id = s.id)
    (hstatus : ∀ s, (f s).status = s.status) :
    Evolves st (updateSessionInHistory { st with heap := updateObject st.heap c f } c) := by
  refine Or.inr ⟨c, f, hcur, hf, wroteSession_update st c f hf, Or.inl ⟨?_, hstatus⟩⟩
  rw [updateSessionInHistory_currentSession]
  exact hcur

theorem evolves_addRecordingToSession (st : State) (d : Recording) :
    Evolves st (addRecordingToSession st d) := by
  rcases hcur : st.currentSession with _ | c
  · left
    unfold addRecordingToSession
    simp only [hcur]
    exact ⟨rfl, rfl, rfl, rfl⟩
  · rw [addRecordingToSession_current st c d hcur]
    exact evolves_append st c _ hcur (fun _ => rfl) (fun _ => rfl)

theorem evolves_addScreenshotToSession (st : State) (d : Screenshot) :
    Evolves st (addScreenshotToSession st d) := by
  rcases hcur : st.currentSession with _ | c
  · left
    unfold addScreenshotToSession
    simp only [hcur]
    exact ⟨rfl, rfl, rfl, rfl⟩
  · rw [addScreenshotToSession_current st c d hcur]
    exact evolves_append st c _ hcur (fun _ => rfl) (fun _ => rfl)

theorem evolves_addMotionEventToSession (st : State) (d : MotionEvent) :
    Evolves st (addMotionEventToSession st d) := by
  rcases hcur : st.currentSession with _ | c
  · left
    unfold addMotionEventToSession
    simp only [hcur]
    exact ⟨rfl, rfl, rfl, rfl⟩
  · rw [addMotionEventToSession_current st c d hcur]
    exact evolves_append st c _ hcur (fun _ => rfl) (fun _ => rfl)

theorem evolves_endCurrentSession (st : State) (now : Int) :
    Evolves st (endCurrentSession st now) := by
  rcases hcur : st.currentSession with _ | c
  · left
    unfold endCurrentSession
    simp only [hcur]
    exact ⟨rfl, rfl, rfl, rfl⟩
  · rw [endCurrentSession_current st c now hcur]
    refine Or.inr ⟨c, (fun s =>
        { s with
          endTime := some (.date now)
          status := "completed"
          duration := some (durationSeconds (.date now) s.startTime) }),
      hcur, fun _ => rfl, ?_, Or.inr ⟨rfl, fun _ => rfl⟩⟩
    exact wroteSession_right st _ _ c _
      (wroteSession_update st c (fun s =>
        { s with
          endTime := some (.date now)
          status := "completed"
          duration := some (durationSeconds (.date now) s.startTime) }) (fun _ => rfl))
      rfl rfl rfl

theorem evolves_detectMotion (st : State) (data : List Byte) (now : Int) :
    Evolves st (detectMotion st data now) := by
  unfold detectMotion
  split
  · exact Or.inl ⟨rfl, rfl, rfl, rfl⟩
  · simp only
    split
    · split
      · exact evolves_sameStore_left st _ _ ⟨rfl, rfl, rfl, rfl⟩
          (evolves_addMotionEventToSession _ _)
      · exact Or.inl ⟨rfl, rfl, rfl, rfl⟩
    · exact Or.inl ⟨rfl, rfl, rfl, rfl⟩

theorem evolves_processAIFeatures (st : State) (data : List Byte) (now : Int) :
    Evolves st (processAIFeatures st data now) := by
  rw [processAIFeatures_eq]
  split
  · split
    · exact evolves_sameStore_right st _ _ (evolves_detectMotion st data now)
        ⟨rfl, rfl, rfl, rfl⟩
    · exact evolves_detectMotion st data now
  · split
    · exact Or.inl ⟨rfl, rfl, rfl, rfl⟩
    · exact Or.inl ⟨rfl, rfl, rfl, rfl⟩

theorem evolves_processFrame (st : State) (data : List Byte) (now : Int) :
    Evolves st (processFrame st data now) := by
  unfold processFrame
  split
  · exact Or.inl ⟨rfl, rfl, rfl, rfl⟩
  · simp only
    split
    · split
      · exact evolves_sameStore_right st _ _ (evolves_processAIFeatures st data now)
          ⟨rfl, rfl, rfl, rfl⟩
      · exact Or.inl ⟨rfl, rfl, rfl, rfl⟩
    · exact Or.inl ⟨rfl, rfl, rfl, rfl⟩

theorem evolves_stopCamera (st : State) (now : Int) : Evolves st (stopCamera st now) := by
  unfold stopCamera
  simp only
  refine evolves_sameStore_left st _ _ ?_ (evolves_endCurrentSession _ now)
  cases st.cameraStream <;> exact ⟨rfl, rfl, rfl, rfl⟩

theorem evolves_takeScreenshot (st : State) (idNow now : Int) (iso : String) :
    Evolves st (takeScreenshot st idNow now iso) := by
  unfold takeScreenshot
  split
  · exact Or.inl ⟨rfl, rfl, rfl, rfl⟩
  · exact evolves_addScreenshotToSession st _

theorem evolves_startRecording (st : State) (recorder : RecorderStart)
    (startedAt idNow now : Int) :
    Evolves st (startRecording st recorder startedAt idNow now) := by
  unfold startRecording
  split
  · cases recorder
    · exact evolves_sameStore_left st _ _ ⟨rfl, rfl, rfl, rfl⟩
        (evolves_addRecordingToSession _ _)
    · exact Or.inl ⟨rfl, rfl, rfl, rfl⟩
    · exact Or.inl ⟨rfl, rfl, rfl, rfl⟩
  · exact Or.inl ⟨rfl, rfl, rfl, rfl⟩

theorem sameStore_stopRecording (st : State) : SameStore st (stopRecording st) := by
  unfold stopRecording
  split <;> exact ⟨rfl, rfl, rfl, rfl⟩

theorem sameStore_toggleMotionDetection (st : State) (checked : Bool) :
    SameStore st (toggleMotionDetection st checked) := by
  unfold toggleMotionDetection
  simp only
  split <;> exact ⟨rfl, rfl, rfl, rfl⟩

theorem sameStore_toggleObjectDetection (st : State) (checked : Bool) :
    SameStore st (toggleObjectDetection st checked) := by
  unfold toggleObjectDetection
  simp only
  split <;> exact ⟨rfl, rfl, rfl, rfl⟩

theorem sameStore_applyCameraSettings (st : State)
    (selects : Option (String × String × String)) :
    SameStore st (applyCameraSettings st selects) := by
  unfold applyCameraSettings
  split
  · exact ⟨rfl, rfl, rfl, rfl⟩
  · split <;> exact ⟨rfl, rfl, rfl, rfl⟩

theorem sameStore_updateFPS (st : State) : SameStore st (updateFPS st) := by
  unfold updateFPS
  split <;> exact ⟨rfl, rfl, rfl, rfl⟩

theorem sameStore_startCamera (st : State) (request : MediaRequest) :
    SameStore st (startCamera st request) := by
  unfold startCamera
  split <;> exact ⟨rfl, rfl, rfl, rfl⟩

/-- The shape of every event of the pipeline: a confirmed clearing of the history, or the
opening of a session after a frame, or a step that at most writes to the current session. -/
theorem apply_shape (st : State) (op : PipelineOp) :
    (op.clearsHistory = true ∧
      op.apply st = saveSessionHistory { st with sessionHistory := [] }) ∨
    (op.opensSession = true ∧ op.clearsHistory = false ∧
      ∃ st1 idNow random now, Evolves st st1 ∧
        op.apply st = startNewSession st1 idNow random now) ∨
    (op.opensSession = false ∧ op.clearsHistory = false ∧ Evolves st (op.apply st)) := by
  cases op with
  | requestCamera request =>
    exact Or.inr (Or.inr ⟨rfl, rfl, Or.inl (sameStore_startCamera st request)⟩)
  | metadataLoaded data frameNow idNow random now =>
    refine Or.inr (Or.inl ⟨rfl, rfl, _, idNow, random, now, ?_, rfl⟩)
    exact evolves_sameStore_left st _ _ ⟨rfl, rfl, rfl, rfl⟩ (evolves_processFrame _ data frameNow)
  | stopCamera now => exact Or.inr (Or.inr ⟨rfl, rfl, evolves_stopCamera st now⟩)
  | frame data now => exact Or.inr (Or.inr ⟨rfl, rfl, evolves_processFrame st data now⟩)
  | takeScreenshot idNow now iso =>
    exact Or.inr (Or.inr ⟨rfl, rfl, evolves_takeScreenshot st idNow now iso⟩)
  | startRecording recorder startedAt idNow now =>
    exact Or.inr (Or.inr ⟨rfl, rfl, evolves_startRecording st recorder startedAt idNow now⟩)
  | stopRecording => exact Or.inr (Or.inr ⟨rfl, rfl, Or.inl (sameStore_stopRecording st)⟩)
  | toggleMotion checked =>
    exact Or.inr (Or.inr ⟨rfl, rfl, Or.inl (sameStore_toggleMotionDetection st checked)⟩)
  | toggleObject checked =>
    exact Or.inr (Or.inr ⟨rfl, rfl, Or.inl (sameStore_toggleObjectDetection st checked)⟩)
  | sensitivity value => exact Or.inr (Or.inr ⟨rfl, rfl, Or.inl ⟨rfl, rfl, rfl, rfl⟩⟩)
  | applySettings selects =>
    exact Or.inr (Or.inr ⟨rfl, rfl, Or.inl (sameStore_applyCameraSettings st selects)⟩)
  | fpsTick => exact Or.inr (Or.inr ⟨rfl, rfl, Or.inl (sameStore_updateFPS st)⟩)
  | clearHistory confirmed =>
    cases confirmed
    · exact Or.inr (Or.inr ⟨rfl, rfl, Or.inl ⟨rfl, rfl, rfl, rfl⟩⟩)
    · exact Or.inl ⟨rfl, rfl⟩


theorem findIndex_eq_none {α : Type} (p : α → Bool) (l : List α) (h : findIndex p l = none) :
    ∀ x ∈ l, p x = false := by
  induction l with
  | nil =>
    intro x hx
    cases hx
  | cons a l ih =>
    intro x hx
    by_cases ha : p a = true
    · simp [findIndex, ha] at h
    · simp only [findIndex, ha, Bool.false_eq_true, if_false, Option.map_eq_none'] at h
      rcases List.mem_cons.mp hx with hxa | hxl
      · rw [hxa]
        simpa using ha
      · exact ih h x hxl

/-- A write to an object the lookup does not find leaves the history as it is. -/
theorem history_updateObject (st : State) (c : Nat) (f : Session → Session)
    (hl : lookupIndex st c = none) :
    st.sessionHistory.filterMap (fun r => (updateObject st.heap c f)[r]?) = st.history := by
  unfold State.history
  apply List.filterMap_congr
  intro r hr
  by_cases hrc : r = c
  · subst hrc
    cases hobj : st.heap[r]? with
    | none => simp [updateObject, hobj]
    | some s =>
      exfalso
      unfold lookupIndex at hl
      rw [hobj] at hl
      have hfalse := findIndex_eq_none _ _ hl r hr
      simp [hobj] at hfalse
  · exact updateObject_getElem?_ne st.heap c r f hrc

theorem historyKept_trans (st st1 st2 : State) (h1 : HistoryKept st st1)
    (h2 : HistoryKept st1 st2) : HistoryKept st st2 :=
  ⟨h2.1.trans h1.1, h2.2.1.trans h1.2.1, h2.2.2.trans h1.2.2⟩

theorem historyKept_of_sameStore (st st2 : State) (h : SameStore st st2) : HistoryKept st st2 :=
  ⟨h.2.1, history_congr st st2 h.1 h.2.1, h.2.2.2⟩

theorem wroteSession_detached (st st2 : State) (c : Nat) (f : Session → Session)
    (h : WroteSession st st2 c f) (hl : lookupIndex st c = none) : HistoryKept st st2 := by
  obtain ⟨hheap, hw⟩ := h
  rcases hw with ⟨_, hs, hb⟩ | ⟨i, hi, _⟩
  · refine ⟨hs, ?_, hb⟩
    have hhist : st2.history =
        st.sessionHistory.filterMap (fun r => (updateObject st.heap c f)[r]?) := by
      unfold State.history
      rw [hs, hheap]
    rw [hhist]
    exact history_updateObject st c f hl
  · rw [hl] at hi
    cases hi

/-- A step that at most writes to the current session saves the history or leaves it, and
its stored copy, as they are. -/
theorem evolves_inSync_or_kept (st st2 : State) (h : Evolves st st2) :
    InSync st2 ∨ HistoryKept st st2 := by
  rcases h with h | ⟨c, f, _, _, hw, _⟩
  · exact Or.inr (historyKept_of_sameStore st st2 h)
  · cases hl : lookupIndex st c with
    | none => exact Or.inr (wroteSession_detached st st2 c f hw hl)
    | some i =>
      rcases hw.2 with ⟨hnone, _, _⟩ | ⟨_, _, _, hsync⟩
      · rw [hl] at hnone
        cases hnone
      · exact Or.inl hsync

theorem inSync_saveSessionHistory (st : State) : InSync (saveSessionHistory st) := rfl

theorem inSync_startNewSession (st : State) (idNow : Int) (random : String) (now : Int) :
    InSync (startNewSession st idNow random now) := rfl

theorem apply_inSync_or_kept (st : State) (op : PipelineOp) :
    InSync (op.apply st) ∨ HistoryKept st (op.apply st) := by
  rcases apply_shape st op with ⟨_, h⟩ | ⟨_, _, st1, idNow, random, now, _, h⟩ | ⟨_, _, h⟩
  · rw [h]
    exact Or.inl (inSync_saveSessionHistory _)
  · rw [h]
    exact Or.inl (inSync_startNewSession st1 idNow random now)
  · exact evolves_inSync_or_kept st _ h

theorem persisted_of_inSync_or_kept (st st2 : State) (h : InSync st2 ∨ HistoryKept st st2)
    (hp : Persisted st) : Persisted st2 := by
  rcases h with h | ⟨_, hh, hb⟩
  · exact Or.inl h
  · unfold Persisted InSync at hp ⊢
    rw [hh, hb]
    exact hp

theorem persisted_runPipeline (ops : List PipelineOp) :
    ∀ st, Persisted st → Persisted (runPipeline st ops) := by
  induction ops with
  | nil =>
    intro st hp
    exact hp
  | cons op ops ih =>
    intro st hp
    exact ih (op.apply st) (persisted_of_inSync_or_kept st _ (apply_inSync_or_kept st op) hp)

theorem changed_history_inSync (st st2 : State) (h : InSync st2 ∨ HistoryKept st st2)
    (hne : st2.history ≠ st.history) : InSync st2 := by
  rcases h with h | h
  · exact h
  · exact absurd h.2.1 hne

/-- A history in sync with its stored copy is in sync again after the page is loaded anew
and the stored copy is read back. -/
theorem inSync_after_reload (st : State) (h : InSync st) :
    ∃ st2 : State, loadSessionHistory (reloadPage st) = .ok st2 ∧ InSync st2 := by
  obtain ⟨st2, hload, hhist, _, _, _, hls⟩ :=
    loadSessionHistory_parsed (reloadPage st) (st.history.map Session.toJSON) h
  refine ⟨st2, hload, ?_⟩
  unfold InSync at h ⊢
  rw [hls, hhist, List.map_map]
  have hmap : st.history.map (Session.toJSON ∘ Session.toJSON) =
      st.history.map Session.toJSON := by
    apply List.map_congr_left
    intro s _
    exact Session.session_toJSON_idem s
  rw [hmap]
  exact h

/-- C21: write-through persistence. Session creation (with its eviction) and an accepted
clearing always leave the stored history equal to the serialization of the whole history in
memory. A child append (recording, screenshot, motion event), the session close and every
event of the pipeline either leave the history in memory as it was or leave the stored history
equal to the serialization of the whole history in memory. Hence, from a state where the
history in memory agrees with what was last persisted (as the initial state, where both are
empty), no sequence of events reaches a state where they differ; and a history in sync with
its stored copy is in sync again once the page is loaded anew and the copy is read back. -/
theorem write_through_persistence (st : State) :
    (∀ idNow random now, InSync (startNewSession st idNow random now)) ∧
    InSync (clearSessionHistory st true) ∧
    (∀ d, (addRecordingToSession st d).history ≠ st.history →
      InSync (addRecordingToSession st d)) ∧
    (∀ d, (addScreenshotToSession st d).history ≠ st.history →
      InSync (addScreenshotToSession st d)) ∧
    (∀ d, (addMotionEventToSession st d).history ≠ st.history →
      InSync (addMotionEventToSession st d)) ∧
    (∀ now, (endCurrentSession st now).history ≠ st.history →
      InSync (endCurrentSession st now)) ∧
    (∀ op : PipelineOp, (op.apply st).history ≠ st.history → InSync (op.apply st)) ∧
    (Persisted st → ∀ ops, Persisted (runPipeline st ops)) ∧
    (InSync st → ∃ st2 : State, loadSessionHistory (reloadPage st) = .ok st2 ∧ InSync st2) := by
  refine ⟨fun idNow random now => inSync_startNewSession st idNow random now,
    inSync_saveSessionHistory _, ?_, ?_, ?_, ?_, ?_, ?_, inSync_after_reload st⟩
  · intro d
    exact changed_history_inSync st _
      (evolves_inSync_or_kept st _ (evolves_addRecordingToSession st d))
  · intro d
    exact changed_history_inSync st _
      (evolves_inSync_or_kept st _ (evolves_addScreenshotToSession st d))
  · intro d
    exact changed_history_inSync st _
      (evolves_inSync_or_kept st _ (evolves_addMotionEventToSession st d))
  · intro now
    exact changed_history_inSync st _
      (evolves_inSync_or_kept st _ (evolves_endCurrentSession st now))
  · intro op
    exact changed_history_inSync st _ (apply_inSync_or_kept st op)
  · intro hp ops
    exact persisted_runPipeline ops st hp

/-- Witness of C21: a screenshot in a started capture changes the history and leaves it in
sync, and the run of a capture with a screenshot from the initial state is persisted. -/
theorem write_through_persistence_witness :
    (addScreenshotToSession activeCameraState sampleScreenshot).history ≠
      activeCameraState.history ∧
    InSync (addScreenshotToSession activeCameraState sampleScreenshot) ∧
    Persisted State.init ∧ Persisted (runPipeline State.init screenshotOps) :=
  ⟨by decide,
    (write_through_persistence activeCameraState).2.2.2.1 sampleScreenshot (by decide),
    Or.inr ⟨rfl, rfl⟩,
    (write_through_persistence State.init).2.2.2.2.2.2.2.1 (Or.inr ⟨rfl, rfl⟩)
      screenshotOps⟩

/-! ## A session that is not in the history -/

theorem currentNotInHistory_clear (st : State) :
    CurrentNotInHistory (clearSessionHistory st true) := by
  intro c _
  unfold lookupIndex
  cases (clearSessionHistory st true).heap[c]? <;> rfl

theorem evolves_detached (st st2 : State) (h : Evolves st st2) (hdet : CurrentNotInHistory st) :
    HistoryKept st st2 ∧ CurrentNotInHistory st2 := by
  rcases h with h | ⟨c, f, hcur, hid, hw, hend⟩
  · refine ⟨historyKept_of_sameStore st st2 h, ?_⟩
    intro c hc
    rw [lookupIndex_congr st st2 h.1 h.2.1]
    apply hdet
    rw [← h.2.2.1]
    exact hc
  · have hl := hdet c hcur
    have hk := wroteSession_detached st st2 c f hw hl
    refine ⟨hk, ?_⟩
    intro c2 hc2
    rcases hend with ⟨hc, _⟩ | ⟨hnone, _⟩
    · rw [hc] at hc2
      cases hc2
      have h1 : lookupIndex st2 c =
          lookupIndex { st with heap := updateObject st.heap c f } c :=
        lookupIndex_congr { st with heap := updateObject st.heap c f } st2 hw.1 hk.1 c
      rw [h1, lookupIndex_updateObject st c f hid c]
      exact hl
    · rw [hnone] at hc2
      cases hc2

theorem detached_runPipeline (ops : List PipelineOp) :
    ∀ st, CurrentNotInHistory st →
      (∀ op ∈ ops, op.opensSession = false ∧ op.clearsHistory = false) →
      HistoryKept st (runPipeline st ops) ∧ CurrentNotInHistory (runPipeline st ops) := by
  induction ops with
  | nil =>
    intro st hdet _
    exact ⟨⟨rfl, rfl, rfl⟩, hdet⟩
  | cons op ops ih =>
    intro st hdet hops
    have hop := hops op (List.mem_cons_self op ops)
    have hstep : HistoryKept st (op.apply st) ∧ CurrentNotInHistory (op.apply st) := by
      rcases apply_shape st op with ⟨hc, _⟩ | ⟨ho, _⟩ | ⟨_, _, h⟩
      · rw [hop.2] at hc
        cases hc
      · rw [hop.1] at ho
        cases ho
      · exact evolves_detached st _ h hdet
    have hrest := ih (op.apply st) hstep.2 (fun o ho => hops o (List.mem_cons_of_mem op ho))
    exact ⟨historyKept_trans st _ _ hstep.1 hrest.1, hrest.2⟩

/-- C29: a current session the lookup by `id` does not find in the history is never put back.
An accepted clearing of the history leaves the current session in this situation. In it,
appending a recording, a screenshot or a motion event and closing the session leave the
history array, the history and the stored history exactly as they were, and so does every
sequence of events of the pipeline in which no session is opened and the history is not
cleared again; the situation itself persists along such a sequence. -/
theorem detached_session_not_reinserted (st : State) :
    CurrentNotInHistory (clearSessionHistory st true) ∧
    (CurrentNotInHistory st →
      (∀ d, HistoryKept st (addRecordingToSession st d) ∧
        CurrentNotInHistory (addRecordingToSession st d)) ∧
      (∀ d, HistoryKept st (addScreenshotToSession st d) ∧
        CurrentNotInHistory (addScreenshotToSession st d)) ∧
      (∀ d, HistoryKept st (addMotionEventToSession st d) ∧
        CurrentNotInHistory (addMotionEventToSession st d)) ∧
      (∀ now, HistoryKept st (endCurrentSession st now) ∧
        (endCurrentSession st now).currentSession = none) ∧
      (∀ ops : List PipelineOp,
        (∀ op ∈ ops, op.opensSession = false ∧ op.clearsHistory = false) →
        HistoryKept st (runPipeline st ops) ∧ CurrentNotInHistory (runPipeline st ops))) := by
  refine ⟨currentNotInHistory_clear st, fun hdet => ⟨?_, ?_, ?_, ?_, ?_⟩⟩
  · intro d
    exact evolves_detached st _ (evolves_addRecordingToSession st d) hdet
  · intro d
    exact evolves_detached st _ (evolves_addScreenshotToSession st d) hdet
  · intro d
    exact evolves_detached st _ (evolves_addMotionEventToSession st d) hdet
  · intro now
    refine ⟨(evolves_detached st _ (evolves_endCurrentSession st now) hdet).1, ?_⟩
    obtain ⟨heap, hist, blob, h⟩ := endCurrentSession_frame st now
    rw [h]
  · intro ops hops
    exact detached_runPipeline ops st hdet hops

/-- Witness of C29: the history is cleared while the capture of `activeCameraState` runs; a
screenshot, a frame and the stop of the capture leave the history empty and the stored history
the empty sequence. -/
theorem detached_session_not_reinserted_witness :
    CurrentNotInHistory clearedWhileActive ∧
    (∀ op ∈ detachedOps, op.opensSession = false ∧ op.clearsHistory = false) ∧
    HistoryKept clearedWhileActive (runPipeline clearedWhileActive detachedOps) ∧
    (runPipeline clearedWhileActive detachedOps).history = [] :=
  ⟨currentNotInHistory_clear activeCameraState, by decide,
    (((detached_session_not_reinserted clearedWhileActive).2
      (currentNotInHistory_clear activeCameraState)).2.2.2.2 detachedOps (by decide)).1,
    by decide⟩


/-! ## Completed sessions -/

theorem currentInv_none (st : State) (h : st.currentSession = none) : CurrentInv st := by
  unfold CurrentInv
  rw [h]
  trivial

theorem currentInv_some (st : State) (c : Nat) (h : st.currentSession = some c) :
    CurrentInv st ↔
      isActive st c = true ∧ (st.sessionHistory = [] ∨ st.sessionHistory.head? = some c) := by
  unfold CurrentInv
  rw [h]

theorem lookupIndex_nil (st : State) (c : Nat) (h : st.sessionHistory = []) :
    lookupIndex st c = none := by
  unfold lookupIndex
  rw [h]
  cases st.heap[c]? <;> rfl

/-- A step that at most writes to the current session keeps the invariant of
`currentSession`, the history array and every completed session object. -/
theorem evolves_currentInv (st st2 : State) (h : Evolves st st2) (hinv : CurrentInv st) :
    CurrentInv st2 ∧ st2.sessionHistory = st.sessionHistory ∧
      ∀ (r : Nat) (s : Session), st.heap[r]? = some s → s.status = "completed" → st2.heap[r]? = some s := by
  rcases h with ⟨hh, hs, hc, _⟩ | ⟨c, f, hcur, hid, hw, hend⟩
  · refine ⟨?_, hs, ?_⟩
    · rcases hcur : st.currentSession with _ | c
      · exact currentInv_none st2 (hc.trans hcur)
      · rw [currentInv_some st2 c (hc.trans hcur), hs,
          isActive_of_getElem? st st2 c (by rw [hh])]
        exact (currentInv_some st c hcur).mp hinv
    · intro r s hr _
      rw [hh]
      exact hr
  · obtain ⟨hactive, hhead⟩ := (currentInv_some st c hcur).mp hinv
    obtain ⟨hheap, hwrote⟩ := hw
    have hobj : ∃ s, st.heap[c]? = some s ∧ s.status = "active" := by
      unfold isActive at hactive
      cases hs : st.heap[c]? with
      | none => simp [hs] at hactive
      | some s => exact ⟨s, rfl, by simpa [hs] using hactive⟩
    obtain ⟨s0, hs0, hstatus0⟩ := hobj
    have hhist : st2.sessionHistory = st.sessionHistory := by
      rcases hwrote with ⟨_, hs, _⟩ | ⟨i, hi, hs, _⟩
      · exact hs
      · rcases hhead with hnil | hhd
        · rw [lookupIndex_nil st c hnil] at hi
          cases hi
        · cases hl : st.sessionHistory with
          | nil =>
            rw [hl] at hhd
            cases hhd
          | cons x rest =>
            rw [hl] at hhd
            simp only [List.head?_cons, Option.some.injEq] at hhd
            subst hhd
            rw [lookupIndex_head st x rest s0 hs0 hl] at hi
            cases hi
            rw [hs, hl]
            rfl
    refine ⟨?_, hhist, ?_⟩
    · rcases hend with ⟨hc2, hkeep⟩ | ⟨hnone, _⟩
      · rw [currentInv_some st2 c hc2, hhist]
        refine ⟨?_, hhead⟩
        unfold isActive
        rw [hheap, updateObject_getElem?_self st.heap c f s0 hs0]
        simp [hkeep, hstatus0]
      · exact currentInv_none st2 hnone
    · intro r s hr hcompleted
      have hne : r ≠ c := by
        intro hrc
        rw [hrc, hs0] at hr
        cases hr
        rw [hstatus0] at hcompleted
        exact absurd hcompleted (by decide)
      rw [hheap, updateObject_getElem?_ne st.heap c r f hne]
      exact hr

theorem startNewSession_sessionHistory (st : State) (idNow : Int) (random : String)
    (now : Int) :
    (startNewSession st idNow random now).sessionHistory =
      st.heap.length :: st.sessionHistory.take 49 := by
  unfold startNewSession
  simp only
  rw [addToSessionHistory_sessionHistory]

theorem startNewSession_heap (st : State) (idNow : Int) (random : String) (now : Int)
    (r : Nat) (s : Session) (h : st.heap[r]? = some s) :
    (startNewSession st idNow random now).heap[r]? = some s := by
  have hlt : r < st.heap.length := by
    rcases Nat.lt_or_ge r st.heap.length with hlt | hge
    · exact hlt
    · rw [List.getElem?_eq_none hge] at h
      cases h
  simp only [startNewSession, addToSessionHistory, saveSessionHistory_heap]
  rw [List.getElem?_append_left hlt]
  exact h

theorem currentInv_startNewSession (st : State) (idNow : Int) (random : String) (now : Int) :
    CurrentInv (startNewSession st idNow random now) := by
  obtain ⟨hcur, _, hobj⟩ := startNewSession_opens st idNow random now
  rw [currentInv_some _ _ hcur]
  refine ⟨?_, Or.inr ?_⟩
  · unfold isActive
    rw [hobj]
    rfl
  · rw [startNewSession_sessionHistory]
    rfl

theorem currentInv_emptied (st st2 : State) (hh : st2.heap = st.heap)
    (hs : st2.sessionHistory = []) (hc : st2.currentSession = st.currentSession)
    (hinv : CurrentInv st) : CurrentInv st2 := by
  rcases hcur : st.currentSession with _ | c
  · exact currentInv_none st2 (hc.trans hcur)
  · rw [currentInv_some st2 c (hc.trans hcur), isActive_of_getElem? st st2 c (by rw [hh])]
    exact ⟨((currentInv_some st c hcur).mp hinv).1, Or.inl hs⟩

theorem currentInv_clear (st : State) (hinv : CurrentInv st) :
    CurrentInv (saveSessionHistory { st with sessionHistory := [] }) :=
  currentInv_emptied st _ rfl rfl rfl hinv

/-- Every event of the pipeline keeps the invariant of `currentSession` and every completed
session object, and keeps the entries of the history unless it clears the history or opens a
session while the history holds 50 entries. -/
theorem apply_currentInv (st : State) (op : PipelineOp) (hinv : CurrentInv st) :
    CurrentInv (op.apply st) ∧
      (∀ (r : Nat) (s : Session), st.heap[r]? = some s → s.status = "completed" →
        (op.apply st).heap[r]? = some s) ∧
      (∀ r, r ∈ st.sessionHistory →
        r ∈ (op.apply st).sessionHistory ∨
          (op.opensSession = true ∧ 50 ≤ st.sessionHistory.length) ∨
          op.clearsHistory = true) := by
  rcases apply_shape st op with ⟨hclear, h⟩ | ⟨hopen, _, st1, idNow, random, now, hev, h⟩ |
      ⟨_, _, hev⟩
  · rw [h]
    exact ⟨currentInv_clear st hinv, fun r s hr _ => hr, fun r _ => Or.inr (Or.inr hclear)⟩
  · obtain ⟨hinv1, hhist1, hheap1⟩ := evolves_currentInv st st1 hev hinv
    rw [h]
    refine ⟨currentInv_startNewSession st1 idNow random now, ?_, ?_⟩
    · intro r s hr hcompleted
      exact startNewSession_heap st1 idNow random now r s (hheap1 r s hr hcompleted)
    · intro r hr
      rcases Nat.lt_or_ge st.sessionHistory.length 50 with hlt | hge
      · left
        rw [startNewSession_sessionHistory, hhist1,
          List.take_of_length_le (by omega : st.sessionHistory.length ≤ 49)]
        exact List.mem_cons_of_mem _ hr
      · exact Or.inr (Or.inl ⟨hopen, hge⟩)
  · obtain ⟨hinv1, hhist1, hheap1⟩ := evolves_currentInv st _ hev hinv
    refine ⟨hinv1, hheap1, ?_⟩
    intro r hr
    left
    rw [hhist1]
    exact hr

theorem currentInv_runPipeline (ops : List PipelineOp) :
    ∀ st, CurrentInv st → CurrentInv (runPipeline st ops) ∧
      ∀ (r : Nat) (s : Session), st.heap[r]? = some s → s.status = "completed" →
        (runPipeline st ops).heap[r]? = some s := by
  induction ops with
  | nil =>
    intro st hinv
    exact ⟨hinv, fun r s hr _ => hr⟩
  | cons op ops ih =>
    intro st hinv
    obtain ⟨hinv1, hheap1, _⟩ := apply_currentInv st op hinv
    obtain ⟨hinv2, hheap2⟩ := ih (op.apply st) hinv1
    exact ⟨hinv2, fun r s hr hcompleted => hheap2 r s (hheap1 r s hr hcompleted) hcompleted⟩

/-- C27: a completed session is never mutated. In every state `st` the pipeline reaches from
a state with no current session (or, more generally, one whose current session is active and
at the head of the history), a session object with status `'completed'` is, field by field,
the same object after every event of the pipeline (start and stop of the capture, frames with
their motion detection, screenshots, start and stop of a recording, toggles, settings), after
each child append and the session close called directly, and after every further sequence of
events; so it never returns to status `'active'` and never gains a child record. An entry of
the history that refers to it stays in the history unless the event opens a session while the
history holds 50 entries (eviction) or clears the history. -/
theorem completed_session_never_mutated (st0 : State) (ops : List PipelineOp)
    (hinv : CurrentInv st0) (r : Nat) (s : Session)
    (hobj : (runPipeline st0 ops).heap[r]? = some s) (hcompleted : s.status = "completed") :
    (∀ op : PipelineOp,
      (op.apply (runPipeline st0 ops)).heap[r]? = some s ∧
      (r ∈ (runPipeline st0 ops).sessionHistory →
        r ∈ (op.apply (runPipeline st0 ops)).sessionHistory ∨
          (op.opensSession = true ∧ 50 ≤ (runPipeline st0 ops).sessionHistory.length) ∨
          op.clearsHistory = true)) ∧
    (∀ d, (addRecordingToSession (runPipeline st0 ops) d).heap[r]? = some s ∧
      (addRecordingToSession (runPipeline st0 ops) d).sessionHistory =
        (runPipeline st0 ops).sessionHistory) ∧
    (∀ d, (addScreenshotToSession (runPipeline st0 ops) d).heap[r]? = some s ∧
      (addScreenshotToSession (runPipeline st0 ops) d).sessionHistory =
        (runPipeline st0 ops).sessionHistory) ∧
    (∀ d, (addMotionEventToSession (runPipeline st0 ops) d).heap[r]? = some s ∧
      (addMotionEventToSession (runPipeline st0 ops) d).sessionHistory =
        (runPipeline st0 ops).sessionHistory) ∧
    (∀ now, (endCurrentSession (runPipeline st0 ops) now).heap[r]? = some s ∧
      (endCurrentSession (runPipeline st0 ops) now).sessionHistory =
        (runPipeline st0 ops).sessionHistory) ∧
    (∀ more : List PipelineOp,
      (runPipeline (runPipeline st0 ops) more).heap[r]? = some s) := by
  have hreach := (currentInv_runPipeline ops st0 hinv).1
  refine ⟨?_, ?_, ?_, ?_, ?_, ?_⟩
  · intro op
    obtain ⟨_, hheap, hmem⟩ := apply_currentInv (runPipeline st0 ops) op hreach
    exact ⟨hheap r s hobj hcompleted, hmem r⟩
  · intro d
    obtain ⟨_, hhist, hheap⟩ := evolves_currentInv _ _
      (evolves_addRecordingToSession (runPipeline st0 ops) d) hreach
    exact ⟨hheap r s hobj hcompleted, hhist⟩
  · intro d
    obtain ⟨_, hhist, hheap⟩ := evolves_currentInv _ _
      (evolves_addScreenshotToSession (runPipeline st0 ops) d) hreach
    exact ⟨hheap r s hobj hcompleted, hhist⟩
  · intro d
    obtain ⟨_, hhist, hheap⟩ := evolves_currentInv _ _
      (evolves_addMotionEventToSession (runPipeline st0 ops) d) hreach
    exact ⟨hheap r s hobj hcompleted, hhist⟩
  · intro now
    obtain ⟨_, hhist, hheap⟩ := evolves_currentInv _ _
      (evolves_endCurrentSession (runPipeline st0 ops) now) hreach
    exact ⟨hheap r s hobj hcompleted, hhist⟩
  · intro more
    exact (currentInv_runPipeline more (runPipeline st0 ops) hreach).2 r s hobj hcompleted

/-- Witness of C27: the session of a capture that was started and stopped is the same object
after a second capture with a screenshot. -/
theorem completed_session_never_mutated_witness :
    CurrentInv State.init ∧
    (runPipeline State.init closedSessionOps).heap[0]? = some closedSession ∧
    closedSession.status = "completed" ∧
    (runPipeline (runPipeline State.init closedSessionOps) screenshotOps).heap[0]? =
      some closedSession :=
  ⟨currentInv_none State.init rfl, by decide, by decide,
    (completed_session_never_mutated State.init closedSessionOps
      (currentInv_none State.init rfl) 0 closedSession (by decide) (by decide)).2.2.2.2.2
      screenshotOps⟩


/-! ## The settings read at the start of a capture -/

theorem isDecimalDigit_cases (c : Char) (h : isDecimalDigit c = true) :
    c ∈ ['0', '1', '2', '3', '4', '5', '6', '7', '8', '9'] := by
  have h1 : 48 ≤ c.toNat ∧ c.toNat ≤ 57 := by
    simpa [isDecimalDigit] using h
  have h2 : c = Char.ofNat c.toNat := (Char.ofNat_toNat c).symm
  obtain ⟨ha, hb⟩ := h1
  generalize c.toNat = n at ha hb h2
  subst h2
  interval_cases n <;> decide

/-- What the parser needs to know of a decimal digit. -/
theorem isDecimalDigit_facts (c : Char) (h : isDecimalDigit c = true) :
    isWhiteSpace c = false ∧ c ≠ 'x' := by
  have hc := isDecimalDigit_cases c h
  simp only [List.mem_cons, List.mem_singleton, List.not_mem_nil, or_false] at hc
  rcases hc with rfl | rfl | rfl | rfl | rfl | rfl | rfl | rfl | rfl | rfl <;> decide

theorem digitChar_facts :
    ∀ k, k < 10 →
      isDecimalDigit (Nat.digitChar k) = true ∧ digitValue (Nat.digitChar k) = some k := by
  decide

theorem digitsValue_append (radix : Nat) (cs : List Char) (c : Char) :
    digitsValue radix (cs ++ [c]) = digitsValue radix cs * radix + (digitValue c).getD 0 := by
  unfold digitsValue
  rw [List.foldl_append]
  rfl

/-- The digits `toString` prints for a natural number: a non-empty sequence of decimal digits
whose value is the number. -/
theorem toDigitsCore_spec (fuel : Nat) :
    ∀ (n : Nat) (ds : List Char), n < fuel →
      ∃ cs, Nat.toDigitsCore 10 fuel n ds = cs ++ ds ∧ cs ≠ [] ∧
        (∀ c ∈ cs, isDecimalDigit c = true) ∧ digitsValue 10 cs = n := by
  induction fuel with
  | zero =>
    intro n ds h
    omega
  | succ f ih =>
    intro n ds h
    obtain ⟨hdig, hval⟩ := digitChar_facts (n % 10) (Nat.mod_lt n (by decide))
    unfold Nat.toDigitsCore
    simp only
    by_cases hz : n / 10 = 0
    · rw [if_pos hz]
      refine ⟨[Nat.digitChar (n % 10)], rfl, by simp, ?_, ?_⟩
      · intro c hc
        rw [List.mem_singleton] at hc
        rw [hc]
        exact hdig
      · simp only [digitsValue, List.foldl_cons, List.foldl_nil, hval, Option.getD_some]
        omega
    · rw [if_neg hz]
      obtain ⟨cs, heq, _, hall, hv⟩ := ih (n / 10) (Nat.digitChar (n % 10) :: ds) (by omega)
      refine ⟨cs ++ [Nat.digitChar (n % 10)], ?_, by simp, ?_, ?_⟩
      · rw [heq]
        simp
      · intro c hc
        rcases List.mem_append.mp hc with hc | hc
        · exact hall c hc
        · rw [List.mem_singleton] at hc
          rw [hc]
          exact hdig
      · rw [digitsValue_append, hv, hval]
        simp only [Option.getD_some]
        omega

theorem toDigits_spec (n : Nat) :
    Nat.toDigits 10 n ≠ [] ∧ (∀ c ∈ Nat.toDigits 10 n, isDecimalDigit c = true) ∧
      digitsValue 10 (Nat.toDigits 10 n) = n := by
  obtain ⟨cs, heq, hne, hall, hv⟩ := toDigitsCore_spec (n + 1) n [] (by omega)
  unfold Nat.toDigits
  rw [heq, List.append_nil]
  exact ⟨hne, hall, hv⟩

theorem splitOn_no_sep (sep : Char) (cs : List Char) (h : ∀ c ∈ cs, c ≠ sep) :
    splitOn sep cs = [cs] := by
  induction cs with
  | nil => rfl
  | cons c cs ih =>
    have hc : c ≠ sep := h c (List.mem_cons_self c cs)
    have hrest := ih (fun x hx => h x (List.mem_cons_of_mem c hx))
    simp only [splitOn, hc, if_false, hrest]

theorem splitOn_append (sep : Char) (ws hs : List Char) (h : ∀ c ∈ ws, c ≠ sep) :
    splitOn sep (ws ++ sep :: hs) = ws :: splitOn sep hs := by
  induction ws with
  | nil => simp [splitOn]
  | cons c ws ih =>
    have hc : c ≠ sep := h c (List.mem_cons_self c ws)
    have hrest := ih (fun x hx => h x (List.mem_cons_of_mem c hx))
    simp only [List.cons_append, splitOn, hc, if_false, List.append_eq, hrest]

theorem dropWhile_of_all_false {α : Type} (p : α → Bool) (l : List α)
    (h : ∀ x ∈ l, p x = false) : l.dropWhile p = l := by
  cases l with
  | nil => rfl
  | cons x xs => simp [List.dropWhile, h x (List.mem_cons_self x xs)]

theorem roundHalfEven_intCast (z : Int) : roundHalfEven (z : ℚ) = z := by
  unfold roundHalfEven
  simp

/-- A natural number below `2 ^ 53` is a double. -/
theorem roundToDouble_natCast (n : Nat) (h : n < 2 ^ 53) :
    roundToDouble (n : ℚ) = .finite (n : ℚ) := by
  by_cases h0 : n = 0
  · subst h0
    simp [roundToDouble]
  · have hlog : Nat.log 2 n < 53 := Nat.log_lt_of_lt_pow h0 h
    obtain ⟨k, hk⟩ : ∃ k : Nat, Nat.log 2 n + k = 52 := ⟨52 - Nat.log 2 n, by omega⟩
    have hp : max (Int.log 2 (n : ℚ) - 52) (-1074) = -(k : Int) := by
      rw [Int.log_natCast, max_eq_left (by omega)]
      omega
    have hq : (n : ℚ) / (2 : ℚ) ^ (-(k : Int)) = (((n * 2 ^ k : Nat) : Int) : ℚ) := by
      rw [zpow_neg, zpow_natCast]
      push_cast
      field_simp
    have hv : ((((n * 2 ^ k : Nat) : Int) : ℚ)) * (2 : ℚ) ^ (-(k : Int)) = (n : ℚ) := by
      rw [zpow_neg, zpow_natCast]
      push_cast
      field_simp
    have hn0 : (n : ℚ) ≠ 0 := by exact_mod_cast h0
    have hbig : ¬ (2 : ℚ) ^ (1024 : Nat) ≤ (n : ℚ) := by
      have h1 : (n : ℚ) < 2 ^ 53 := by exact_mod_cast h
      have h2 : (2 : ℚ) ^ 53 ≤ 2 ^ 1024 := by norm_num
      linarith
    unfold roundToDouble
    simp only [hn0, if_false, hp, hq, roundHalfEven_intCast, hv, hbig]

/-- The number `2 ^ 53 + 1` lies half-way between two doubles and is rounded to the even one,
`2 ^ 53`. -/
theorem roundToDouble_above :
    roundToDouble ((9007199254740993 : Nat) : ℚ) = .finite 9007199254740992 := by
  have hlog : Nat.log 2 9007199254740993 = 53 :=
    Nat.log_eq_of_pow_le_of_lt_pow (by norm_num) (by norm_num)
  have hp : max (Int.log 2 ((9007199254740993 : Nat) : ℚ) - 52) (-1074) = 1 := by
    rw [Int.log_natCast, hlog]
    norm_num
  have hfloor :
      ⌊(((9007199254740993 : Nat) : ℚ)) / (2 : ℚ) ^ (1 : Int)⌋ = 4503599627370496 := by
    rw [Int.floor_eq_iff]
    norm_num
  have hr : roundHalfEven ((((9007199254740993 : Nat) : ℚ)) / (2 : ℚ) ^ (1 : Int)) =
      4503599627370496 := by
    unfold roundHalfEven
    simp only [hfloor]
    norm_num
  unfold roundToDouble
  rw [if_neg (by norm_num)]
  simp only [hp, hr]
  norm_num

/-- The value of `Number(text)` for a text of decimal digits. -/
theorem parseNumber_digits (cs : List Char) (hne : cs ≠ [])
    (hd : ∀ c ∈ cs, isDecimalDigit c = true) :
    parseNumber (String.mk cs) = roundToDouble (digitsValue 10 cs) := by
  have hws : ∀ c ∈ cs, isWhiteSpace c = false := fun c hc => (isDecimalDigit_facts c (hd c hc)).1
  have htrim : ((cs.dropWhile isWhiteSpace).reverse.dropWhile isWhiteSpace).reverse = cs := by
    rw [dropWhile_of_all_false isWhiteSpace cs hws,
      dropWhile_of_all_false isWhiteSpace cs.reverse
        (fun c hc => hws c (List.mem_reverse.mp hc)), List.reverse_reverse]
  have hnot : ∀ a : Char, isDecimalDigit a = false → a ∉ cs := by
    intro a ha hmem
    rw [hd a hmem] at ha
    cases ha
  have htake : ∀ a b : Char, isDecimalDigit b = false → cs.take 2 ≠ [a, b] := by
    intro a b hb heq
    have hmem : b ∈ cs.take 2 := by
      rw [heq]
      simp
    exact hnot b hb (List.mem_of_mem_take hmem)
  have hhead : ∀ a : Char, isDecimalDigit a = false → cs.head? ≠ some a := by
    intro a ha heq
    exact hnot a ha (List.mem_of_mem_head? heq)
  have hinf : cs ≠ "Infinity".toList := by
    intro heq
    apply hnot 'I' (by decide)
    rw [heq]
    decide
  have hempty : cs.isEmpty = false := by
    cases cs with
    | nil => exact absurd rfl hne
    | cons _ _ => rfl
  have htw : cs.takeWhile isDecimalDigit = cs := List.takeWhile_eq_self_iff.mpr hd
  have hdw : cs.dropWhile isDecimalDigit = [] := List.dropWhile_eq_nil_iff.mpr hd
  have hdec : parseDecimal cs = some (digitsValue 10 cs : ℚ) := by
    unfold parseDecimal
    simp [htw, hdw, hempty]
  unfold parseNumber
  simp only [String.toList, htrim, hempty, Bool.false_eq_true, if_false,
    htake '0' 'x' (by decide), htake '0' 'X' (by decide), htake '0' 'o' (by decide),
    htake '0' 'O' (by decide), htake '0' 'b' (by decide), htake '0' 'B' (by decide),
    hhead '-' (by decide), hhead '+' (by decide), or_self, hdec]
  exact if_neg hinf

/-- The width and height `startCamera` requests for a resolution text made of two sequences
of decimal digits with an `x` between them. -/
theorem cameraConstraints_digits (st : State) (ws hs : List Char) (hwne : ws ≠ [])
    (hw : ∀ c ∈ ws, isDecimalDigit c = true) (hhne : hs ≠ [])
    (hh : ∀ c ∈ hs, isDecimalDigit c = true)
    (hres : orDefault st.localStorage.cameraResolution "1280x720" =
      String.mk (ws ++ 'x' :: hs)) :
    (cameraConstraints st).width = some (roundToDouble (digitsValue 10 ws)) ∧
    (cameraConstraints st).height = some (roundToDouble (digitsValue 10 hs)) := by
  have hsplit : splitOn 'x' (ws ++ 'x' :: hs) = [ws, hs] := by
    rw [splitOn_append 'x' ws hs (fun c hc => (isDecimalDigit_facts c (hw c hc)).2),
      splitOn_no_sep 'x' hs (fun c hc => (isDecimalDigit_facts c (hh c hc)).2)]
  unfold cameraConstraints
  simp only [hres, String.toList, hsplit, List.map_cons, List.map_nil,
    parseNumber_digits ws hwne hw, parseNumber_digits hs hhne hh]
  exact ⟨rfl, rfl⟩

theorem toString_resolution (w h : Nat) :
    toString w ++ "x" ++ toString h =
      String.mk (Nat.toDigits 10 w ++ 'x' :: Nat.toDigits 10 h) := by
  show String.mk (Nat.toDigits 10 w) ++ String.mk ['x'] ++ String.mk (Nat.toDigits 10 h) = _
  simp [String.ext_iff]


/-- The session the metadata handler opens after a granted request: current, active, and
with the settings read from `localStorage` at that moment, which are those of the state
before the request. -/
theorem onloadedmetadata_opens (st : State) (stream : MediaStream) (data : List Byte)
    (frameNow idNow : Int) (random : String) (now : Int) :
    ∃ (ref : Nat) (s : Session),
      (onloadedmetadata (startCamera st (.granted stream)) data frameNow idNow random
        now).currentSession = some ref ∧
      (onloadedmetadata (startCamera st (.granted stream)) data frameNow idNow random
        now).heap[ref]? = some s ∧
      s.status = "active" ∧
      s.settings.resolution = orDefault st.localStorage.cameraResolution "1280x720" ∧
      s.settings.fps = parseIntOr st.localStorage.cameraFPS 30 ∧
      s.settings.facingMode = orDefault st.localStorage.cameraFacingMode "user" := by
  have hset := processFrame_storedSettings
    { startCamera st (.granted stream) with
      cameraActive := true, cameraStatus := ("Connected", "fw-semibold text-success") }
    data frameNow
  simp only [storedSettings, startCamera, Prod.mk.injEq] at hset
  obtain ⟨h1, _, h3⟩ := startNewSession_opens
    (processFrame
      { startCamera st (.granted stream) with
        cameraActive := true, cameraStatus := ("Connected", "fw-semibold text-success") }
      data frameNow) idNow random now
  refine ⟨_, _, h1, h3, rfl, ?_, ?_, ?_⟩
  · simp only [startCamera]
    rw [hset.1]
  · simp only [startCamera]
    rw [hset.2.1]
  · simp only [startCamera]
    rw [hset.2.2]

/-- C23, as the script has it: each of the three persisted settings falls back on its own to
its default when its key is missing. With no persisted resolution `startCamera` requests
width 1280 and height 720 and the session the start opens records `"1280x720"`; with no
persisted frame rate it requests 30 and the session records 30; with no persisted facing mode
it requests `'user'` and the session records `'user'`; each whatever the other two keys hold.
A persisted resolution `"<w>x<h>"`, with `w` and `h` decimal numerals below `2 ^ 53`, is
requested as width `w` and height `h` and recorded as that text; for any numerals the
requested width and height are the doubles nearest to `w` and `h`. -/
theorem persisted_settings_defaults (st : State) (stream : MediaStream) (data : List Byte)
    (frameNow idNow : Int) (random : String) (now : Int) :
    ∃ (ref : Nat) (s : Session),
      (onloadedmetadata (startCamera st (.granted stream)) data frameNow idNow random
        now).currentSession = some ref ∧
      (onloadedmetadata (startCamera st (.granted stream)) data frameNow idNow random
        now).heap[ref]? = some s ∧
      (st.localStorage.cameraResolution = none →
        (cameraConstraints st).width = some (.finite 1280) ∧
        (cameraConstraints st).height = some (.finite 720) ∧
        s.settings.resolution = "1280x720") ∧
      (st.localStorage.cameraFPS = none →
        (cameraConstraints st).frameRate = 30 ∧ s.settings.fps = 30) ∧
      (st.localStorage.cameraFacingMode = none →
        (cameraConstraints st).facingMode = "user" ∧ s.settings.facingMode = "user") ∧
      (∀ w h : Nat,
        st.localStorage.cameraResolution = some (toString w ++ "x" ++ toString h) →
        (cameraConstraints st).width = some (roundToDouble w) ∧
        (cameraConstraints st).height = some (roundToDouble h) ∧
        (w < 2 ^ 53 → (cameraConstraints st).width = some (.finite w)) ∧
        (h < 2 ^ 53 → (cameraConstraints st).height = some (.finite h)) ∧
        s.settings.resolution = toString w ++ "x" ++ toString h) := by
  obtain ⟨ref, s, hcur, hobj, _, hres, hfps, hfacing⟩ :=
    onloadedmetadata_opens st stream data frameNow idNow random now
  have hnum : ∀ w h : Nat,
      orDefault st.localStorage.cameraResolution "1280x720" =
        toString w ++ "x" ++ toString h →
      (cameraConstraints st).width = some (roundToDouble w) ∧
        (cameraConstraints st).height = some (roundToDouble h) := by
    intro w h hor
    obtain ⟨hwne, hwd, hwv⟩ := toDigits_spec w
    obtain ⟨hhne, hhd, hhv⟩ := toDigits_spec h
    have hc := cameraConstraints_digits st (Nat.toDigits 10 w) (Nat.toDigits 10 h) hwne hwd
      hhne hhd (by rw [hor, toString_resolution])
    rw [hwv, hhv] at hc
    exact hc
  refine ⟨ref, s, hcur, hobj, ?_, ?_, ?_, ?_⟩
  · intro hnone
    have hor : orDefault st.localStorage.cameraResolution "1280x720" = "1280x720" := by
      rw [hnone]
      rfl
    obtain ⟨hw, hh⟩ := hnum 1280 720 (by rw [hor]; decide)
    refine ⟨?_, ?_, by rw [hres, hor]⟩
    · rw [hw, roundToDouble_natCast 1280 (by norm_num)]
      norm_num
    · rw [hh, roundToDouble_natCast 720 (by norm_num)]
      norm_num
  · intro hnone
    have hor : parseIntOr st.localStorage.cameraFPS 30 = 30 := by
      rw [hnone]
      decide
    exact ⟨hor, by rw [hfps, hor]⟩
  · intro hnone
    have hor : orDefault st.localStorage.cameraFacingMode "user" = "user" := by
      rw [hnone]
      rfl
    exact ⟨hor, by rw [hfacing, hor]⟩
  · intro w h hsome
    have hne : toString w ++ "x" ++ toString h ≠ "" := by
      rw [toString_resolution]
      simp [String.ext_iff]
    have hor : orDefault st.localStorage.cameraResolution "1280x720" =
        toString w ++ "x" ++ toString h := by
      rw [hsome]
      unfold orDefault
      simp only [hne, if_false]
    obtain ⟨hw, hh⟩ := hnum w h hor
    refine ⟨hw, hh, ?_, ?_, by rw [hres, hor]⟩
    · intro hlt
      rw [hw, roundToDouble_natCast w hlt]
    · intro hlt
      rw [hh, roundToDouble_natCast h hlt]

/-- Witness of C23: the initial state has no persisted setting, and a state with the
persisted resolution 1920x1080 requests that width and height. -/
theorem persisted_settings_defaults_witness :
    State.init.localStorage.cameraResolution = none ∧
    (cameraConstraints State.init).width = some (.finite 1280) ∧
    (cameraConstraints State.init).height = some (.finite 720) ∧
    (cameraConstraints State.init).frameRate = 30 ∧
    (cameraConstraints State.init).facingMode = "user" ∧
    hdSettingsState.localStorage.cameraResolution =
      some (toString 1920 ++ "x" ++ toString 1080) ∧
    1920 < 2 ^ 53 ∧ 1080 < 2 ^ 53 ∧
    (cameraConstraints hdSettingsState).width = some (.finite (1920 : Nat)) ∧
    (cameraConstraints hdSettingsState).height = some (.finite (1080 : Nat)) := by
  obtain ⟨_, _, _, _, hres, hfps, hfacing, _⟩ :=
    persisted_settings_defaults State.init smallStream [] 1 1 "abc" 2
  obtain ⟨_, _, _, _, _, _, _, hnum⟩ :=
    persisted_settings_defaults hdSettingsState smallStream [] 1 1 "abc" 2
  exact ⟨rfl, (hres rfl).1, (hres rfl).2.1, (hfps rfl).1, (hfacing rfl).1, by decide,
    by norm_num, by norm_num, (hnum 1920 1080 (by decide)).2.2.1 (by norm_num),
    (hnum 1920 1080 (by decide)).2.2.2.1 (by norm_num)⟩

/-- Counterexample to C23 as stated: the persisted resolution `"9007199254740993x720"` is not
read as the pair (9007199254740993, 720). `Number` rounds the width to the nearest double,
9007199254740992. -/
theorem huge_width_is_rounded :
    hugeWidthState.localStorage.cameraResolution = some "9007199254740993x720" ∧
    (cameraConstraints hugeWidthState).width = some (.finite 9007199254740992) ∧
    (cameraConstraints hugeWidthState).width ≠ some (.finite 9007199254740993) ∧
    (cameraConstraints hugeWidthState).height = some (.finite 720) := by
  have hc := cameraConstraints_digits hugeWidthState "9007199254740993".toList "720".toList
    (by decide) (by decide) (by decide) (by decide) rfl
  have hw : digitsValue 10 "9007199254740993".toList = 9007199254740993 := by decide
  have hh : digitsValue 10 "720".toList = 720 := by decide
  rw [hw, hh, roundToDouble_above, roundToDouble_natCast 720 (by norm_num)] at hc
  refine ⟨rfl, hc.1, ?_, ?_⟩
  · rw [hc.1]
    intro heq
    simp only [Option.some.injEq, JsNumber.finite.injEq] at heq
    norm_num at heq
  · rw [hc.2]
    norm_num

/-! ## Stopping the capture while a session is current -/

/-- C14, as the script has it: stopping the capture while a session is current always
completes the current session object (end time `now`, status `'completed'`, duration
`floor((endTime - startTime) / 1000)`, a number for every session opened by
`startNewSession`, whose start time is a `Date`, and non-negative when
`endTime ≥ startTime`), changes no other object, and leaves no session current, the capture
not active and no stream held. When the lookup by `id` finds the session in the history (as
it does in every reachable state whose history is not empty, where the session is the head),
the history array is unchanged, the completed session is an entry of the history and the
stored history is the serialization of the history. When the lookup does not find it (as in
every reachable state whose history was cleared during the capture), the history array, the
history and the stored history stay as they were: nothing is saved. -/
theorem stopCamera_closes_session (st : State) (now : Int) (c : Nat) (s : Session)
    (hcur : st.currentSession = some c) (hobj : st.heap[c]? = some s) :
    (stopCamera st now).heap[c]? =
      some { s with
        endTime := some (.date now)
        status := "completed"
        duration := some (durationSeconds (.date now) s.startTime) } ∧
    (∀ r, r ≠ c → (stopCamera st now).heap[r]? = st.heap[r]?) ∧
    (stopCamera st now).currentSession = none ∧
    (stopCamera st now).cameraActive = false ∧
    (stopCamera st now).cameraStream = none ∧
    (∀ i, lookupIndex st c = some i → st.sessionHistory[i]? = some c →
      OnlySessionChanged st (stopCamera st now) c
        { s with
          endTime := some (.date now)
          status := "completed"
          duration := some (durationSeconds (.date now) s.startTime) } ∧
      { s with
          endTime := some (.date now)
          status := "completed"
          duration := some (durationSeconds (.date now) s.startTime) } ∈
        (stopCamera st now).history) ∧
    (lookupIndex st c = none → HistoryKept st (stopCamera st now)) ∧
    (CurrentInv st → st.sessionHistory ≠ [] →
      lookupIndex st c = some 0 ∧ st.sessionHistory[0]? = some c) ∧
    (CurrentInv st → st.sessionHistory = [] →
      lookupIndex st c = none ∧ (stopCamera st now).history = []) ∧
    (∀ t0 : Int, s.startTime = .date t0 →
      durationSeconds (.date now) s.startTime = some ((now - t0) / 1000) ∧
      (now - t0) / 1000 = ⌊(((now - t0 : Int) : ℚ)) / 1000⌋ ∧
      (t0 ≤ now → 0 ≤ (now - t0) / 1000)) := by
  obtain ⟨heap, hist, blob, hframe⟩ := stopCamera_frame st now
  have hheap := stopCamera_heap st now c hcur
  have hkept : lookupIndex st c = none → HistoryKept st (stopCamera st now) := by
    intro hnone
    have hdet : CurrentNotInHistory st := by
      intro c2 hc2
      rw [hcur] at hc2
      cases hc2
      exact hnone
    exact (evolves_detached st _ (evolves_stopCamera st now) hdet).1
  refine ⟨?_, ?_, by rw [hframe], by rw [hframe], by rw [hframe], ?_, hkept, ?_, ?_, ?_⟩
  · rw [hheap]
    exact updateObject_getElem?_self st.heap c _ s hobj
  · intro r hr
    rw [hheap]
    exact updateObject_getElem?_ne st.heap c r _ hr
  · intro i hfind hget
    have hch := stopCamera_found st now c i s hcur hobj hfind hget
    refine ⟨hch, ?_⟩
    obtain ⟨h1, _, _, h4, _, _⟩ := hch
    unfold State.history
    rw [List.mem_filterMap]
    refine ⟨c, ?_, h1⟩
    rw [h4]
    exact List.getElem?_mem hget
  · intro hinv hne
    obtain ⟨_, hhead⟩ := (currentInv_some st c hcur).mp hinv
    rcases hhead with hnil | hhd
    · exact absurd hnil hne
    · cases hl : st.sessionHistory with
      | nil => exact absurd hl hne
      | cons x rest =>
        rw [hl] at hhd
        simp only [List.head?_cons, Option.some.injEq] at hhd
        subst hhd
        exact ⟨lookupIndex_head st x rest s hobj hl, List.getElem?_cons_zero⟩
  · intro _ hnil
    have hnone := lookupIndex_nil st c hnil
    refine ⟨hnone, ?_⟩
    rw [(hkept hnone).2.1]
    unfold State.history
    rw [hnil]
    rfl
  · intro t0 ht0
    rw [ht0]
    exact durationSeconds_date now t0

/-- Witness of C14: stopping the capture started from the initial state. -/
theorem stopCamera_closes_session_witness :
    activeCameraState.currentSession = some 0 ∧
    activeCameraState.heap[0]? = some sampleSession ∧
    lookupIndex activeCameraState 0 = some 0 ∧
    activeCameraState.sessionHistory[0]? = some 0 ∧
    OnlySessionChanged activeCameraState (stopCamera activeCameraState 7003) 0
      { sampleSession with
        endTime := some (.date 7003)
        status := "completed"
        duration := some (durationSeconds (.date 7003) sampleSession.startTime) } ∧
    durationSeconds (.date 7003) sampleSession.startTime = some 7 :=
  ⟨by decide, by decide, by decide, by decide,
    ((stopCamera_closes_session activeCameraState 7003 0 sampleSession (by decide)
      (by decide)).2.2.2.2.2.1 0 (by decide) (by decide)).1,
    by decide⟩

/-- Counterexample to C14 as stated: the history is cleared while the capture runs, then the
capture is stopped. The session object is completed and no session is current, but the
history has no entry for it and the stored history is the empty sequence written by the
clearing: the closed session is not persisted. -/
theorem stop_after_clear_closes_no_entry :
    (runPipeline State.init (clearThenStopOps.take 3)).cameraActive = true ∧
    (runPipeline State.init (clearThenStopOps.take 3)).currentSession = some 0 ∧
    (runPipeline State.init clearThenStopOps).currentSession = none ∧
    (runPipeline State.init clearThenStopOps).heap.map (fun s => (s.status, s.duration)) =
      [("completed", some (some 7))] ∧
    (runPipeline State.init clearThenStopOps).history = [] ∧
    (runPipeline State.init clearThenStopOps).localStorage.vigilanteye_session_history =
      some (.parsed []) := by
  decide

/-! ## The sessions opened since a load -/

theorem freshInv_none (base : List Session) (st : State) (h : st.currentSession = none) :
    FreshInv base st ↔
      base.length ≤ st.heap.length ∧ (∀ r, r < base.length → st.heap[r]? = base[r]?) ∧
        ∀ r, base.length ≤ r → isActive st r = false := by
  unfold FreshInv
  rw [h]

theorem freshInv_some (base : List Session) (st : State) (c : Nat)
    (h : st.currentSession = some c) :
    FreshInv base st ↔
      base.length ≤ st.heap.length ∧ (∀ r, r < base.length → st.heap[r]? = base[r]?) ∧
        base.length ≤ c ∧ isActive st c = true ∧ st.sessionHistory.head? = some c ∧
          ∀ r, base.length ≤ r → r ≠ c → isActive st r = false := by
  unfold FreshInv
  rw [h]

theorem freshInv_currentInv (base : List Session) (st : State) (h : FreshInv base st) :
    CurrentInv st := by
  rcases hcur : st.currentSession with _ | c
  · exact currentInv_none st hcur
  · obtain ⟨_, _, _, hact, hhead, _⟩ := (freshInv_some base st c hcur).mp h
    exact (currentInv_some st c hcur).mpr ⟨hact, Or.inr hhead⟩

/-- A step that at most writes to the current session keeps the invariant. -/
theorem evolves_freshInv (base : List Session) (st st2 : State) (h : Evolves st st2)
    (hinv : FreshInv base st) : FreshInv base st2 := by
  obtain ⟨hci2, hhist, _⟩ := evolves_currentInv st st2 h (freshInv_currentInv base st hinv)
  rcases h with ⟨hh, hs, hc, _⟩ | ⟨c, f, hcur, hid, hw, hend⟩
  · have hact : ∀ r, isActive st2 r = isActive st r :=
      fun r => isActive_of_getElem? st st2 r (by rw [hh])
    rcases hcur : st.currentSession with _ | c
    · obtain ⟨hlen, hl, hn⟩ := (freshInv_none base st hcur).mp hinv
      rw [freshInv_none base st2 (hc.trans hcur)]
      refine ⟨by rw [hh]; exact hlen, ?_, ?_⟩
      · intro r hr
        rw [hh]
        exact hl r hr
      · intro r hr
        rw [hact]
        exact hn r hr
    · obtain ⟨hlen, hl, hge, ha, hhead, hn⟩ := (freshInv_some base st c hcur).mp hinv
      rw [freshInv_some base st2 c (hc.trans hcur)]
      refine ⟨by rw [hh]; exact hlen, ?_, hge, ?_, ?_, ?_⟩
      · intro r hr
        rw [hh]
        exact hl r hr
      · rw [hact]
        exact ha
      · rw [hs]
        exact hhead
      · intro r hr hne
        rw [hact]
        exact hn r hr hne
  · obtain ⟨hlen, hl, hge, ha, hhead, hn⟩ := (freshInv_some base st c hcur).mp hinv
    have hheap := hw.1
    have hother : ∀ r, r ≠ c → st2.heap[r]? = st.heap[r]? := by
      intro r hr
      rw [hheap]
      exact updateObject_getElem?_ne st.heap c r f hr
    have hlen2 : base.length ≤ st2.heap.length := by
      rw [hheap, updateObject_length]
      exact hlen
    have hloaded : ∀ r, r < base.length → st2.heap[r]? = base[r]? := by
      intro r hr
      rw [hother r (by omega)]
      exact hl r hr
    have hinact : ∀ r, base.length ≤ r → r ≠ c → isActive st2 r = false := by
      intro r hr hne
      rw [isActive_of_getElem? st st2 r (hother r hne)]
      exact hn r hr hne
    rcases hend with ⟨hc2, _⟩ | ⟨hnone, hdone⟩
    · rw [freshInv_some base st2 c hc2]
      refine ⟨hlen2, hloaded, hge, ((currentInv_some st2 c hc2).mp hci2).1, ?_, hinact⟩
      rw [hhist]
      exact hhead
    · rw [freshInv_none base st2 hnone]
      refine ⟨hlen2, hloaded, ?_⟩
      intro r hr
      by_cases hrc : r = c
      · subst hrc
        unfold isActive
        rw [hheap]
        cases hobj : st.heap[r]? with
        | none =>
          unfold isActive at ha
          simp [hobj] at ha
        | some s0 =>
          rw [updateObject_getElem?_self st.heap r f s0 hobj]
          simp [hdone]
      · exact hinact r hr hrc

theorem startNewSession_getElem?_lt (st : State) (idNow : Int) (random : String) (now : Int)
    (r : Nat) (hr : r < st.heap.length) :
    (startNewSession st idNow random now).heap[r]? = st.heap[r]? := by
  simp only [startNewSession, addToSessionHistory, saveSessionHistory_heap]
  rw [List.getElem?_append_left hr]

theorem startNewSession_heap_length (st : State) (idNow : Int) (random : String) (now : Int) :
    (startNewSession st idNow random now).heap.length = st.heap.length + 1 := by
  simp [startNewSession, addToSessionHistory]

/-- Opening a session while no session is current keeps the invariant. -/
theorem freshInv_startNewSession (base : List Session) (st : State) (idNow : Int)
    (random : String) (now : Int) (hinv : FreshInv base st)
    (hcur : st.currentSession = none) :
    FreshInv base (startNewSession st idNow random now) := by
  obtain ⟨hlen, hl, hn⟩ := (freshInv_none base st hcur).mp hinv
  obtain ⟨hcur2, _, hobj⟩ := startNewSession_opens st idNow random now
  have hlen2 := startNewSession_heap_length st idNow random now
  rw [freshInv_some base _ st.heap.length hcur2]
  refine ⟨by omega, ?_, hlen, ?_, ?_, ?_⟩
  · intro r hr
    rw [startNewSession_getElem?_lt st idNow random now r (by omega)]
    exact hl r hr
  · unfold isActive
    rw [hobj]
    rfl
  · rw [startNewSession_sessionHistory]
    rfl
  · intro r hr hne
    rcases Nat.lt_or_ge r st.heap.length with hlt | hge
    · rw [isActive_of_getElem? st _ r (startNewSession_getElem?_lt st idNow random now r hlt)]
      exact hn r hr
    · unfold isActive
      rw [List.getElem?_eq_none (by omega)]
      rfl

/-- Every alternating sequence of operations keeps the invariant. -/
theorem freshInv_runOps (base : List Session) (ops : List SessionOp) :
    ∀ st, FreshInv base st → validOps st ops = true → FreshInv base (runOps st ops) := by
  induction ops with
  | nil =>
    intro st hinv _
    exact hinv
  | cons op ops ih =>
    intro st hinv hvalid
    unfold runOps
    rw [List.foldl_cons]
    cases op with
    | start idNow random now =>
      simp only [validOps, Bool.and_eq_true, Option.isNone_iff_eq_none] at hvalid
      exact ih _ (freshInv_startNewSession base st idNow random now hinv hvalid.1) hvalid.2
    | stop now =>
      exact ih _ (evolves_freshInv base st _ (evolves_endCurrentSession st now) hinv) hvalid
    | screenshot d =>
      exact ih _ (evolves_freshInv base st _ (evolves_addScreenshotToSession st d) hinv) hvalid
    | recording d =>
      exact ih _ (evolves_freshInv base st _ (evolves_addRecordingToSession st d) hinv) hvalid
    | motionEvent d =>
      exact ih _ (evolves_freshInv base st _ (evolves_addMotionEventToSession st d) hinv)
        hvalid
    | frame data now =>
      exact ih _ (evolves_freshInv base st _ (evolves_detectMotion st data now) hinv) hvalid
    | toggleMotion checked =>
      exact ih _ (evolves_freshInv base st _
        (Or.inl (sameStore_toggleMotionDetection st checked)) hinv) hvalid

/-- C11, as the script has it: after a stored history is loaded while no session is current,
the active entries of the history are the sessions stored as active, and they stay active:
along every sequence of operations in which starts and stops alternate, every object that
was in the heap after the load is never written. At most one session opened since the load is
active: an object allocated since the load that is active is the current session, and the
current session was allocated since the load, is active and is the head of the history. So
the number of active entries never exceeds the number loaded as active by more than one, it
does not exceed that number when no session is current, and it is at most one when no session
was stored as active. -/
theorem active_sessions_after_load (st st1 : State) (sessions : List Session)
    (ops : List SessionOp)
    (hcur : st.currentSession = none)
    (hblob : st.localStorage.vigilanteye_session_history = some (.parsed sessions))
    (hload : loadSessionHistory st = .ok st1)
    (hvalid : validOps st1 ops = true) :
    activeCount st1 = sessions.countP (fun s => decide (s.status = "active")) ∧
    (∀ r, r < st1.heap.length →
      (runOps st1 ops).heap[r]? = st1.heap[r]? ∧
      isActive (runOps st1 ops) r = isActive st1 r) ∧
    (∀ r, st1.heap.length ≤ r → isActive (runOps st1 ops) r = true →
      (runOps st1 ops).currentSession = some r) ∧
    (∀ c, (runOps st1 ops).currentSession = some c →
      st1.heap.length ≤ c ∧ isActive (runOps st1 ops) c = true ∧
      (runOps st1 ops).sessionHistory[0]? = some c ∧
      (runOps st1 ops).sessionHistory.tail.countP (isActive (runOps st1 ops)) ≤
        activeCount st1) ∧
    activeCount (runOps st1 ops) ≤ activeCount st1 + 1 ∧
    ((runOps st1 ops).currentSession = none → activeCount (runOps st1 ops) ≤ activeCount st1) ∧
    (sessions.countP (fun s => decide (s.status = "active")) = 0 →
      activeCount (runOps st1 ops) ≤ 1) := by
  obtain ⟨st2, hload2, _, hheap, hhist, hcur2, _⟩ := loadSessionHistory_parsed st sessions hblob
  rw [hload] at hload2
  cases hload2
  have hcur1 : st1.currentSession = none := by
    rw [hcur2]
    exact hcur
  have hcount : activeCount st1 = sessions.countP (fun s => decide (s.status = "active")) := by
    unfold activeCount
    rw [hhist]
    exact countP_isActive_range' st st1 sessions hheap
  have hinit : StaleInv (activeCount st1) st1 := by
    rw [StaleInv_none _ st1 hcur1]
    refine ⟨?_, le_refl _⟩
    intro r hr
    rw [hhist] at hr
    rw [hheap, List.length_append]
    have := (List.mem_range'_1.mp hr).2
    omega
  have hfresh0 : FreshInv st1.heap st1 := by
    rw [freshInv_none _ st1 hcur1]
    refine ⟨le_refl _, fun _ _ => rfl, ?_⟩
    intro r hr
    unfold isActive
    rw [List.getElem?_eq_none hr]
    rfl
  have hfresh := freshInv_runOps st1.heap ops st1 hfresh0 hvalid
  have hinv := StaleInv_runOps (activeCount st1) ops st1 hinit hvalid
  generalize activeCount st1 = k at hinv hcount
  generalize runOps st1 ops = st3 at hinv hfresh
  have hnone : st3.currentSession = none → activeCount st3 ≤ k := by
    intro h
    exact ((StaleInv_none k st3 h).mp hinv).2
  have hle : activeCount st3 ≤ k + 1 := by
    cases h : st3.currentSession with
    | none => exact le_trans (hnone h) (Nat.le_succ k)
    | some c =>
      obtain ⟨_, _, rest, hh, _, hrest⟩ := (StaleInv_some k st3 c h).mp hinv
      unfold activeCount
      rw [hh, List.countP_cons]
      split <;> omega
  have hloaded : ∀ r, r < st1.heap.length → st3.heap[r]? = st1.heap[r]? := by
    rcases h : st3.currentSession with _ | c
    · exact ((freshInv_none st1.heap st3 h).mp hfresh).2.1
    · exact ((freshInv_some st1.heap st3 c h).mp hfresh).2.1
  refine ⟨hcount, ?_, ?_, ?_, hle, hnone, ?_⟩
  · intro r hr
    refine ⟨hloaded r hr, ?_⟩
    unfold isActive
    rw [hloaded r hr]
  · intro r hr hactive
    rcases h : st3.currentSession with _ | c
    · rw [((freshInv_none st1.heap st3 h).mp hfresh).2.2 r hr] at hactive
      cases hactive
    · obtain ⟨_, _, _, _, _, hn⟩ := (freshInv_some st1.heap st3 c h).mp hfresh
      by_cases hrc : r = c
      · rw [hrc]
      · rw [hn r hr hrc] at hactive
        cases hactive
  · intro c h
    obtain ⟨_, _, hge, hact, _, _⟩ := (freshInv_some st1.heap st3 c h).mp hfresh
    obtain ⟨_, _, rest, hh, _, hrest⟩ := (StaleInv_some k st3 c h).mp hinv
    refine ⟨hge, hact, ?_, ?_⟩
    · rw [hh]
      exact List.getElem?_cons_zero
    · rw [hh]
      exact hrest
  · intro h0
    rw [hcount, h0] at hle
    exact hle

/-- Witness of C11: the page loaded again during a capture, then a capture started and
stopped. -/
theorem active_sessions_after_load_witness :
    reloadedState.currentSession = none ∧
    reloadedState.localStorage.vigilanteye_session_history =
      some (.parsed [sampleSession.toJSON]) ∧
    loadSessionHistory reloadedState = .ok reloadedLoadedState ∧
    validOps reloadedLoadedState [.start 8 "def" 9, .stop 10] = true ∧
    isActive (runOps reloadedLoadedState [.start 8 "def" 9, .stop 10]) 0 =
      isActive reloadedLoadedState 0 ∧
    activeCount (runOps reloadedLoadedState [.start 8 "def" 9, .stop 10]) ≤
      activeCount reloadedLoadedState + 1 :=
  ⟨by decide, by decide, rfl, by decide,
    ((active_sessions_after_load reloadedState reloadedLoadedState [sampleSession.toJSON]
      [.start 8 "def" 9, .stop 10] (by decide) (by decide) rfl (by decide)).2.1 0
      (by decide)).2,
    (active_sessions_after_load reloadedState reloadedLoadedState [sampleSession.toJSON]
      [.start 8 "def" 9, .stop 10] (by decide) (by decide) rfl (by decide)).2.2.2.2.1⟩

end VigilantEye
